import Mathlib

/-! The iterator layer of knot-resolver (`lib/layer/iterate.c`).

A shallow embedding of the iterator layer: the query minimizer, the pairing
check, the packet classifier, the section walks and the two entry points
`prepare_query` and `resolve`.

Modelling conventions.

* A domain name is the list of its labels, leftmost label first, without the
  terminating root label: the root name is `[]` and `www.example.com` is
  `["www", "example", "com"]`.  A label stands for its class under the label
  comparison of libknot, so that name equality is equality of lists.
* Machine integers of the source (`uint16_t` ids, types and classes, the flag
  bitset) are natural numbers; the only arithmetic of the source on them is
  bitwise and/or with single-bit masks and `+ 1` on label counts.
* A C pointer to a query of the plan is the number of queries beneath it in
  the plan (its index from the bottom of the LIFO), which no push or pop of
  a query above it changes; the queries that parent pointers point at lie
  beneath the query that holds the pointer.  A pointer into the buffer of a
  name is the name it points at together with its distance, in labels, from
  the start of the buffer.
* The functions of libknot (external library) and of `lib/rplan.c`,
  `lib/zonecut.c` (not among the sources at hand) are modelled from their
  description in the specification; each such definition says so.
-/

namespace Iterate

/-! ## Names -/

/-- One label of a domain name. -/
abbrev Label := String

/-- A domain name: its labels, leftmost first, the root label left out. -/
abbrev knot_dname_t := List Label

/-- Modelled from the spec: `knot_dname_labels` of libknot, `labels(n)`, the
number of labels of a name (the root name has none). -/
def knot_dname_labels (n : knot_dname_t) : Nat := n.length

/-- Modelled from the spec: `knot_wire_next_label` of libknot, `next_label(n)`,
the name that starts one label further to the right. -/
def knot_wire_next_label (n : knot_dname_t) : knot_dname_t := n.tail

/-- Modelled from the spec: `knot_dname_is_equal` of libknot, `equal(a,b)`. -/
def knot_dname_is_equal (a b : knot_dname_t) : Bool := a == b

/-- Modelled from the spec: `knot_dname_in(domain, sub)` of libknot,
`in_bailiwick(child, parent)`: `sub` is in-bailiwick of `domain` iff `domain`
is a suffix of `sub` in label units. -/
def knot_dname_in (domain sub : knot_dname_t) : Bool := domain.isSuffixOf sub

/-! ## Constants of libknot and of the resolver headers -/

def KNOT_RRTYPE_A : Nat := 1
def KNOT_RRTYPE_NS : Nat := 2
def KNOT_RRTYPE_CNAME : Nat := 5
def KNOT_RRTYPE_SOA : Nat := 6
def KNOT_RRTYPE_AAAA : Nat := 28
def KNOT_RRTYPE_OPT : Nat := 41
def KNOT_CLASS_IN : Nat := 1
def KNOT_CLASS_ANY : Nat := 255
def KNOT_RCODE_NOERROR : Nat := 0
def KNOT_RCODE_NXDOMAIN : Nat := 3

/-- Modelled from the spec: the flag `NO_MINIMIZE` of a query (`lib/rplan.h`
is not among the sources); a single-bit mask. -/
def QUERY_NO_MINIMIZE : Nat := 1 <<< 0

/-- Modelled from the spec: the flag `TCP` of a query (`lib/rplan.h` is not
among the sources); a single-bit mask, distinct from `QUERY_NO_MINIMIZE`. -/
def QUERY_TCP : Nat := 1 <<< 1

/-- Modelled from the spec: the UDP payload size declared in the OPT record
(`lib/defines.h` is not among the sources), default 4096. -/
def KR_EDNS_PAYLOAD : Nat := 4096

/-- Modelled from the spec: the EDNS version declared in the OPT record
(`lib/defines.h` is not among the sources), version 0. -/
def KR_EDNS_VERSION : Nat := 0

/-- Processing states of a layer (`KNOT_NS_PROC_*` of libknot). -/
inductive ProcState where
  | NOOP
  | MORE
  | FULL
  | DONE
  | FAIL
  deriving DecidableEq, Repr

/-- Packet classification, lines 32-37. -/
inductive PktClass where
  | PKT_NOERROR
  | PKT_NODATA
  | PKT_NXDOMAIN
  | PKT_ERROR
  deriving DecidableEq, Repr

/-! ## Records, packets, zone cuts, queries -/

/-- Resource record set as the iterator reads it.  `rdata_name` is the domain
name at the start of the first rdata (what `knot_ns_name` and
`knot_cname_name` return), `rdata` the raw bytes of the first rdata (the
address of an A or AAAA record). -/
structure knot_rrset_t where
  owner : knot_dname_t
  type : Nat
  rclass : Nat
  ttl : Nat
  rdata_name : knot_dname_t
  rdata : List Nat
  deriving DecidableEq, Repr

/-- The name server name of an NS record (`knot_ns_name` of libknot). -/
def knot_ns_name (rr : knot_rrset_t) : knot_dname_t := rr.rdata_name

/-- The target of a CNAME record (`knot_cname_name` of libknot). -/
def knot_cname_name (rr : knot_rrset_t) : knot_dname_t := rr.rdata_name

/-- A DNS message: header fields, the question (a message carries one), the
three record sections, the parse position `parsed` against the wire length
`size`; when the message is being built, `size` is the number of bytes
written, `max_size` the room of the buffer and `current` the section being
written (0 ANSWER, 1 AUTHORITY, 2 ADDITIONAL). -/
structure knot_pkt_t where
  id : Nat
  rcode : Nat
  tc : Bool
  qname : knot_dname_t
  qclass : Nat
  qtype : Nat
  answer : List knot_rrset_t
  authority : List knot_rrset_t
  additional : List knot_rrset_t
  parsed : Nat
  size : Nat
  max_size : Nat
  current : Nat
  deriving DecidableEq, Repr

/-- Zone cut: the delegation point, its name server and the addresses known
for that name server. -/
structure kr_zonecut where
  name : knot_dname_t
  ns : knot_dname_t
  addrs : List (List Nat)
  deriving DecidableEq, Repr

/-- A query of the resolution plan; `parent` is the pointer to the parent
query, `none` for `NULL`. -/
structure kr_query where
  parent : Option Nat
  sname : knot_dname_t
  sclass : Nat
  stype : Nat
  id : Nat
  flags : Nat
  zone_cut : kr_zonecut
  deriving DecidableEq, Repr

/-! ## Query minimizer, lines 43-65 -/

/-- The `while` loop of lines 54-57.  The state is the pointer `qname`: the
name it points at and the number of labels it has moved from `query->sname`;
the recursion is on `qname_labels`. -/
def minimized_walk (cut_labels : Nat) : Nat → knot_dname_t × Nat → knot_dname_t × Nat
  | 0, st => st
  | n + 1, st =>
    if n + 1 > cut_labels + 1 then
      minimized_walk cut_labels n (knot_wire_next_label st.1, st.2 + 1)
    else st

/-- `minimized_qname(query, &qtype)`: the returned name and the value left in
`*qtype`, whose value on entry is `qtype`. -/
def minimized_qname (query : kr_query) (qtype : Nat) : knot_dname_t × Nat :=
  if query.flags &&& QUERY_NO_MINIMIZE ≠ 0 then
    (query.sname, qtype)
  else
    let cut_labels := knot_dname_labels query.zone_cut.name
    let qname_labels := knot_dname_labels query.sname
    let w := minimized_walk cut_labels qname_labels (query.sname, 0)
    -- `qname != query->sname` compares pointers: the pointer has moved
    if w.2 ≠ 0 then (w.1, KNOT_RRTYPE_NS) else (w.1, qtype)

/-- `is_paired_to_query(answer, query)`, lines 68-77. -/
def is_paired_to_query (answer : knot_pkt_t) (query : kr_query) : Bool :=
  let m := minimized_qname query query.stype
  query.id == answer.id &&
  (query.sclass == KNOT_CLASS_ANY || query.sclass == answer.qclass) &&
  m.2 == answer.qtype &&
  knot_dname_is_equal m.1 answer.qname

/-- `response_classify(pkt)`, lines 80-91. -/
def response_classify (pkt : knot_pkt_t) : PktClass :=
  if pkt.rcode = KNOT_RCODE_NOERROR then
    (if pkt.answer.length = 0 then PktClass.PKT_NODATA else PktClass.PKT_NOERROR)
  else if pkt.rcode = KNOT_RCODE_NXDOMAIN then PktClass.PKT_NXDOMAIN
  else PktClass.PKT_ERROR

/-! ## Packet builder (libknot) -/

def KNOT_ANSWER : Nat := 0
def KNOT_AUTHORITY : Nat := 1
def KNOT_ADDITIONAL : Nat := 2

/-- Size of the DNS header on the wire. -/
def KNOT_WIRE_HEADER_SIZE : Nat := 12

/-- Wire size of a name: one length byte per label, its bytes, and the root
label. -/
def dname_wire_size (n : knot_dname_t) : Nat :=
  (n.map (fun l => l.length + 1)).sum + 1

/-- Wire size of a record: owner, then type, class, ttl and rdata length
(10 bytes), then the rdata. -/
def rr_wire_size (rr : knot_rrset_t) : Nat :=
  dname_wire_size rr.owner + 10 + rr.rdata.length

/-- Modelled from the spec: `knot_pkt_put` of libknot, `AnswerBuilder.put(rr,
hint)`: appends the record to the section being written and returns success,
or returns failure and leaves the message alone when the buffer would
overflow. -/
def knot_pkt_put (pkt : knot_pkt_t) (rr : knot_rrset_t) : Bool × knot_pkt_t :=
  if pkt.size + rr_wire_size rr > pkt.max_size then (false, pkt)
  else if pkt.current = KNOT_ANSWER then
    (true, { pkt with size := pkt.size + rr_wire_size rr, answer := pkt.answer ++ [rr] })
  else if pkt.current = KNOT_AUTHORITY then
    (true, { pkt with size := pkt.size + rr_wire_size rr, authority := pkt.authority ++ [rr] })
  else
    (true, { pkt with size := pkt.size + rr_wire_size rr, additional := pkt.additional ++ [rr] })

/-- Modelled from the spec: `knot_pkt_begin` of libknot, which selects the
section written next. -/
def knot_pkt_begin (pkt : knot_pkt_t) (section_id : Nat) : knot_pkt_t :=
  { pkt with current := section_id }

/-- Modelled from the spec: `knot_pkt_clear` of libknot, "clear the packet
builder": an empty message with a zeroed header in the same buffer. -/
def knot_pkt_clear (pkt : knot_pkt_t) : knot_pkt_t :=
  { id := 0, rcode := 0, tc := false, qname := [], qclass := 0, qtype := 0,
    answer := [], authority := [], additional := [], parsed := 0,
    size := KNOT_WIRE_HEADER_SIZE, max_size := pkt.max_size, current := KNOT_ANSWER }

/-- Modelled from the spec: `knot_pkt_put_question` of libknot, "write the
question"; fails when the question does not fit the buffer. -/
def knot_pkt_put_question (pkt : knot_pkt_t) (qname : knot_dname_t) (qclass qtype : Nat) :
    Bool × knot_pkt_t :=
  if pkt.size + dname_wire_size qname + 4 > pkt.max_size then (false, pkt)
  else (true, { pkt with qname := qname, qclass := qclass, qtype := qtype,
                         size := pkt.size + dname_wire_size qname + 4 })

/-- Modelled from the spec: the record made by `knot_edns_init` of libknot,
"an EDNS(0) OPT pseudo-RR declaring the configured UDP payload size and
version 0": owner root, class the payload size, no options. -/
def knot_edns_init (max_pld ext_rcode ver : Nat) : knot_rrset_t :=
  { owner := [], type := KNOT_RRTYPE_OPT, rclass := max_pld,
    ttl := ext_rcode * 2 ^ 24 + ver * 2 ^ 16, rdata_name := [], rdata := [] }

/-! ## Zone cut and resolution plan (`lib/zonecut.c`, `lib/rplan.c`) -/

/-- Modelled from the spec: `kr_set_zone_cut`, `set_name(new_name, new_ns)`
(`lib/zonecut.c` is not among the sources).  The addresses belong to the
name server, so a cut moved to a new name server starts without addresses
(scenario S1: the cut of the root with a known address becomes
`(com, a.gtld-servers.net, {192.5.6.30})`). -/
def kr_set_zone_cut (_cut : kr_zonecut) (name ns : knot_dname_t) : kr_zonecut :=
  { name := name, ns := ns, addrs := [] }

/-- Modelled from the spec: `kr_set_zone_cut_addr`, the storing half of
`set_ns_addr(rr, hint)` (`lib/zonecut.c` is not among the sources): appends
the address of an A or AAAA record to `ns_addrs` and reports success; any
other record is refused.  The check of the owner is in `update_nsaddr`. -/
def kr_set_zone_cut_addr (cut : kr_zonecut) (rr : knot_rrset_t) (_index : Nat) :
    Bool × kr_zonecut :=
  if rr.type = KNOT_RRTYPE_A ∨ rr.type = KNOT_RRTYPE_AAAA then
    (true, { cut with addrs := cut.addrs ++ [rr.rdata] })
  else (false, cut)

/-- Modelled from the spec: the resolution plan (`lib/rplan.c` is not among
the sources), a LIFO of queries with the current query at the head of
`pending`; `root_hints` is the caller-supplied zone cut of the root. -/
structure kr_rplan where
  pending : List kr_query
  root_hints : kr_zonecut
  deriving DecidableEq, Repr

/-- Modelled from the spec: `kr_rplan_current`, `current() → option<query>`. -/
def kr_rplan_current (rplan : kr_rplan) : Option kr_query := rplan.pending.head?

/-- Modelled from the spec: `kr_rplan_empty`, `empty() → bool`. -/
def kr_rplan_empty (rplan : kr_rplan) : Bool := rplan.pending.isEmpty

/-- The pointer that `kr_rplan_current` returns for a plan that is not
empty. -/
def rplan_top (rplan : kr_rplan) : Nat := rplan.pending.length - 1

/-- The query a pointer points at, in a list of queries with the topmost
first: the head has as many queries beneath it as the tail is long. -/
def query_at : List kr_query → Nat → Option kr_query
  | [], _ => none
  | q :: rest, ptr => if ptr = rest.length then some q else query_at rest ptr

/-- The list of queries after a write through a pointer. -/
def modify_at (f : kr_query → kr_query) : List kr_query → Nat → List kr_query
  | [], _ => []
  | q :: rest, ptr => if ptr = rest.length then f q :: rest else q :: modify_at f rest ptr

/-- Reading a query of the plan through a pointer. -/
def rplan_query (rplan : kr_rplan) (ptr : Nat) : Option kr_query :=
  query_at rplan.pending ptr

/-- Writing to a query of the plan through a pointer. -/
def rplan_modify (rplan : kr_rplan) (ptr : Nat) (f : kr_query → kr_query) : kr_rplan :=
  { rplan with pending := modify_at f rplan.pending ptr }

/-- Modelled from the spec: `kr_rplan_push`, `push(parent, sname, sclass,
stype) → query`: the new query becomes the current one; it "inherits zone
cut from parent when present, else from caller-supplied root hints".  The
new query starts with no flag set and no message id. -/
def kr_rplan_push (rplan : kr_rplan) (parent : Option Nat) (name : knot_dname_t)
    (cls type : Nat) : kr_rplan :=
  let cut := match parent.bind (rplan_query rplan) with
    | some p => p.zone_cut
    | none => rplan.root_hints
  let qry : kr_query :=
    { parent := parent, sname := name, sclass := cls, stype := type,
      id := 0, flags := 0, zone_cut := cut }
  { rplan with pending := qry :: rplan.pending }

/-- Outcome of an operation of the plan. -/
inductive PlanResult where
  | KNOT_EOK
  | PLAN_DISORDER
  deriving DecidableEq, Repr

/-- The list of queries without the query a pointer points at, `none` when
the pointer points at no query of the list.  The queries above the one
removed move down one place; in `process_answer` the only such query is the
follow-up query just pushed, to which no pointer is held. -/
def remove_at : List kr_query → Nat → Option (List kr_query)
  | [], _ => none
  | q :: rest, ptr =>
    if ptr = rest.length then some rest
    else (remove_at rest ptr).map (fun l => q :: l)

/-- Modelled from the spec: `kr_rplan_pop`, `pop(q)`: "removes the topmost
entry matching `q`; if `q` is not on top, the call fails with
`PLAN_DISORDER`".  The entry matching `q` is the query that `q` points at:
it is removed wherever it lies in the plan, and the value returned tells
whether it was on top.  That the query is removed from beneath the top as
well is what the response processor of the specification says ("push a
follow-up query ... In all cases pop the current query"), what its scenario
S3 expects ("new sub-query ... pushed ...; current query popped") and what
`process_answer` relies on at lines 242-246 ("Either way it resolves current
query"), where the value returned is not looked at.  A pointer that points
at no query of the plan leaves the plan as it was. -/
def kr_rplan_pop (rplan : kr_rplan) (qry : Nat) : PlanResult × kr_rplan :=
  match remove_at rplan.pending qry with
  | some l =>
    (if qry = rplan_top rplan then PlanResult.KNOT_EOK else PlanResult.PLAN_DISORDER,
      { rplan with pending := l })
  | none => (PlanResult.PLAN_DISORDER, rplan)

/-- Parameters of the layer: the plan and the answer being built for the
user. -/
structure kr_layer_param where
  rplan : kr_rplan
  answer : knot_pkt_t
  deriving DecidableEq, Repr

/-- Layer context: the state left by the previous call and the parameters. -/
structure knot_layer_t where
  state : ProcState
  data : kr_layer_param
  deriving DecidableEq, Repr

/-! ## Record handlers, lines 93-173 -/

/-- `follow_cname_chain(&cname, rr, cur)`, lines 93-105.  The pointer `cname`
is `none` while it is `cur->sname` itself and `some t` when it points at the
target `t` inside a CNAME record. -/
def follow_cname_chain (cname : Option knot_dname_t) (rr : knot_rrset_t) (cur : kr_query) :
    Option knot_dname_t :=
  if knot_dname_is_equal rr.owner (cname.getD cur.sname) then
    if rr.type = KNOT_RRTYPE_CNAME then some (knot_cname_name rr)
    else none
  else cname

/-- `update_nsaddr(rr, query, index)`, lines 107-123.  `query` is the pointer
passed, `none` for `NULL`; a pointer that points at no query of the plan is
not followed. -/
def update_nsaddr (rr : knot_rrset_t) (rplan : kr_rplan) (query : Option Nat) (index : Nat) :
    ProcState × kr_rplan :=
  match query with
  | none => (ProcState.MORE, rplan)
  | some ptr =>
    match rplan_query rplan ptr with
    | none => (ProcState.MORE, rplan)
    | some q =>
      if rr.type = KNOT_RRTYPE_A ∨ rr.type = KNOT_RRTYPE_AAAA then
        if knot_dname_is_equal q.zone_cut.ns rr.owner then
          let ret := kr_set_zone_cut_addr q.zone_cut rr index
          let rplan1 := rplan_modify rplan ptr (fun x => { x with zone_cut := ret.2 })
          if ret.1 then (ProcState.DONE, rplan1) else (ProcState.MORE, rplan1)
        else (ProcState.MORE, rplan)
      else (ProcState.MORE, rplan)

/-- `update_glue(rr, hint, param)`, lines 125-128. -/
def update_glue (rr : knot_rrset_t) (hint : Nat) (param : kr_layer_param) :
    ProcState × kr_layer_param :=
  let r := update_nsaddr rr param.rplan
    ((kr_rplan_current param.rplan).map (fun _ => rplan_top param.rplan)) hint
  (r.1, { param with rplan := r.2 })

/-- `rr_update_parent(rr, hint, param)`, lines 130-134. -/
def rr_update_parent (rr : knot_rrset_t) (hint : Nat) (param : kr_layer_param) :
    ProcState × kr_layer_param :=
  let r := update_nsaddr rr param.rplan
    ((kr_rplan_current param.rplan).bind (fun query => query.parent)) hint
  (r.1, { param with rplan := r.2 })

/-- `rr_update_answer(rr, hint, param)`, lines 136-151; `hint` is 0 at every
call, so the record is never released. -/
def rr_update_answer (rr : knot_rrset_t) (_hint : Nat) (param : kr_layer_param) :
    ProcState × kr_layer_param :=
  let ret := knot_pkt_put param.answer rr
  if ¬ ret.1 then
    (ProcState.DONE, { param with answer := { ret.2 with tc := true } })
  else
    (ProcState.DONE, { param with answer := ret.2 })

/-- `rr_update_nameserver(rr, hint, param)`, lines 153-173.  The current
query exists whenever `resolve` gets here; without one the record is
rejected. -/
def rr_update_nameserver (rr : knot_rrset_t) (_hint : Nat) (param : kr_layer_param) :
    ProcState × kr_layer_param :=
  match kr_rplan_current param.rplan with
  | none => (ProcState.FAIL, param)
  | some query =>
    let ns_name := knot_ns_name rr
    if ¬ knot_dname_in query.zone_cut.name rr.owner then
      (ProcState.FAIL, param)
    else if knot_dname_is_equal rr.owner query.zone_cut.name then
      (ProcState.MORE, param)
    else
      (ProcState.DONE,
        { param with
          rplan := rplan_modify param.rplan (rplan_top param.rplan)
            (fun x => { x with zone_cut := kr_set_zone_cut x.zone_cut rr.owner ns_name }) })

/-! ## Section walks, lines 175-273 -/

/-- The `for` loop of `process_authority`, lines 178-186, over the records
of the section that are still to be visited. -/
def process_authority_loop : List knot_rrset_t → kr_layer_param → ProcState × kr_layer_param
  | [], param => (ProcState.MORE, param)
  | rr :: rest, param =>
    if rr.type = KNOT_RRTYPE_NS then
      let r := rr_update_nameserver rr 0 param
      if r.1 ≠ ProcState.MORE then r
      else process_authority_loop rest r.2
    else process_authority_loop rest param

/-- `process_authority(pkt, param)`, lines 175-189. -/
def process_authority (pkt : knot_pkt_t) (param : kr_layer_param) : ProcState × kr_layer_param :=
  process_authority_loop pkt.authority param

/-- The `for` loop of `process_additional`, lines 197-203; `none` when the
loop runs to its end, `some` for the `return` inside. -/
def process_additional_loop : List knot_rrset_t → kr_layer_param →
    Option ProcState × kr_layer_param
  | [], param => (none, param)
  | rr :: rest, param =>
    let r := update_glue rr 0 param
    if r.1 ≠ ProcState.MORE then (some r.1, r.2)
    else process_additional_loop rest r.2

/-- `process_additional(pkt, param)`, lines 191-210.  The current query
exists whenever `resolve` gets here; without one the call fails. -/
def process_additional (pkt : knot_pkt_t) (param : kr_layer_param) : ProcState × kr_layer_param :=
  match kr_rplan_current param.rplan with
  | none => (ProcState.FAIL, param)
  | some query0 =>
    let query := rplan_top param.rplan
    let r := process_additional_loop pkt.additional param
    match r.1 with
    | some state => (state, r.2)
    | none =>
      -- `query->zone_cut.ns` is read through the pointer at each push
      let ns1 := ((rplan_query r.2.rplan query).getD query0).zone_cut.ns
      let rplan1 := kr_rplan_push r.2.rplan (some query) ns1 KNOT_CLASS_IN KNOT_RRTYPE_AAAA
      let ns2 := ((rplan_query rplan1 query).getD query0).zone_cut.ns
      let rplan2 := kr_rplan_push rplan1 (some query) ns2 KNOT_CLASS_IN KNOT_RRTYPE_A
      (ProcState.DONE, { r.2 with rplan := rplan2 })

/-- The `for` loop of `process_answer`, lines 231-238: the records still to
be visited, the pointer `cname` and the parameters; `some` state for the
`return` inside the loop. -/
def process_answer_loop (is_final : Bool) (query : kr_query) :
    List knot_rrset_t → Option knot_dname_t → kr_layer_param →
    Option ProcState × Option knot_dname_t × kr_layer_param
  | [], cname, param => (none, cname, param)
  | rr :: rest, cname, param =>
    let r := if is_final then rr_update_answer rr 0 param else rr_update_parent rr 0 param
    if r.1 = ProcState.FAIL then (some r.1, cname, r.2)
    else process_answer_loop is_final query rest (follow_cname_chain cname rr query) r.2

/-- `process_answer(pkt, param)`, lines 212-249.  The current query exists
whenever `resolve` gets here; without one the call fails. -/
def process_answer (pkt : knot_pkt_t) (param : kr_layer_param) : ProcState × kr_layer_param :=
  match kr_rplan_current param.rplan with
  | none => (ProcState.FAIL, param)
  | some query =>
    let is_final := query.parent.isNone
    let pkt_class := response_classify pkt
    if ¬ knot_dname_is_equal pkt.qname query.sname ∧
        (pkt_class = PktClass.PKT_NXDOMAIN ∨ pkt_class = PktClass.PKT_NODATA) then
      (ProcState.DONE,
        { param with
          rplan := rplan_modify param.rplan (rplan_top param.rplan)
            (fun x => { x with flags := x.flags ||| QUERY_NO_MINIMIZE }) })
    else
      let r := process_answer_loop is_final query pkt.answer none param
      match r.1 with
      | some state => (state, r.2.2)
      | none =>
        let param1 := r.2.2
        -- `cname != query->sname` compares pointers
        let rplan1 := match r.2.1 with
          | some cname => kr_rplan_push param1.rplan query.parent cname query.sclass query.stype
          | none => param1.rplan
        -- the value returned by `kr_rplan_pop` is not looked at
        let rplan2 := (kr_rplan_pop rplan1 (rplan_top param.rplan)).2
        (ProcState.DONE, { param1 with rplan := rplan2 })

/-- The search of lines 265-271 for the first SOA record. -/
def finalize_soa : List knot_rrset_t → kr_layer_param → kr_layer_param
  | [], param => param
  | rr :: rest, param =>
    if rr.type = KNOT_RRTYPE_SOA then (rr_update_answer rr 0 param).2
    else finalize_soa rest param

/-- `finalize_answer(pkt, param)`, lines 251-273. -/
def finalize_answer (pkt : knot_pkt_t) (param : kr_layer_param) : kr_layer_param :=
  let answer1 := { param.answer with rcode := pkt.rcode }
  let answer2 := knot_pkt_begin answer1 KNOT_AUTHORITY
  let param1 := { param with answer := answer2 }
  let pkt_class := response_classify pkt
  if pkt_class = PktClass.PKT_NXDOMAIN ∨ pkt_class = PktClass.PKT_NODATA then
    finalize_soa pkt.authority param1
  else param1

/-- `resolve_error(pkt, param)`, lines 276-279. -/
def resolve_error (_pkt : knot_pkt_t) (_param : kr_layer_param) : ProcState := ProcState.FAIL

/-! ## Entry points of the layer, lines 282-406 -/

/-- `reset(ctx)`, line 282. -/
def reset (_ctx : knot_layer_t) : ProcState := ProcState.FULL

/-- `finish(ctx)`, line 283. -/
def finish (_ctx : knot_layer_t) : ProcState := ProcState.NOOP

/-- `begin(ctx, module_param)`, lines 286-290: the state returned and the
context with its parameters attached. -/
def begin (ctx : knot_layer_t) (module_param : kr_layer_param) : ProcState × knot_layer_t :=
  let ctx1 := { ctx with data := module_param }
  (reset ctx1, ctx1)

/-- `prepare_query(ctx, pkt)`, lines 292-338: the state returned, the
parameters and the packet after the call.  `rnd` is the value drawn by
`dnssec_random_uint16_t()` and `alloc_ok` tells whether the allocation made
by `knot_edns_init` succeeds. -/
def prepare_query (ctx : knot_layer_t) (pkt : knot_pkt_t) (rnd : Nat) (alloc_ok : Bool) :
    ProcState × kr_layer_param × knot_pkt_t :=
  let param := ctx.data
  match kr_rplan_current param.rplan with
  | none => (ctx.state, param, pkt)
  | some query =>
    if ctx.state = ProcState.DONE then (ctx.state, param, pkt)
    else
      let m := minimized_qname query query.stype
      let pkt1 := knot_pkt_clear pkt
      let ret := knot_pkt_put_question pkt1 m.1 query.sclass m.2
      if ¬ ret.1 then (ProcState.FAIL, param, ret.2)
      else
        let id := rnd % 2 ^ 16
        let param1 : kr_layer_param :=
          { param with
            rplan := rplan_modify param.rplan (rplan_top param.rplan) (fun x => { x with id := id }) }
        let pkt2 := { ret.2 with id := id }
        if ¬ alloc_ok then (ProcState.FAIL, param1, pkt2)
        else
          let opt_rr := knot_edns_init KR_EDNS_PAYLOAD 0 KR_EDNS_VERSION
          let pkt3 := knot_pkt_begin pkt2 KNOT_ADDITIONAL
          let ret2 := knot_pkt_put pkt3 opt_rr
          if ¬ ret2.1 then (ProcState.FAIL, param1, ret2.2)
          else (ProcState.MORE, param1, ret2.2)

/-- `resolve(ctx, pkt)`, lines 344-406: the state returned and the
parameters after the call. -/
def resolve (ctx : knot_layer_t) (pkt : knot_pkt_t) : ProcState × kr_layer_param :=
  let param := ctx.data
  match kr_rplan_current param.rplan with
  | none => (ctx.state, param)
  | some query =>
    if pkt.parsed < pkt.size then (resolve_error pkt param, param)
    else if ¬ is_paired_to_query pkt query then (ProcState.MORE, param)
    else if pkt.tc then
      if query.flags &&& QUERY_TCP ≠ 0 then (resolve_error pkt param, param)
      else
        (ProcState.DONE,
          { param with
            rplan := rplan_modify param.rplan (rplan_top param.rplan)
              (fun x => { x with flags := x.flags ||| QUERY_TCP }) })
    else if ¬ (pkt.rcode = KNOT_RCODE_NOERROR ∨ pkt.rcode = KNOT_RCODE_NXDOMAIN) then
      (resolve_error pkt param, param)
    else
      let r := process_authority pkt param
      let r1 :=
        match r.1 with
        | ProcState.MORE => process_answer pkt r.2
        | ProcState.DONE => process_additional pkt r.2
        | _ => r
      if kr_rplan_empty r1.2.rplan then (r1.1, finalize_answer pkt r1.2)
      else r1

/-! ## Concrete names and records used in the scenarios -/

def name_root : knot_dname_t := []
def name_com : knot_dname_t := ["com"]
def name_www_example_com : knot_dname_t := ["www", "example", "com"]
def name_example_com : knot_dname_t := ["example", "com"]
def name_a_root_servers_net : knot_dname_t := ["a", "root-servers", "net"]
def name_a_gtld_servers_net : knot_dname_t := ["a", "gtld-servers", "net"]

/-- The zone cut of the root, with the address of `a.root-servers.net`. -/
def cut_root : kr_zonecut :=
  { name := name_root, ns := name_a_root_servers_net, addrs := [[198, 41, 0, 4]] }

/-- The user query `www.example.com IN A` at the root cut, sent with id 4660. -/
def query_www : kr_query :=
  { parent := none, sname := name_www_example_com, sclass := KNOT_CLASS_IN,
    stype := KNOT_RRTYPE_A, id := 4660, flags := 0, zone_cut := cut_root }

def name_net : knot_dname_t := ["net"]
def name_evil_net : knot_dname_t := ["evil", "net"]
def name_ns_evil_net : knot_dname_t := ["ns", "evil", "net"]
def name_ns_example_com : knot_dname_t := ["ns", "example", "com"]
def name_foo : knot_dname_t := ["foo"]
def name_www_foo : knot_dname_t := ["www", "foo"]

/-- An empty answer for the user, with room for 512 bytes. -/
def answer_empty : knot_pkt_t :=
  { id := 7, rcode := 0, tc := false, qname := name_www_example_com, qclass := KNOT_CLASS_IN,
    qtype := KNOT_RRTYPE_A, answer := [], authority := [], additional := [], parsed := 0,
    size := 33, max_size := 512, current := KNOT_ANSWER }

/-- The layer waiting for the response to `query_www`, alone in the plan. -/
def ctx_www : knot_layer_t :=
  { state := ProcState.MORE,
    data := { rplan := { pending := [query_www], root_hints := cut_root },
              answer := answer_empty } }

def rr_com_ns : knot_rrset_t :=
  { owner := name_com, type := KNOT_RRTYPE_NS, rclass := KNOT_CLASS_IN, ttl := 172800,
    rdata_name := name_a_gtld_servers_net, rdata := [] }

def rr_gtld_a : knot_rrset_t :=
  { owner := name_a_gtld_servers_net, type := KNOT_RRTYPE_A, rclass := KNOT_CLASS_IN,
    ttl := 172800, rdata_name := [], rdata := [192, 5, 6, 30] }

/-- Scenario S1: the referral of the root to `com`, with glue, in reply to
the minimized question `com IN NS`. -/
def pkt_referral_com : knot_pkt_t :=
  { id := 4660, rcode := KNOT_RCODE_NOERROR, tc := false, qname := name_com,
    qclass := KNOT_CLASS_IN, qtype := KNOT_RRTYPE_NS, answer := [],
    authority := [rr_com_ns], additional := [rr_gtld_a], parsed := 80, size := 80,
    max_size := 80, current := KNOT_ANSWER }

/-- The zone cut of `com`, with the address of `a.gtld-servers.net`. -/
def cut_com : kr_zonecut :=
  { name := name_com, ns := name_a_gtld_servers_net, addrs := [[192, 5, 6, 30]] }

/-- The user query `www.example.com IN A` once at the cut of `com`. -/
def query_www_at_com : kr_query := { query_www with zone_cut := cut_com }

/-- The layer waiting for the response to `query_www_at_com`. -/
def ctx_www_at_com : knot_layer_t :=
  { state := ProcState.MORE,
    data := { rplan := { pending := [query_www_at_com], root_hints := cut_root },
              answer := answer_empty } }

def rr_example_ns : knot_rrset_t :=
  { owner := name_example_com, type := KNOT_RRTYPE_NS, rclass := KNOT_CLASS_IN, ttl := 3600,
    rdata_name := name_ns_example_com, rdata := [] }

def rr_ns_example_a : knot_rrset_t :=
  { owner := name_ns_example_com, type := KNOT_RRTYPE_A, rclass := KNOT_CLASS_IN, ttl := 3600,
    rdata_name := [], rdata := [192, 0, 2, 53] }

def rr_evil_ns : knot_rrset_t :=
  { owner := name_evil_net, type := KNOT_RRTYPE_NS, rclass := KNOT_CLASS_IN, ttl := 3600,
    rdata_name := name_ns_evil_net, rdata := [] }

/-- A reply of a server of `com` to `example.com IN NS` whose AUTHORITY holds
the referral to `example.com` followed by an NS record of `evil.net`. -/
def pkt_referral_then_evil : knot_pkt_t :=
  { id := 4660, rcode := KNOT_RCODE_NOERROR, tc := false, qname := name_example_com,
    qclass := KNOT_CLASS_IN, qtype := KNOT_RRTYPE_NS, answer := [],
    authority := [rr_example_ns, rr_evil_ns], additional := [rr_ns_example_a],
    parsed := 120, size := 120, max_size := 120, current := KNOT_ANSWER }

/-- A reply of a server of `com` to `example.com IN NS` whose AUTHORITY holds
an NS record of `evil.net` only. -/
def pkt_evil : knot_pkt_t :=
  { pkt_referral_then_evil with authority := [rr_evil_ns], additional := [] }

/-- The user query `www.example.com ANY A` at the root cut. -/
def query_www_any : kr_query := { query_www with sclass := KNOT_CLASS_ANY }

/-- The layer waiting for the response to `query_www_any`. -/
def ctx_www_any : knot_layer_t :=
  { state := ProcState.MORE,
    data := { rplan := { pending := [query_www_any], root_hints := cut_root },
              answer := answer_empty } }

/-- The user query `www.foo IN A` at the root cut. -/
def query_www_foo : kr_query := { query_www with sname := name_www_foo }

/-- The layer waiting for the response to `query_www_foo`. -/
def ctx_www_foo : knot_layer_t :=
  { state := ProcState.MORE,
    data := { rplan := { pending := [query_www_foo], root_hints := cut_root },
              answer := answer_empty } }

/-- Scenario S4: the NODATA reply to the minimized question `foo IN NS`. -/
def pkt_foo_nodata : knot_pkt_t :=
  { id := 4660, rcode := KNOT_RCODE_NOERROR, tc := false, qname := name_foo,
    qclass := KNOT_CLASS_IN, qtype := KNOT_RRTYPE_NS, answer := [], authority := [],
    additional := [], parsed := 40, size := 40, max_size := 40, current := KNOT_ANSWER }

/-- The user query `www.example.com IN A` at the root cut, sent over TCP. -/
def query_www_tcp : kr_query := { query_www with flags := QUERY_TCP }

/-- The layer waiting for the response to `query_www_tcp`. -/
def ctx_www_tcp : knot_layer_t :=
  { state := ProcState.MORE,
    data := { rplan := { pending := [query_www_tcp], root_hints := cut_root },
              answer := answer_empty } }

/-- An empty packet to be filled by `prepare_query`, with room for 512 bytes. -/
def pkt_out : knot_pkt_t :=
  { id := 0, rcode := 0, tc := false, qname := [], qclass := 0, qtype := 0, answer := [],
    authority := [], additional := [], parsed := 0, size := 12, max_size := 512,
    current := KNOT_ANSWER }

/-- The layer before the first question is sent for `query_www`. -/
def ctx_www_full : knot_layer_t := { ctx_www with state := ProcState.FULL }

def name_app_example_net : knot_dname_t := ["app", "example", "net"]

/-- The zone cut of `example.com`, with the address of `ns.example.com`. -/
def cut_example : kr_zonecut :=
  { name := name_example_com, ns := name_ns_example_com, addrs := [[192, 0, 2, 53]] }

/-- The user query `www.example.com IN A` once at the cut of `example.com`. -/
def query_www_at_example : kr_query := { query_www with zone_cut := cut_example }

/-- The layer waiting for the response to `query_www_at_example`. -/
def ctx_www_at_example : knot_layer_t :=
  { state := ProcState.MORE,
    data := { rplan := { pending := [query_www_at_example], root_hints := cut_root },
              answer := answer_empty } }

def rr_www_cname : knot_rrset_t :=
  { owner := name_www_example_com, type := KNOT_RRTYPE_CNAME, rclass := KNOT_CLASS_IN,
    ttl := 300, rdata_name := name_app_example_net, rdata := [] }

def rr_www_a : knot_rrset_t :=
  { owner := name_www_example_com, type := KNOT_RRTYPE_A, rclass := KNOT_CLASS_IN,
    ttl := 300, rdata_name := [], rdata := [192, 0, 2, 80] }

def rr_example_soa : knot_rrset_t :=
  { owner := name_example_com, type := KNOT_RRTYPE_SOA, rclass := KNOT_CLASS_IN,
    ttl := 3600, rdata_name := name_ns_example_com, rdata := [] }

def rr_gtld_aaaa : knot_rrset_t :=
  { owner := name_a_gtld_servers_net, type := KNOT_RRTYPE_AAAA, rclass := KNOT_CLASS_IN,
    ttl := 172800, rdata_name := [],
    rdata := [32, 1, 5, 3, 168, 62, 0, 0, 0, 0, 0, 0, 0, 2, 0, 48] }

/-- Scenario S3: the reply of a server of `example.com` to `www.example.com
IN A` with the alias `www.example.com CNAME app.example.net`. -/
def pkt_cname : knot_pkt_t :=
  { id := 4660, rcode := KNOT_RCODE_NOERROR, tc := false, qname := name_www_example_com,
    qclass := KNOT_CLASS_IN, qtype := KNOT_RRTYPE_A, answer := [rr_www_cname],
    authority := [], additional := [], parsed := 70, size := 70, max_size := 70,
    current := KNOT_ANSWER }

/-- The follow-up query that `process_answer` pushes in scenario S3. -/
def query_app : kr_query :=
  { parent := none, sname := name_app_example_net, sclass := KNOT_CLASS_IN,
    stype := KNOT_RRTYPE_A, id := 0, flags := 0, zone_cut := cut_root }

/-- A positive reply to the minimized question `com IN NS` of `query_www`:
the NS record of `com` in ANSWER, nothing in AUTHORITY. -/
def pkt_positive_com : knot_pkt_t :=
  { pkt_referral_com with answer := [rr_com_ns], authority := [], additional := [] }

/-- The referral of the root to `com` with an A and an AAAA glue record. -/
def pkt_referral_two_glue : knot_pkt_t :=
  { pkt_referral_com with additional := [rr_gtld_a, rr_gtld_aaaa] }

/-- The referral of the root to `com` without glue. -/
def pkt_referral_no_glue : knot_pkt_t := { pkt_referral_com with additional := [] }

/-- The NXDOMAIN reply of a server of `example.com` to `www.example.com IN A`,
with the SOA record of the zone in AUTHORITY. -/
def pkt_nxdomain : knot_pkt_t :=
  { pkt_cname with rcode := KNOT_RCODE_NXDOMAIN, answer := [], authority := [rr_example_soa] }

/-- The reply of a server of `example.com` to `www.example.com IN A` with the
rcode SERVFAIL. -/
def pkt_servfail : knot_pkt_t := { pkt_cname with rcode := 2, answer := [] }

/-! ## Predicates used in the statements -/

/-- A property of zone cuts holds of the root hints and of the zone cut of
every query of the plan. -/
def plan_cuts (G : kr_zonecut → Prop) (rplan : kr_rplan) : Prop :=
  G rplan.root_hints ∧ ∀ x ∈ rplan.pending, G x.zone_cut

/-- The address `a` is the rdata of an A or AAAA record of the ANSWER or
ADDITIONAL section of the response whose owner is the name server name of
the zone cut. -/
def addr_from_response (pkt : knot_pkt_t) (cut : kr_zonecut) (a : List Nat) : Prop :=
  ∃ rr ∈ pkt.answer ++ pkt.additional,
    (rr.type = KNOT_RRTYPE_A ∨ rr.type = KNOT_RRTYPE_AAAA) ∧ rr.owner = cut.ns ∧ rr.rdata = a

/-- The address `a` is already held by the plan: by the root hints or by the
zone cut of one of its queries. -/
def addr_known (rplan : kr_rplan) (a : List Nat) : Prop :=
  a ∈ rplan.root_hints.addrs ∨ ∃ y ∈ rplan.pending, a ∈ y.zone_cut.addrs

def name_a_nic_com : knot_dname_t := ["a", "nic", "com"]

def rr_com_ns_inside : knot_rrset_t :=
  { owner := name_com, type := KNOT_RRTYPE_NS, rclass := KNOT_CLASS_IN, ttl := 172800,
    rdata_name := name_a_nic_com, rdata := [] }

/-- The referral of the root to `com` that names the name server `a.nic.com`,
without glue. -/
def pkt_referral_inside : knot_pkt_t :=
  { pkt_referral_com with authority := [rr_com_ns_inside], additional := [] }

/-- The answer `b` has the rcode and the section being written of the answer
`a`, its AUTHORITY section when `a` is writing its ANSWER section, and its
TC bit when that is set. -/
def answer_kept (a b : knot_pkt_t) : Prop :=
  b.rcode = a.rcode ∧ b.current = a.current ∧
  (a.current = KNOT_ANSWER → b.authority = a.authority) ∧ (a.tc = true → b.tc = true)

/-- An answer for the user with room for 40 bytes, 33 of them written. -/
def answer_small : knot_pkt_t := { answer_empty with max_size := 40 }

/-- The layer waiting for the response to `query_www_at_example`, with the
small answer. -/
def ctx_www_small : knot_layer_t :=
  { state := ProcState.MORE,
    data := { rplan := { pending := [query_www_at_example], root_hints := cut_root },
              answer := answer_small } }

def rr_app_a : knot_rrset_t :=
  { owner := name_app_example_net, type := KNOT_RRTYPE_A, rclass := KNOT_CLASS_IN,
    ttl := 300, rdata_name := [], rdata := [192, 0, 2, 80] }

/-- The reply of scenario S3 with the address record of the target after the
alias. -/
def pkt_cname_a : knot_pkt_t := { pkt_cname with answer := [rr_www_cname, rr_app_a] }

/-! ## The walk of ANSWER, in terms of the plan -/

/-- The query after a record has been offered to its zone cut: the address of
an A or AAAA record owned by the name server of the zone cut is appended to
the addresses of the zone cut, any other record leaves the query alone. -/
def add_ns_addr (rr : knot_rrset_t) (x : kr_query) : kr_query :=
  if (rr.type = KNOT_RRTYPE_A ∨ rr.type = KNOT_RRTYPE_AAAA) ∧ x.zone_cut.ns = rr.owner then
    { x with zone_cut := { x.zone_cut with addrs := x.zone_cut.addrs ++ [rr.rdata] } }
  else x

/-- The queries after the records of a list have been offered, one after the
other, to the zone cut of the query a pointer points at. -/
def offer_all (l : List knot_rrset_t) (ptr : Nat) (pending : List kr_query) : List kr_query :=
  l.foldl (fun pl rr => modify_at (add_ns_addr rr) pl ptr) pending

/-- The value of the pointer `cname` after `follow_cname_chain` has been
called on the records of a list, one after the other. -/
def cname_walk (cur : kr_query) (l : List knot_rrset_t) (cname : Option knot_dname_t) :
    Option knot_dname_t :=
  l.foldl (fun c rr => follow_cname_chain c rr cur) cname

/-- `process_answer(pkt, param)` up to line 246: the parameters as they are
when `kr_rplan_pop` is called there, and the pointer `query` passed to it;
`none` when the call returns before that line. -/
def process_answer_at_pop (pkt : knot_pkt_t) (param : kr_layer_param) :
    Option (kr_layer_param × Nat) :=
  match kr_rplan_current param.rplan with
  | none => none
  | some query =>
    let is_final := query.parent.isNone
    let pkt_class := response_classify pkt
    if ¬ knot_dname_is_equal pkt.qname query.sname ∧
        (pkt_class = PktClass.PKT_NXDOMAIN ∨ pkt_class = PktClass.PKT_NODATA) then none
    else
      let r := process_answer_loop is_final query pkt.answer none param
      match r.1 with
      | some _ => none
      | none =>
        let param1 := r.2.2
        let rplan1 := match r.2.1 with
          | some cname => kr_rplan_push param1.rplan query.parent cname query.sclass query.stype
          | none => param1.rplan
        some ({ param1 with rplan := rplan1 }, rplan_top param.rplan)

/-! ## A sub-query for the address of a name server -/

/-- The zone cut of `com` before an address of `a.gtld-servers.net` is
known. -/
def cut_com_bare : kr_zonecut :=
  { name := name_com, ns := name_a_gtld_servers_net, addrs := [] }

/-- The user query `www.example.com IN A` at the cut of `com`, no address of
its name server being known. -/
def query_www_at_com_bare : kr_query := { query_www with zone_cut := cut_com_bare }

/-- The sub-query `a.gtld-servers.net IN AAAA` of the user query, as
`process_additional` pushes it. -/
def query_glue_aaaa : kr_query :=
  { parent := some 0, sname := name_a_gtld_servers_net, sclass := KNOT_CLASS_IN,
    stype := KNOT_RRTYPE_AAAA, id := 0, flags := 0, zone_cut := cut_com_bare }

/-- The sub-query `a.gtld-servers.net IN A` of the user query, sent with the
id 4661 after the retry without minimization. -/
def query_glue_a : kr_query :=
  { parent := some 0, sname := name_a_gtld_servers_net, sclass := KNOT_CLASS_IN,
    stype := KNOT_RRTYPE_A, id := 4661, flags := QUERY_NO_MINIMIZE, zone_cut := cut_com_bare }

/-- The layer waiting for the response to `query_glue_a`: the plan that the
referral to `com` without glue leaves, the A sub-query on top. -/
def ctx_glue : knot_layer_t :=
  { state := ProcState.MORE,
    data := { rplan := { pending := [query_glue_a, query_glue_aaaa, query_www_at_com_bare],
                         root_hints := cut_root },
              answer := answer_empty } }

/-- The reply to `a.gtld-servers.net IN A` with the address record. -/
def pkt_glue_a : knot_pkt_t :=
  { id := 4661, rcode := KNOT_RCODE_NOERROR, tc := false, qname := name_a_gtld_servers_net,
    qclass := KNOT_CLASS_IN, qtype := KNOT_RRTYPE_A, answer := [rr_gtld_a], authority := [],
    additional := [], parsed := 60, size := 60, max_size := 60, current := KNOT_ANSWER }

end Iterate

/-! The cookie control module (`modules/cookiectl/cookiectl.c`): the setting
of the client secret.

Modelling conventions.

* A secret (`struct kr_cookie_secret`) is the list of its bytes; its `size`
  is the length of the list.
* A JSON number of ccan/json is a C `double`.  The only operations of the
  source on it are the comparisons with 0 and 255 and the conversion to
  `uint8_t` of a value found in that range; both are exact, so the number is
  modelled by the rational it denotes.
* The string of a JSON string node is the list of the bytes of the C string,
  its terminator left out.
-/

namespace Cookiectl

/-- JSON value (`JsonNode` of ccan/json) as the module reads it: the tag
with the field that belongs to it, and the children of an array or object. -/
inductive JsonNode where
  | JSON_NULL
  | JSON_BOOL (bool_ : Bool)
  | JSON_STRING (string_ : List Nat)
  | JSON_NUMBER (number_ : ℚ)
  | JSON_ARRAY (children : List JsonNode)
  | JSON_OBJECT (children : List (List Nat × JsonNode))

/-- Secret of a cookie (`struct kr_cookie_secret`): its bytes. -/
abbrev kr_cookie_secret := List Nat

/-- Cookie context (`struct kr_cookie_ctx`; `lib/cookies/control.h` is not
among the sources): the fields that `cookiectl.c` reads and writes.  The
pointer `recent_cs` may be `NULL` (`none`); `current_cs` never is. -/
structure kr_cookie_ctx where
  enabled : Bool
  current_cs : kr_cookie_secret
  recent_cs : Option kr_cookie_secret
  cc_alg : String
  cache_ttl : Nat
  current_ss : kr_cookie_secret
  recent_ss : Option kr_cookie_secret
  sc_alg : String
  deriving DecidableEq, Repr

/-- `strlen` of a C string given by its bytes. -/
def strlen (s : List Nat) : Nat := s.length

/-- `memcmp(a, b, n) == 0`: the first `n` bytes agree. -/
def memcmp_eq (a b : List Nat) (n : Nat) : Bool := a.take n == b.take n

/-- `new_sq_str(node)`, lines 47-61; `alloc_ok` tells whether `malloc`
succeeds.  The node is a string at the only call. -/
def new_sq_str (node : JsonNode) (alloc_ok : Bool) : Option kr_cookie_secret :=
  match node with
  | JsonNode.JSON_STRING string_ =>
    let len := strlen string_
    if ¬ alloc_ok then none
    else some (string_.take len)
  | _ => none

/-- The macro `holds_char(x)`, line 63. -/
def holds_char (x : ℚ) : Bool := decide (x ≥ 0 ∧ x ≤ 255)

/-- The conversion `(uint8_t) x` of line 89, for a value that `holds_char`
has accepted: the fraction is dropped. -/
def to_uint8 (x : ℚ) : Nat := x.floor.toNat % 256

/-- The first loop of `new_sq_array`, lines 71-76: `none` for the `return
NULL` inside, else the count reached. -/
def new_sq_array_count : List JsonNode → Nat → Option Nat
  | [], cnt => some cnt
  | element :: rest, cnt =>
    match element with
    | JsonNode.JSON_NUMBER number_ =>
      if ¬ holds_char number_ then none
      else new_sq_array_count rest (cnt + 1)
    | _ => none

/-- The second loop of `new_sq_array`, lines 88-90: the bytes written.  Every
element is a number when the loop is reached. -/
def new_sq_array_fill : List JsonNode → List Nat
  | [] => []
  | element :: rest =>
    match element with
    | JsonNode.JSON_NUMBER number_ => to_uint8 number_ :: new_sq_array_fill rest
    | _ => 0 :: new_sq_array_fill rest

/-- `new_sq_array(node)`, lines 65-93; `alloc_ok` tells whether `malloc`
succeeds.  The node is an array at the only call. -/
def new_sq_array (node : JsonNode) (alloc_ok : Bool) : Option kr_cookie_secret :=
  match node with
  | JsonNode.JSON_ARRAY children =>
    match new_sq_array_count children 0 with
    | none => none
    | some cnt =>
      if cnt = 0 then none
      else if ¬ alloc_ok then none
      else some ((new_sq_array_fill children).take cnt)
  | _ => none

/-- `apply_client_secret(cntrl, node)`, lines 95-131: the value returned and
the context after the call. -/
def apply_client_secret (cntrl : kr_cookie_ctx) (node : JsonNode) (alloc_ok : Bool) :
    Bool × kr_cookie_ctx :=
  let sq : Option kr_cookie_secret :=
    match node with
    | JsonNode.JSON_STRING _ => new_sq_str node alloc_ok
    | JsonNode.JSON_ARRAY _ => new_sq_array node alloc_ok
    | _ => none
  match sq with
  | none => (false, cntrl)
  | some sq =>
    if sq.length = cntrl.current_cs.length ∧ memcmp_eq sq cntrl.current_cs sq.length then
      (true, cntrl)
    else
      (true, { cntrl with recent_cs := some cntrl.current_cs, current_cs := sq })

/-- The test "a number in 0..255" on an element of a JSON array. -/
def is_byte_number (element : JsonNode) : Bool :=
  match element with
  | JsonNode.JSON_NUMBER x => decide (0 ≤ x ∧ x ≤ 255)
  | _ => false

/-- The byte that a number in 0..255 stands for. -/
def byte_of_number (element : JsonNode) : Nat :=
  match element with
  | JsonNode.JSON_NUMBER x => x.floor.toNat
  | _ => 0

/-- The bytes that a JSON value decodes to, as the property of the client
secret words it: a JSON string decodes to its bytes, a non-empty JSON array
whose elements are all numbers in 0..255 decodes to those numbers, any other
JSON value (other tag, empty array, array with a non-number or with an
element outside 0..255) decodes to nothing. -/
def secret_bytes_spec (node : JsonNode) : Option (List Nat) :=
  match node with
  | JsonNode.JSON_STRING s => some s
  | JsonNode.JSON_ARRAY children =>
    if ¬ children.isEmpty ∧ children.all is_byte_number then some (children.map byte_of_number)
    else none
  | _ => none

/-- A cookie context with the current secret `1 2 3` and the recent secret
`9 9`. -/
def ctx_cookie : kr_cookie_ctx :=
  { enabled := true, current_cs := [1, 2, 3], recent_cs := some [9, 9], cc_alg := "FNV-64",
    cache_ttl := 72000, current_ss := [7], recent_ss := none, sc_alg := "HMAC-SHA256-64" }

end Cookiectl

namespace Iterate

/-! ## Auxiliary facts -/

theorem flag_no_minimize_set (f : Nat) :
    (f ||| QUERY_NO_MINIMIZE) &&& QUERY_NO_MINIMIZE ≠ 0 := by
  intro h
  have h0 := congrArg (fun n => n.testBit 0) h
  simp [Nat.testBit_and, Nat.testBit_or, QUERY_NO_MINIMIZE] at h0

theorem flag_tcp_set (f : Nat) : (f ||| QUERY_TCP) &&& QUERY_TCP ≠ 0 := by
  intro h
  have h1 := congrArg (fun n => n.testBit 1) h
  have h2 : Nat.testBit 2 1 = true := by decide
  simp [Nat.testBit_and, Nat.testBit_or, QUERY_TCP, h2] at h1

/-- The walk of the minimizer drops `m - (c + 1)` labels from a name of `m`
labels and moves the pointer by as many. -/
theorem minimized_walk_eq (c : Nat) :
    ∀ (m : Nat) (nm : knot_dname_t) (off : Nat), nm.length = m →
      minimized_walk c m (nm, off) = (nm.drop (m - (c + 1)), off + (m - (c + 1))) := by
  intro m
  induction m with
  | zero => intro nm off _; simp [minimized_walk]
  | succ n ih =>
    intro nm off hlen
    unfold minimized_walk
    by_cases hgt : n + 1 > c + 1
    · rw [if_pos hgt]
      have htl : (knot_wire_next_label nm).length = n := by
        simp [knot_wire_next_label, hlen]
      have hstep := ih (knot_wire_next_label nm) (off + 1) htl
      simp only [] at hstep ⊢
      rw [hstep]
      have hsub : n + 1 - (c + 1) = (n - (c + 1)) + 1 := by omega
      rw [hsub]
      cases nm with
      | nil => simp at hlen
      | cons a t =>
        simp only [knot_wire_next_label, List.tail_cons, List.drop_succ_cons]
        congr 1
        omega
    · rw [if_neg hgt]
      have hsub : n + 1 - (c + 1) = 0 := by omega
      simp [hsub]

/-- The minimizer without `NO_MINIMIZE`, in closed form. -/
theorem minimized_qname_eq (q : kr_query) (t : Nat) (h : q.flags &&& QUERY_NO_MINIMIZE = 0) :
    minimized_qname q t =
      if q.sname.length - (q.zone_cut.name.length + 1) ≠ 0 then
        (q.sname.drop (q.sname.length - (q.zone_cut.name.length + 1)), KNOT_RRTYPE_NS)
      else (q.sname, t) := by
  unfold minimized_qname
  simp only [h, ne_eq, not_true_eq_false, if_false, knot_dname_labels]
  rw [minimized_walk_eq _ _ _ _ rfl]
  simp only [Nat.zero_add]
  by_cases hz : q.sname.length - (q.zone_cut.name.length + 1) = 0
  · simp [hz]
  · simp [hz]

/-! ## The query minimizer (C5, C6, C7) -/

/-- C5. Minimizer label count: for a query without `NO_MINIMIZE` whose sname
has at least `labels(zone_cut.name) + 1` labels, `minimized_qname` returns a
label-suffix of sname (labels are dropped from the left end only) that has
exactly `labels(zone_cut.name) + 1` labels. -/
theorem minimized_qname_label_count (q : kr_query) (t : Nat)
    (hflag : q.flags &&& QUERY_NO_MINIMIZE = 0)
    (hlen : knot_dname_labels q.zone_cut.name + 1 ≤ knot_dname_labels q.sname) :
    (minimized_qname q t).1 <:+ q.sname ∧
      knot_dname_labels (minimized_qname q t).1 = knot_dname_labels q.zone_cut.name + 1 := by
  rw [minimized_qname_eq q t hflag]
  simp only [knot_dname_labels] at hlen ⊢
  by_cases hz : q.sname.length - (q.zone_cut.name.length + 1) = 0
  · simp only [hz, ne_eq, not_true_eq_false, if_false]
    exact ⟨List.suffix_refl _, by omega⟩
  · simp only [hz, ne_eq, not_false_eq_true, if_true]
    refine ⟨List.drop_suffix _ _, ?_⟩
    rw [List.length_drop]
    omega

/-- Witness of C5: sname `www.example.com` at the cut of the root gives `com`. -/
theorem minimized_qname_label_count_witness :
    (minimized_qname query_www KNOT_RRTYPE_A).1 = name_com ∧
      (minimized_qname query_www KNOT_RRTYPE_A).1 <:+ query_www.sname ∧
      knot_dname_labels (minimized_qname query_www KNOT_RRTYPE_A).1 =
        knot_dname_labels query_www.zone_cut.name + 1 :=
  ⟨by decide, minimized_qname_label_count query_www KNOT_RRTYPE_A (by decide) (by decide)⟩

/-- C6. Minimizer type hiding: for every query and zone cut the qtype left by
the minimizer (entered, as both callers do, with the query's stype) is the
query's stype when the returned qname is sname itself, and NS when the
returned qname differs from sname. -/
theorem minimized_qname_type_hiding (q : kr_query) :
    (minimized_qname q q.stype).2 =
      if (minimized_qname q q.stype).1 = q.sname then q.stype else KNOT_RRTYPE_NS := by
  by_cases hflag : q.flags &&& QUERY_NO_MINIMIZE = 0
  · rw [minimized_qname_eq q q.stype hflag]
    by_cases hz : q.sname.length - (q.zone_cut.name.length + 1) = 0
    · simp [hz]
    · simp only [hz, ne_eq, not_false_eq_true, if_true]
      have hne : q.sname.drop (q.sname.length - (q.zone_cut.name.length + 1)) ≠ q.sname := by
        intro heq
        have hl := congrArg List.length heq
        rw [List.length_drop] at hl
        omega
      rw [if_neg hne]
  · simp [minimized_qname, hflag]

/-- C7. Minimizer with `NO_MINIMIZE`: for a query carrying the flag, and
whatever zone cut it is given, the minimizer returns exactly
`(sname, stype)`. -/
theorem minimized_qname_no_minimize (q : kr_query) (cut : kr_zonecut)
    (hflag : q.flags &&& QUERY_NO_MINIMIZE ≠ 0) :
    minimized_qname { q with zone_cut := cut } q.stype = (q.sname, q.stype) := by
  simp [minimized_qname, hflag]

/-- Witness of C7: `www.example.com A` with `NO_MINIMIZE`, at the cut `com`. -/
theorem minimized_qname_no_minimize_witness :
    minimized_qname
      { ({ query_www with flags := QUERY_NO_MINIMIZE } : kr_query) with
        zone_cut := { name := name_com, ns := name_a_gtld_servers_net, addrs := [] } }
      KNOT_RRTYPE_A = (name_www_example_com, KNOT_RRTYPE_A) :=
  minimized_qname_no_minimize { query_www with flags := QUERY_NO_MINIMIZE }
    { name := name_com, ns := name_a_gtld_servers_net, addrs := [] } (by decide)

/-! ## Facts on the plan and on the section walks -/

theorem kr_rplan_current_cons (rplan : kr_rplan) (q : kr_query) (rest : List kr_query)
    (h : rplan.pending = q :: rest) : kr_rplan_current rplan = some q := by
  simp [kr_rplan_current, h]

theorem rplan_top_cons (rplan : kr_rplan) (q : kr_query) (rest : List kr_query)
    (h : rplan.pending = q :: rest) : rplan_top rplan = rest.length := by
  simp [rplan_top, h]

theorem rplan_query_top (rplan : kr_rplan) (q : kr_query) (rest : List kr_query)
    (h : rplan.pending = q :: rest) : rplan_query rplan (rplan_top rplan) = some q := by
  simp [rplan_query, rplan_top, h, query_at]

theorem rplan_modify_top (rplan : kr_rplan) (q : kr_query) (rest : List kr_query)
    (f : kr_query → kr_query) (h : rplan.pending = q :: rest) :
    rplan_modify rplan (rplan_top rplan) f = { rplan with pending := f q :: rest } := by
  simp [rplan_modify, rplan_top, h, modify_at]

theorem knot_dname_in_self (n : knot_dname_t) : knot_dname_in n n = true := by
  simp [knot_dname_in]

/-- An NS record owned by the name of the current cut is passed over. -/
theorem rr_update_nameserver_same (rr : knot_rrset_t) (param : kr_layer_param) (q : kr_query)
    (rest : List kr_query) (h : param.rplan.pending = q :: rest)
    (hown : rr.owner = q.zone_cut.name) :
    rr_update_nameserver rr 0 param = (ProcState.MORE, param) := by
  simp [rr_update_nameserver, kr_rplan_current_cons _ q rest h, hown, knot_dname_in_self,
    knot_dname_is_equal]

/-- An NS record owned by a name outside the current cut is rejected. -/
theorem rr_update_nameserver_outside (rr : knot_rrset_t) (param : kr_layer_param) (q : kr_query)
    (rest : List kr_query) (h : param.rplan.pending = q :: rest)
    (hout : knot_dname_in q.zone_cut.name rr.owner = false) :
    rr_update_nameserver rr 0 param = (ProcState.FAIL, param) := by
  simp [rr_update_nameserver, kr_rplan_current_cons _ q rest h, hout]

/-- An NS record owned by a name strictly below the current cut moves the
cut of the current query. -/
theorem rr_update_nameserver_below (rr : knot_rrset_t) (param : kr_layer_param) (q : kr_query)
    (rest : List kr_query) (h : param.rplan.pending = q :: rest)
    (hin : knot_dname_in q.zone_cut.name rr.owner = true) (hne : rr.owner ≠ q.zone_cut.name) :
    rr_update_nameserver rr 0 param =
      (ProcState.DONE,
        { param with
          rplan := { param.rplan with
            pending := { q with zone_cut := { name := rr.owner, ns := knot_ns_name rr,
                                               addrs := [] } } :: rest } }) := by
  simp [rr_update_nameserver, kr_rplan_current_cons _ q rest h, hin, knot_dname_is_equal, hne,
    rplan_modify_top _ q rest _ h, kr_set_zone_cut]

/-- The walk of AUTHORITY passes over the records that are not NS records
and over the NS records owned by the name of the current cut. -/
theorem process_authority_loop_skip (pre l : List knot_rrset_t) (param : kr_layer_param)
    (q : kr_query) (rest : List kr_query) (h : param.rplan.pending = q :: rest)
    (hpre : ∀ x ∈ pre, x.type = KNOT_RRTYPE_NS → x.owner = q.zone_cut.name) :
    process_authority_loop (pre ++ l) param = process_authority_loop l param := by
  induction pre with
  | nil => rfl
  | cons x pre ih =>
    have ih1 := ih (fun y hy => hpre y (List.mem_cons_of_mem _ hy))
    simp only [List.cons_append, process_authority_loop]
    by_cases hns : x.type = KNOT_RRTYPE_NS
    · have hx := rr_update_nameserver_same x param q rest h (hpre x (List.mem_cons_self _ _) hns)
      simp [hns, hx, ih1]
    · simp [hns, ih1]

/-- A record that is not an address of the name server of the current cut
leaves the plan alone. -/
theorem update_glue_skip (x : knot_rrset_t) (param : kr_layer_param) (q : kr_query)
    (rest : List kr_query) (h : param.rplan.pending = q :: rest)
    (hx : ¬ ((x.type = KNOT_RRTYPE_A ∨ x.type = KNOT_RRTYPE_AAAA) ∧ x.owner = q.zone_cut.ns)) :
    update_glue x 0 param = (ProcState.MORE, param) := by
  simp only [update_glue, update_nsaddr, kr_rplan_current_cons _ q rest h, Option.map_some',
    rplan_query_top _ q rest h]
  by_cases ht : x.type = KNOT_RRTYPE_A ∨ x.type = KNOT_RRTYPE_AAAA
  · have hne : ¬ q.zone_cut.ns = x.owner := fun e => hx ⟨ht, e.symm⟩
    simp [ht, knot_dname_is_equal, hne]
  · simp [ht]

/-- An address record of the name server of the current cut is stored in
the cut of the current query. -/
theorem update_glue_found (x : knot_rrset_t) (param : kr_layer_param) (q : kr_query)
    (rest : List kr_query) (h : param.rplan.pending = q :: rest)
    (ht : x.type = KNOT_RRTYPE_A ∨ x.type = KNOT_RRTYPE_AAAA) (hown : x.owner = q.zone_cut.ns) :
    update_glue x 0 param =
      (ProcState.DONE,
        { param with
          rplan := { param.rplan with
            pending := { q with zone_cut := { q.zone_cut with
                          addrs := q.zone_cut.addrs ++ [x.rdata] } } :: rest } }) := by
  simp [update_glue, update_nsaddr, kr_rplan_current_cons _ q rest h,
    rplan_query_top _ q rest h, ht, knot_dname_is_equal, hown, kr_set_zone_cut_addr,
    rplan_modify_top _ q rest _ h]

theorem process_additional_loop_skip (pre l : List knot_rrset_t) (param : kr_layer_param)
    (q : kr_query) (rest : List kr_query) (h : param.rplan.pending = q :: rest)
    (hpre : ∀ x ∈ pre,
      ¬ ((x.type = KNOT_RRTYPE_A ∨ x.type = KNOT_RRTYPE_AAAA) ∧ x.owner = q.zone_cut.ns)) :
    process_additional_loop (pre ++ l) param = process_additional_loop l param := by
  induction pre with
  | nil => rfl
  | cons x pre ih =>
    have ih1 := ih (fun y hy => hpre y (List.mem_cons_of_mem _ hy))
    have hx := update_glue_skip x param q rest h (hpre x (List.mem_cons_self _ _))
    simp [process_additional_loop, hx, ih1]

/-! ## Guards of `resolve` (C1, C2, C3) -/

/-- C1 as stated fails: at the cut `com`, a paired, well-formed NOERROR reply
whose AUTHORITY holds the referral `example.com NS ns.example.com` followed
by `evil.net NS ns.evil.net` (not in-bailiwick of `com`) is taken as a
referral: `resolve` returns DONE and the cut of the current query moves. -/
theorem resolve_bailiwick_guard_counterexample :
    pkt_referral_then_evil.parsed = pkt_referral_then_evil.size ∧
    is_paired_to_query pkt_referral_then_evil query_www_at_com = true ∧
    pkt_referral_then_evil.tc = false ∧
    pkt_referral_then_evil.rcode = KNOT_RCODE_NOERROR ∧
    (∃ rr ∈ pkt_referral_then_evil.authority,
      rr.type = KNOT_RRTYPE_NS ∧ knot_dname_in query_www_at_com.zone_cut.name rr.owner = false) ∧
    (resolve ctx_www_at_com pkt_referral_then_evil).1 = ProcState.DONE ∧
    (resolve ctx_www_at_com pkt_referral_then_evil).2.rplan.pending =
      [{ query_www_at_com with
         zone_cut := { name := name_example_com, ns := name_ns_example_com,
                       addrs := [[192, 0, 2, 53]] } }] ∧
    (resolve ctx_www_at_com pkt_referral_then_evil).2.rplan.pending ≠
      ctx_www_at_com.data.rplan.pending := by
  refine ⟨by decide, by decide, by decide, by decide, ⟨rr_evil_ns, by decide, by decide, by decide⟩,
    by decide, by decide, by decide⟩

/-- C1, amended. Bailiwick guard: for a well-formed response paired with the
outstanding question, with TC=0 and rcode NOERROR or NXDOMAIN, if AUTHORITY
holds an NS record whose owner is not in-bailiwick of the zone-cut name of
the current query, and every NS record ahead of it in the section is owned
by that zone-cut name itself, then `resolve` returns FAIL and nothing is
changed: every query of the plan keeps its zone cut. -/
theorem resolve_bailiwick_guard (ctx : knot_layer_t) (pkt : knot_pkt_t) (q : kr_query)
    (rest : List kr_query) (pre post : List knot_rrset_t) (rr : knot_rrset_t)
    (hplan : ctx.data.rplan.pending = q :: rest)
    (hwf : pkt.parsed = pkt.size)
    (hpair : is_paired_to_query pkt q = true)
    (htc : pkt.tc = false)
    (hrcode : pkt.rcode = KNOT_RCODE_NOERROR ∨ pkt.rcode = KNOT_RCODE_NXDOMAIN)
    (hauth : pkt.authority = pre ++ rr :: post)
    (hpre : ∀ x ∈ pre, x.type = KNOT_RRTYPE_NS → x.owner = q.zone_cut.name)
    (hns : rr.type = KNOT_RRTYPE_NS)
    (hout : knot_dname_in q.zone_cut.name rr.owner = false) :
    resolve ctx pkt = (ProcState.FAIL, ctx.data) := by
  have hauthority : process_authority pkt ctx.data = (ProcState.FAIL, ctx.data) := by
    unfold process_authority
    rw [hauth, process_authority_loop_skip pre (rr :: post) ctx.data q rest hplan hpre]
    simp [process_authority_loop, hns, rr_update_nameserver_outside rr ctx.data q rest hplan hout]
  simp [resolve, kr_rplan_current_cons _ q rest hplan, hwf, hpair, htc, hrcode, hauthority,
    kr_rplan_empty, hplan]

/-- Witness of C1, amended: at the cut `com`, AUTHORITY `evil.net NS
ns.evil.net`. -/
theorem resolve_bailiwick_guard_witness :
    resolve ctx_www_at_com pkt_evil = (ProcState.FAIL, ctx_www_at_com.data) :=
  resolve_bailiwick_guard ctx_www_at_com pkt_evil query_www_at_com [] [] [] rr_evil_ns
    rfl rfl (by decide) rfl (Or.inl rfl) rfl (by simp) rfl (by decide)

/-- C2. Spoofed id: for a well-formed response whose header id differs from
the id of the current query, whatever its rcode, TC bit and sections,
`resolve` returns MORE and the parameters of the layer (the plan with its
queries, their flags and zone cuts, and the outgoing answer) are the ones
before the call. -/
theorem resolve_spoofed_id (ctx : knot_layer_t) (pkt : knot_pkt_t) (q : kr_query)
    (rest : List kr_query) (hplan : ctx.data.rplan.pending = q :: rest)
    (hwf : pkt.parsed = pkt.size) (hid : pkt.id ≠ q.id) :
    resolve ctx pkt = (ProcState.MORE, ctx.data) := by
  have hpair : is_paired_to_query pkt q = false := by
    simp [is_paired_to_query, Ne.symm hid]
  simp [resolve, kr_rplan_current_cons _ q rest hplan, hwf, hpair]

/-- Witness of C2: the referral of scenario S1 under the id 9999. -/
theorem resolve_spoofed_id_witness :
    resolve ctx_www { pkt_referral_com with id := 9999 } = (ProcState.MORE, ctx_www.data) :=
  resolve_spoofed_id ctx_www { pkt_referral_com with id := 9999 } query_www [] rfl rfl
    (by decide)

/-- C3 as stated fails twice.  A response that is cut short (parsed < wire
length) and whose question name is not the outstanding one is answered with
FAIL, not MORE; and when the class of the query is ANY, a response that
repeats the outstanding name and type under the class IN is taken as paired:
`resolve` returns DONE and the plan changes. -/
theorem resolve_question_mismatch_counterexample :
    (({ pkt_referral_com with qname := name_net, parsed := 40 } : knot_pkt_t).qname ≠
        (minimized_qname query_www query_www.stype).1 ∧
      (resolve ctx_www { pkt_referral_com with qname := name_net, parsed := 40 }).1 =
        ProcState.FAIL) ∧
    (pkt_referral_com.qclass ≠ query_www_any.sclass ∧
      (resolve ctx_www_any pkt_referral_com).1 = ProcState.DONE ∧
      (resolve ctx_www_any pkt_referral_com).2.rplan ≠ ctx_www_any.data.rplan) := by
  refine ⟨⟨by decide, by decide⟩, by decide, by decide, by decide⟩

/-- C3, amended. Question mismatch: for a well-formed response arriving while
the plan is non-empty, if its question name is not the minimized qname, or
its question type is not the minimized qtype, or the class of the query is
not ANY and its question class is not the class of the query, then `resolve`
returns MORE and the plan (with the rest of the parameters) is unchanged. -/
theorem resolve_question_mismatch (ctx : knot_layer_t) (pkt : knot_pkt_t) (q : kr_query)
    (rest : List kr_query) (hplan : ctx.data.rplan.pending = q :: rest)
    (hwf : pkt.parsed = pkt.size)
    (hmis : pkt.qname ≠ (minimized_qname q q.stype).1 ∨
      pkt.qtype ≠ (minimized_qname q q.stype).2 ∨
      (q.sclass ≠ KNOT_CLASS_ANY ∧ pkt.qclass ≠ q.sclass)) :
    resolve ctx pkt = (ProcState.MORE, ctx.data) := by
  have hpair : is_paired_to_query pkt q = false := by
    rcases hmis with h | h | ⟨h1, h2⟩
    · simp [is_paired_to_query, knot_dname_is_equal, Ne.symm h]
    · simp [is_paired_to_query, Ne.symm h]
    · simp [is_paired_to_query, h1, Ne.symm h2]
  simp [resolve, kr_rplan_current_cons _ q rest hplan, hwf, hpair]

/-- Witness of C3, amended: the referral of scenario S1 with the question
name `net` instead of `com`. -/
theorem resolve_question_mismatch_witness :
    resolve ctx_www { pkt_referral_com with qname := name_net } =
      (ProcState.MORE, ctx_www.data) :=
  resolve_question_mismatch ctx_www { pkt_referral_com with qname := name_net } query_www []
    rfl rfl (Or.inl (by decide))

/-! ## Referral with glue (C4) -/

/-- C4. Referral with glue: for a valid paired response (well-formed, TC=0,
rcode NOERROR or NXDOMAIN) whose first NS record in AUTHORITY has an owner
strictly below the zone-cut name of the current query and the target `N`,
and whose ADDITIONAL holds exactly one A/AAAA record owned by `N`, `resolve`
returns DONE, the zone cut of the current query becomes (name = owner of the
NS record, ns = `N`, addresses = the address of that glue record alone), and
the plan holds the same queries as before, otherwise untouched. -/
theorem resolve_referral_with_glue (ctx : knot_layer_t) (pkt : knot_pkt_t) (q : kr_query)
    (rest : List kr_query) (pre post gpre gpost : List knot_rrset_t) (ns glue : knot_rrset_t)
    (hplan : ctx.data.rplan.pending = q :: rest)
    (hwf : pkt.parsed = pkt.size)
    (hpair : is_paired_to_query pkt q = true)
    (htc : pkt.tc = false)
    (hrcode : pkt.rcode = KNOT_RCODE_NOERROR ∨ pkt.rcode = KNOT_RCODE_NXDOMAIN)
    (hauth : pkt.authority = pre ++ ns :: post)
    (hfirst : ∀ x ∈ pre, x.type ≠ KNOT_RRTYPE_NS)
    (hns : ns.type = KNOT_RRTYPE_NS)
    (hin : knot_dname_in q.zone_cut.name ns.owner = true)
    (hbelow : ns.owner ≠ q.zone_cut.name)
    (hadd : pkt.additional = gpre ++ glue :: gpost)
    (hglue : glue.type = KNOT_RRTYPE_A ∨ glue.type = KNOT_RRTYPE_AAAA)
    (hgown : glue.owner = knot_ns_name ns)
    (honly : ∀ x ∈ gpre ++ gpost,
      ¬ ((x.type = KNOT_RRTYPE_A ∨ x.type = KNOT_RRTYPE_AAAA) ∧ x.owner = knot_ns_name ns)) :
    resolve ctx pkt =
      (ProcState.DONE,
        { ctx.data with
          rplan := { ctx.data.rplan with
            pending := { q with zone_cut := { name := ns.owner, ns := knot_ns_name ns,
                                               addrs := [glue.rdata] } } :: rest } }) := by
  have hauthority : process_authority pkt ctx.data =
      (ProcState.DONE,
        { ctx.data with
          rplan := { ctx.data.rplan with
            pending := { q with zone_cut := { name := ns.owner, ns := knot_ns_name ns,
                                               addrs := [] } } :: rest } }) := by
    unfold process_authority
    rw [hauth, process_authority_loop_skip pre (ns :: post) ctx.data q rest hplan
      (fun x hx h => absurd h (hfirst x hx))]
    simp [process_authority_loop, hns, rr_update_nameserver_below ns ctx.data q rest hplan hin hbelow]
  have hadditional : process_additional pkt
      { ctx.data with
        rplan := { ctx.data.rplan with
          pending := { q with zone_cut := { name := ns.owner, ns := knot_ns_name ns,
                                             addrs := [] } } :: rest } } =
      (ProcState.DONE,
        { ctx.data with
          rplan := { ctx.data.rplan with
            pending := { q with zone_cut := { name := ns.owner, ns := knot_ns_name ns,
                                               addrs := [glue.rdata] } } :: rest } }) := by
    unfold process_additional
    rw [kr_rplan_current_cons _ _ rest rfl]
    simp only []
    rw [hadd, process_additional_loop_skip gpre (glue :: gpost) _ _ rest rfl
      (fun x hx => honly x (List.mem_append_left _ hx))]
    simp only [process_additional_loop]
    rw [update_glue_found glue _ _ rest rfl hglue hgown]
    simp
  simp [resolve, kr_rplan_current_cons _ q rest hplan, hwf, hpair, htc, hrcode, hauthority,
    hadditional, kr_rplan_empty]

/-- Witness of C4, scenario S1: cut of the root, query `www.example.com A`,
AUTHORITY `com NS a.gtld-servers.net`, ADDITIONAL `a.gtld-servers.net A
192.5.6.30`. -/
theorem resolve_referral_with_glue_witness :
    resolve ctx_www pkt_referral_com =
      (ProcState.DONE,
        { ctx_www.data with
          rplan := { ctx_www.data.rplan with
            pending := [{ query_www with
              zone_cut := { name := name_com, ns := name_a_gtld_servers_net,
                            addrs := [[192, 5, 6, 30]] } }] } }) :=
  resolve_referral_with_glue ctx_www pkt_referral_com query_www [] [] [] [] [] rr_com_ns rr_gtld_a
    rfl rfl (by decide) rfl (Or.inl rfl) rfl (by simp) rfl (by decide) (by decide) rfl
    (Or.inl rfl) rfl (by simp)

/-! ## Minimization retry and truncation (C9, C10) -/

/-- C9 as stated fails: the NODATA reply of scenario S1 to the minimized
question `com IN NS` (question name is not the full sname) carries a
referral in AUTHORITY; `resolve` returns DONE after moving the zone cut of
the current query, and does not set `NO_MINIMIZE`. -/
theorem resolve_minimized_retry_counterexample :
    pkt_referral_com.parsed = pkt_referral_com.size ∧
    is_paired_to_query pkt_referral_com query_www = true ∧
    pkt_referral_com.tc = false ∧
    pkt_referral_com.qname ≠ query_www.sname ∧
    response_classify pkt_referral_com = PktClass.PKT_NODATA ∧
    (resolve ctx_www pkt_referral_com).2.rplan.pending =
      [{ query_www with
         zone_cut := { name := name_com, ns := name_a_gtld_servers_net,
                       addrs := [[192, 5, 6, 30]] } }] ∧
    (∀ x ∈ (resolve ctx_www pkt_referral_com).2.rplan.pending,
      x.flags &&& QUERY_NO_MINIMIZE = 0 ∧ x.zone_cut ≠ query_www.zone_cut) := by
  refine ⟨by decide, by decide, by decide, by decide, by decide, by decide, by decide⟩

/-- C9, amended. Minimization retry: for a well-formed paired response with
TC=0 whose question name is not the full sname of the current query, whose
classification is NODATA or NXDOMAIN, and whose AUTHORITY holds no NS record
owned by another name than the zone-cut name of the current query (no
referral and no rejection), `resolve` sets `NO_MINIMIZE` on the current query
and returns DONE, whatever ANSWER and ADDITIONAL contain; the plan holds the
same queries, every zone cut is unchanged. -/
theorem resolve_minimized_retry (ctx : knot_layer_t) (pkt : knot_pkt_t) (q : kr_query)
    (rest : List kr_query)
    (hplan : ctx.data.rplan.pending = q :: rest)
    (hwf : pkt.parsed = pkt.size)
    (hpair : is_paired_to_query pkt q = true)
    (htc : pkt.tc = false)
    (hqname : pkt.qname ≠ q.sname)
    (hclass : response_classify pkt = PktClass.PKT_NODATA ∨
      response_classify pkt = PktClass.PKT_NXDOMAIN)
    (hauth : ∀ x ∈ pkt.authority, x.type = KNOT_RRTYPE_NS → x.owner = q.zone_cut.name) :
    resolve ctx pkt =
      (ProcState.DONE,
        { ctx.data with
          rplan := { ctx.data.rplan with
            pending := { q with flags := q.flags ||| QUERY_NO_MINIMIZE } :: rest } }) ∧
    (q.flags ||| QUERY_NO_MINIMIZE) &&& QUERY_NO_MINIMIZE ≠ 0 := by
  refine ⟨?_, flag_no_minimize_set q.flags⟩
  have hrcode : pkt.rcode = KNOT_RCODE_NOERROR ∨ pkt.rcode = KNOT_RCODE_NXDOMAIN := by
    unfold response_classify at hclass
    by_cases h0 : pkt.rcode = KNOT_RCODE_NOERROR
    · exact Or.inl h0
    · by_cases h3 : pkt.rcode = KNOT_RCODE_NXDOMAIN
      · exact Or.inr h3
      · simp [h0, h3] at hclass
  have hauthority : process_authority pkt ctx.data = (ProcState.MORE, ctx.data) := by
    unfold process_authority
    have h := process_authority_loop_skip pkt.authority [] ctx.data q rest hplan hauth
    rw [List.append_nil] at h
    rw [h]
    rfl
  have hanswer : process_answer pkt ctx.data =
      (ProcState.DONE,
        { ctx.data with
          rplan := { ctx.data.rplan with
            pending := { q with flags := q.flags ||| QUERY_NO_MINIMIZE } :: rest } }) := by
    unfold process_answer
    rw [kr_rplan_current_cons _ q rest hplan]
    have hc : response_classify pkt = PktClass.PKT_NXDOMAIN ∨
        response_classify pkt = PktClass.PKT_NODATA := hclass.symm
    simp [knot_dname_is_equal, hqname, hc, rplan_modify_top _ q rest _ hplan]
  simp [resolve, kr_rplan_current_cons _ q rest hplan, hwf, hpair, htc, hrcode, hauthority,
    hanswer, kr_rplan_empty]

/-- Witness of C9, amended, scenario S4: minimized qname `foo` against the
cut of the root, NODATA response. -/
theorem resolve_minimized_retry_witness :
    resolve ctx_www_foo pkt_foo_nodata =
      (ProcState.DONE,
        { ctx_www_foo.data with
          rplan := { ctx_www_foo.data.rplan with
            pending := [{ query_www_foo with
              flags := query_www_foo.flags ||| QUERY_NO_MINIMIZE }] } }) ∧
    (query_www_foo.flags ||| QUERY_NO_MINIMIZE) &&& QUERY_NO_MINIMIZE ≠ 0 :=
  resolve_minimized_retry ctx_www_foo pkt_foo_nodata query_www_foo [] rfl rfl (by decide) rfl
    (by decide) (Or.inl (by decide)) (by simp [pkt_foo_nodata])

/-- C10. Truncation: for a well-formed response paired with the outstanding
question and having TC=1, whatever its rcode and sections: if the current
query carries the TCP flag, `resolve` returns FAIL and nothing changes;
otherwise `resolve` returns DONE and the only change is the TCP flag set on
the current query (the queries of the plan, their zone cuts and the outgoing
answer are as before). -/
theorem resolve_truncated (ctx : knot_layer_t) (pkt : knot_pkt_t) (q : kr_query)
    (rest : List kr_query)
    (hplan : ctx.data.rplan.pending = q :: rest)
    (hwf : pkt.parsed = pkt.size)
    (hpair : is_paired_to_query pkt q = true)
    (htc : pkt.tc = true) :
    resolve ctx pkt =
      (if q.flags &&& QUERY_TCP ≠ 0 then (ProcState.FAIL, ctx.data)
       else
        (ProcState.DONE,
          { ctx.data with
            rplan := { ctx.data.rplan with
              pending := { q with flags := q.flags ||| QUERY_TCP } :: rest } })) ∧
    (q.flags ||| QUERY_TCP) &&& QUERY_TCP ≠ 0 := by
  refine ⟨?_, flag_tcp_set q.flags⟩
  by_cases hf : q.flags &&& QUERY_TCP = 0
  · simp [resolve, kr_rplan_current_cons _ q rest hplan, hwf, hpair, htc, hf,
      rplan_modify_top _ q rest _ hplan]
  · simp [resolve, kr_rplan_current_cons _ q rest hplan, hwf, hpair, htc, hf, resolve_error]

/-- Witness of C10, scenario S5: the truncated reply over UDP sets TCP and
gives DONE; the truncated reply over TCP gives FAIL. -/
theorem resolve_truncated_witness :
    (resolve ctx_www { pkt_referral_com with tc := true } =
      (ProcState.DONE,
        { ctx_www.data with
          rplan := { ctx_www.data.rplan with
            pending := [{ query_www with flags := QUERY_TCP }] } })) ∧
    resolve ctx_www_tcp { pkt_referral_com with tc := true } =
      (ProcState.FAIL, ctx_www_tcp.data) :=
  ⟨(resolve_truncated ctx_www { pkt_referral_com with tc := true } query_www [] rfl rfl
      (by decide) rfl).1,
   (resolve_truncated ctx_www_tcp { pkt_referral_com with tc := true } query_www_tcp [] rfl rfl
      (by decide) rfl).1⟩

/-! ## Outbound packet (C8) -/

/-- Putting a record leaves the header id and the question alone. -/
theorem knot_pkt_put_header (p : knot_pkt_t) (rr : knot_rrset_t) :
    (knot_pkt_put p rr).2.id = p.id ∧ (knot_pkt_put p rr).2.qname = p.qname ∧
    (knot_pkt_put p rr).2.qtype = p.qtype ∧ (knot_pkt_put p rr).2.qclass = p.qclass := by
  unfold knot_pkt_put
  split_ifs <;> simp

/-- A question that has been put is the question of the packet. -/
theorem knot_pkt_put_question_ok (p : knot_pkt_t) (n : knot_dname_t) (c t : Nat)
    (h : (knot_pkt_put_question p n c t).1 = true) :
    (knot_pkt_put_question p n c t).2.qname = n ∧
    (knot_pkt_put_question p n c t).2.qtype = t ∧
    (knot_pkt_put_question p n c t).2.qclass = c := by
  unfold knot_pkt_put_question at h ⊢
  split_ifs at h ⊢
  simp

/-- The packet and the plan left by a call of `prepare_query` that returns
MORE on a plan with the current query `q`. -/
theorem prepare_query_more (ctx : knot_layer_t) (pkt : knot_pkt_t) (rnd : Nat)
    (alloc_ok : Bool) (q : kr_query) (rest : List kr_query)
    (hplan : ctx.data.rplan.pending = q :: rest)
    (hmore : (prepare_query ctx pkt rnd alloc_ok).1 = ProcState.MORE) :
    ∃ out : knot_pkt_t,
      prepare_query ctx pkt rnd alloc_ok =
        (ProcState.MORE,
          { ctx.data with
            rplan := { ctx.data.rplan with pending := { q with id := rnd % 2 ^ 16 } :: rest } },
          out) ∧
      out.id = rnd % 2 ^ 16 ∧ out.qname = (minimized_qname q q.stype).1 ∧
      out.qtype = (minimized_qname q q.stype).2 ∧ out.qclass = q.sclass := by
  simp only [prepare_query, kr_rplan_current_cons _ q rest hplan,
    rplan_modify_top _ q rest _ hplan] at hmore ⊢
  by_cases hdone : ctx.state = ProcState.DONE
  · simp [hdone] at hmore
  · rw [if_neg hdone] at hmore ⊢
    by_cases hq : (knot_pkt_put_question (knot_pkt_clear pkt) (minimized_qname q q.stype).1
        q.sclass (minimized_qname q q.stype).2).1 = true
    · have hquestion := knot_pkt_put_question_ok _ _ _ _ hq
      simp only [hq, not_true_eq_false, if_false] at hmore ⊢
      by_cases ha : alloc_ok = true
      · simp only [ha, not_true_eq_false, if_false] at hmore ⊢
        split at hmore
        · simp at hmore
        · rename_i hput
          rw [if_neg hput]
          refine ⟨_, rfl, ?_⟩
          obtain ⟨h1, h2, h3, h4⟩ := knot_pkt_put_header
            (knot_pkt_begin
              { (knot_pkt_put_question (knot_pkt_clear pkt) (minimized_qname q q.stype).1
                  q.sclass (minimized_qname q q.stype).2).2 with id := rnd % 2 ^ 16 }
              KNOT_ADDITIONAL)
            (knot_edns_init KR_EDNS_PAYLOAD 0 KR_EDNS_VERSION)
          rw [h1, h2, h3, h4]
          simpa [knot_pkt_begin] using hquestion
      · simp [ha] at hmore
    · simp [hq] at hmore

/-- C8. Outbound packet: whenever `prepare_query` returns MORE for a plan
with a current query, the question of the emitted packet is
`(qname, sclass, qtype)` with `(qname, qtype)` the output of the minimizer
for the current query and its zone cut; the header id of the packet is the
value drawn by this call, reduced to 16 bits, and this call has stored that
same value as the id of the current query, whatever id the query had before
(nothing else of the plan changes); consequently any response repeating that
id and question is accepted by `is_paired_to_query` for a query with that id
and the same sname, sclass, stype, flags and zone cut, in particular for the
current query as this call leaves it. -/
theorem prepare_query_outbound (ctx : knot_layer_t) (pkt : knot_pkt_t) (rnd : Nat)
    (alloc_ok : Bool) (q : kr_query) (rest : List kr_query)
    (hplan : ctx.data.rplan.pending = q :: rest)
    (hmore : (prepare_query ctx pkt rnd alloc_ok).1 = ProcState.MORE) :
    ((prepare_query ctx pkt rnd alloc_ok).2.2.qname,
      (prepare_query ctx pkt rnd alloc_ok).2.2.qtype) = minimized_qname q q.stype ∧
    (prepare_query ctx pkt rnd alloc_ok).2.2.qclass = q.sclass ∧
    (prepare_query ctx pkt rnd alloc_ok).2.2.id = rnd % 2 ^ 16 ∧
    (prepare_query ctx pkt rnd alloc_ok).2.1.rplan.pending =
      { q with id := rnd % 2 ^ 16 } :: rest ∧
    (kr_rplan_current (prepare_query ctx pkt rnd alloc_ok).2.1.rplan).map (fun x => x.id) =
      some (prepare_query ctx pkt rnd alloc_ok).2.2.id ∧
    (∀ (resp : knot_pkt_t) (q1 : kr_query),
      resp.id = (prepare_query ctx pkt rnd alloc_ok).2.2.id →
      resp.qname = (prepare_query ctx pkt rnd alloc_ok).2.2.qname →
      resp.qclass = (prepare_query ctx pkt rnd alloc_ok).2.2.qclass →
      resp.qtype = (prepare_query ctx pkt rnd alloc_ok).2.2.qtype →
      q1.id = (prepare_query ctx pkt rnd alloc_ok).2.2.id →
      q1.sname = q.sname → q1.sclass = q.sclass → q1.stype = q.stype →
      q1.flags = q.flags → q1.zone_cut = q.zone_cut →
      is_paired_to_query resp q1 = true) ∧
    ∀ resp : knot_pkt_t,
      resp.id = (prepare_query ctx pkt rnd alloc_ok).2.2.id →
      resp.qname = (prepare_query ctx pkt rnd alloc_ok).2.2.qname →
      resp.qclass = (prepare_query ctx pkt rnd alloc_ok).2.2.qclass →
      resp.qtype = (prepare_query ctx pkt rnd alloc_ok).2.2.qtype →
      (kr_rplan_current (prepare_query ctx pkt rnd alloc_ok).2.1.rplan).map
        (is_paired_to_query resp) = some true := by
  obtain ⟨out, heq, hid, hqn, hqt, hqc⟩ := prepare_query_more ctx pkt rnd alloc_ok q rest hplan hmore
  rw [heq]
  simp only []
  have hpaired : ∀ (resp : knot_pkt_t) (q1 : kr_query), resp.id = out.id →
      resp.qname = out.qname → resp.qclass = out.qclass → resp.qtype = out.qtype →
      q1.id = out.id → q1.sname = q.sname → q1.sclass = q.sclass → q1.stype = q.stype →
      q1.flags = q.flags → q1.zone_cut = q.zone_cut → is_paired_to_query resp q1 = true := by
    intro resp q1 h1 h2 h3 h4 h5 h6 h7 h8 h9 h10
    have hm : minimized_qname q1 q1.stype = minimized_qname q q.stype := by
      simp [minimized_qname, h6, h8, h9, h10]
    simp [is_paired_to_query, hm, h1, h2, h3, h4, h5, hqc, h7, knot_dname_is_equal, hqn, hqt]
  refine ⟨by rw [hqn, hqt], hqc, hid, trivial, ?_, hpaired, ?_⟩
  · simp [kr_rplan_current, hid]
  · intro resp h1 h2 h3 h4
    simp only [kr_rplan_current, List.head?_cons, Option.map_some', Option.some.injEq]
    exact hpaired resp { q with id := rnd % 2 ^ 16 } h1 h2 h3 h4 hid.symm rfl rfl rfl rfl rfl

/-- Witness of C8: the first question sent for `www.example.com IN A` at the
cut of the root is `com IN NS`; the value drawn, 70000, gives the id 4464,
which replaces the id 4660 that the query had; the referral of scenario S1
sent back under the id 4464 is paired to the query as the call leaves it,
and is not paired to the query with the id it had before.  The last two
facts are read off the plan before and after the call. -/
theorem prepare_query_outbound_witness :
    ((prepare_query ctx_www_full pkt_out 70000 true).2.2.qname,
      (prepare_query ctx_www_full pkt_out 70000 true).2.2.qtype) = (name_com, KNOT_RRTYPE_NS) ∧
    (prepare_query ctx_www_full pkt_out 70000 true).2.2.qclass = KNOT_CLASS_IN ∧
    (prepare_query ctx_www_full pkt_out 70000 true).2.2.id = 4464 ∧
    (prepare_query ctx_www_full pkt_out 70000 true).2.1.rplan.pending =
      [{ query_www with id := 4464 }] ∧
    is_paired_to_query { pkt_referral_com with id := 4464 } { query_www with id := 4464 } = true ∧
    is_paired_to_query { pkt_referral_com with id := 4464 } query_www = false ∧
    (kr_rplan_current (prepare_query ctx_www_full pkt_out 70000 true).2.1.rplan).map
      (is_paired_to_query { pkt_referral_com with id := 4464 }) = some true ∧
    (kr_rplan_current ctx_www_full.data.rplan).map (fun x => x.id) = some 4660 ∧
    (kr_rplan_current (prepare_query ctx_www_full pkt_out 70000 true).2.1.rplan).map
      (fun x => x.id) = some 4464 :=
  have h := prepare_query_outbound ctx_www_full pkt_out 70000 true query_www [] rfl (by decide)
  ⟨h.1, h.2.1, h.2.2.1, h.2.2.2.1,
    h.2.2.2.2.2.1 { pkt_referral_com with id := 4464 } { query_www with id := 4464 }
      (by decide) (by decide) (by decide) (by decide) (by decide) rfl rfl rfl rfl rfl,
    by decide,
    h.2.2.2.2.2.2 { pkt_referral_com with id := 4464 } (by decide) (by decide) (by decide)
      (by decide),
    by decide, by decide⟩

/-! ## Packet classifier and rejection guards (C15, C17) -/

/-- C15. Packet classifier: `response_classify` is a function of the rcode of
the packet and of whether its ANSWER section is empty: two packets that agree
on the rcode and on the ANSWER count get the same class, whatever their
AUTHORITY and ADDITIONAL sections hold; the class is POSITIVE iff the rcode
is NOERROR and ANSWER is non-empty, NODATA iff the rcode is NOERROR and
ANSWER is empty, NXDOMAIN iff the rcode is NXDOMAIN, and ERROR iff the rcode
is any other one. -/
theorem response_classify_spec (pkt other : knot_pkt_t)
    (hrcode : other.rcode = pkt.rcode) (hcount : other.answer.length = pkt.answer.length) :
    response_classify other = response_classify pkt ∧
    (response_classify pkt = PktClass.PKT_NOERROR ↔
      pkt.rcode = KNOT_RCODE_NOERROR ∧ pkt.answer ≠ []) ∧
    (response_classify pkt = PktClass.PKT_NODATA ↔
      pkt.rcode = KNOT_RCODE_NOERROR ∧ pkt.answer = []) ∧
    (response_classify pkt = PktClass.PKT_NXDOMAIN ↔ pkt.rcode = KNOT_RCODE_NXDOMAIN) ∧
    (response_classify pkt = PktClass.PKT_ERROR ↔
      pkt.rcode ≠ KNOT_RCODE_NOERROR ∧ pkt.rcode ≠ KNOT_RCODE_NXDOMAIN) := by
  refine ⟨by simp [response_classify, hrcode, hcount], ?_⟩
  unfold response_classify
  by_cases h0 : pkt.rcode = KNOT_RCODE_NOERROR
  · have h3 : pkt.rcode ≠ KNOT_RCODE_NXDOMAIN := by
      rw [h0]; decide
    by_cases he : pkt.answer = []
    · simp [h0, he, KNOT_RCODE_NOERROR, KNOT_RCODE_NXDOMAIN]
    · simp [h0, he, KNOT_RCODE_NOERROR, KNOT_RCODE_NXDOMAIN]
  · by_cases h3 : pkt.rcode = KNOT_RCODE_NXDOMAIN
    · have h30 : KNOT_RCODE_NXDOMAIN ≠ KNOT_RCODE_NOERROR := by decide
      simp [h3, h30]
    · simp [h0, h3]

/-- Witness of C15: the referral of scenario S1 with and without its
AUTHORITY and ADDITIONAL records is a NODATA response. -/
theorem response_classify_spec_witness :
    response_classify pkt_foo_nodata = response_classify pkt_referral_com ∧
    (response_classify pkt_referral_com = PktClass.PKT_NOERROR ↔
      pkt_referral_com.rcode = KNOT_RCODE_NOERROR ∧ pkt_referral_com.answer ≠ []) ∧
    (response_classify pkt_referral_com = PktClass.PKT_NODATA ↔
      pkt_referral_com.rcode = KNOT_RCODE_NOERROR ∧ pkt_referral_com.answer = []) ∧
    (response_classify pkt_referral_com = PktClass.PKT_NXDOMAIN ↔
      pkt_referral_com.rcode = KNOT_RCODE_NXDOMAIN) ∧
    (response_classify pkt_referral_com = PktClass.PKT_ERROR ↔
      pkt_referral_com.rcode ≠ KNOT_RCODE_NOERROR ∧
        pkt_referral_com.rcode ≠ KNOT_RCODE_NXDOMAIN) :=
  response_classify_spec pkt_referral_com pkt_foo_nodata rfl rfl

/-- C17. Rejection guards: with a non-empty plan, `resolve` returns FAIL for
every response with parsed < wire length, and for every well-formed response
that is paired with the outstanding question, has TC=0 and carries an rcode
other than NOERROR or NXDOMAIN; in both cases the parameters of the layer
(the queries of the plan, their flags and zone cuts, the outgoing answer) are
the ones before the call. -/
theorem resolve_rejects (ctx : knot_layer_t) (pkt : knot_pkt_t) (q : kr_query)
    (rest : List kr_query) (hplan : ctx.data.rplan.pending = q :: rest)
    (hbad : pkt.parsed < pkt.size ∨
      (pkt.parsed = pkt.size ∧ is_paired_to_query pkt q = true ∧ pkt.tc = false ∧
        pkt.rcode ≠ KNOT_RCODE_NOERROR ∧ pkt.rcode ≠ KNOT_RCODE_NXDOMAIN)) :
    resolve ctx pkt = (ProcState.FAIL, ctx.data) := by
  rcases hbad with hmal | ⟨hwf, hpair, htc, h0, h3⟩
  · simp [resolve, kr_rplan_current_cons _ q rest hplan, hmal, resolve_error]
  · simp [resolve, kr_rplan_current_cons _ q rest hplan, hwf, hpair, htc, h0, h3, resolve_error]

/-- Witness of C17: a response cut short, and a SERVFAIL response. -/
theorem resolve_rejects_witness :
    resolve ctx_www_at_example { pkt_cname with parsed := 30 } =
      (ProcState.FAIL, ctx_www_at_example.data) ∧
    resolve ctx_www_at_example pkt_servfail = (ProcState.FAIL, ctx_www_at_example.data) :=
  ⟨resolve_rejects ctx_www_at_example { pkt_cname with parsed := 30 } query_www_at_example []
      rfl (Or.inl (by decide)),
   resolve_rejects ctx_www_at_example pkt_servfail query_www_at_example [] rfl
      (Or.inr ⟨rfl, by decide, rfl, by decide, by decide⟩)⟩

/-! ## Minimized positive answers (C20) -/

/-- C20, the code at a positive response to a minimized question: cut of the
root, query `www.example.com A`, outstanding question `com IN NS`, response
NOERROR with `com NS a.gtld-servers.net` in ANSWER and no AUTHORITY.  The
question name is not the sname of the query, yet the query is not retried:
the NS record is copied into the answer for the user, the query is popped,
`NO_MINIMIZE` is never set and the answer is finalized from this response. -/
theorem resolve_minimized_positive_is_answered :
    is_paired_to_query pkt_positive_com query_www = true ∧
    pkt_positive_com.qname ≠ query_www.sname ∧
    response_classify pkt_positive_com = PktClass.PKT_NOERROR ∧
    (process_authority pkt_positive_com ctx_www.data).1 = ProcState.MORE ∧
    resolve ctx_www pkt_positive_com =
      (ProcState.DONE,
        { rplan := { pending := [], root_hints := cut_root },
          answer := { answer_empty with
            rcode := KNOT_RCODE_NOERROR, answer := [rr_com_ns],
            size := answer_empty.size + rr_wire_size rr_com_ns,
            current := KNOT_AUTHORITY } }) := by
  refine ⟨by decide, by decide, by decide, by decide, by decide⟩

/-! ## Zone cuts through `resolve` -/

theorem query_at_mem (l : List kr_query) (ptr : Nat) (q : kr_query)
    (h : query_at l ptr = some q) : q ∈ l := by
  induction l with
  | nil => simp [query_at] at h
  | cons x t ih =>
    unfold query_at at h
    by_cases hp : ptr = t.length
    · simp [hp] at h
      simp [h]
    · simp [hp] at h
      exact List.mem_cons_of_mem _ (ih h)

/-- A write through a pointer replaces the query pointed at and no other. -/
theorem mem_modify_at (f : kr_query → kr_query) (l : List kr_query) (ptr : Nat) (y : kr_query)
    (h : y ∈ modify_at f l ptr) :
    y ∈ l ∨ ∃ x, query_at l ptr = some x ∧ y = f x := by
  induction l with
  | nil => simp [modify_at] at h
  | cons x t ih =>
    unfold modify_at at h
    unfold query_at
    by_cases hp : ptr = t.length
    · simp only [hp, if_true, List.mem_cons] at h ⊢
      rcases h with h | h
      · exact Or.inr ⟨x, rfl, h⟩
      · exact Or.inl (Or.inr h)
    · simp only [hp, if_false, List.mem_cons] at h ⊢
      rcases h with h | h
      · exact Or.inl (Or.inl h)
      · rcases ih h with h1 | h1
        · exact Or.inl (Or.inr h1)
        · exact Or.inr h1

theorem modify_at_ne_nil (f : kr_query → kr_query) (l : List kr_query) (ptr : Nat)
    (h : l ≠ []) : modify_at f l ptr ≠ [] := by
  cases l with
  | nil => exact absurd rfl h
  | cons x t =>
    unfold modify_at
    by_cases hp : ptr = t.length <;> simp [hp]

theorem plan_cuts_modify (G : kr_zonecut → Prop) (rplan : kr_rplan) (ptr : Nat)
    (f : kr_query → kr_query) (h : plan_cuts G rplan)
    (hf : ∀ x, rplan_query rplan ptr = some x → G x.zone_cut → G (f x).zone_cut) :
    plan_cuts G (rplan_modify rplan ptr f) := by
  refine ⟨h.1, ?_⟩
  intro y hy
  rcases mem_modify_at f rplan.pending ptr y hy with h1 | ⟨x, hx, rfl⟩
  · exact h.2 y h1
  · exact hf x hx (h.2 x (query_at_mem _ _ _ hx))

theorem plan_cuts_update_nsaddr (G : kr_zonecut → Prop) (rr : knot_rrset_t) (rplan : kr_rplan)
    (query : Option Nat) (index : Nat) (h : plan_cuts G rplan)
    (hadd : ∀ c, G c → (rr.type = KNOT_RRTYPE_A ∨ rr.type = KNOT_RRTYPE_AAAA) →
      c.ns = rr.owner → G { c with addrs := c.addrs ++ [rr.rdata] }) :
    plan_cuts G (update_nsaddr rr rplan query index).2 := by
  unfold update_nsaddr
  cases query with
  | none => exact h
  | some ptr =>
    simp only []
    cases hq : rplan_query rplan ptr with
    | none => exact h
    | some q =>
      simp only []
      by_cases ht : rr.type = KNOT_RRTYPE_A ∨ rr.type = KNOT_RRTYPE_AAAA
      · by_cases hown : q.zone_cut.ns = rr.owner
        · have hG : G { q.zone_cut with addrs := q.zone_cut.addrs ++ [rr.rdata] } :=
            hadd q.zone_cut (h.2 q (query_at_mem _ _ _ hq)) ht hown
          have he : knot_dname_is_equal q.zone_cut.ns rr.owner = true := by
            simp [knot_dname_is_equal, hown]
          simp only [ht, if_true, he, kr_set_zone_cut_addr]
          exact plan_cuts_modify G rplan ptr _ h (fun _ _ _ => hG)
        · simp [ht, knot_dname_is_equal, hown, h]
      · simp [ht, h]

theorem plan_cuts_push (G : kr_zonecut → Prop) (rplan : kr_rplan) (parent : Option Nat)
    (name : knot_dname_t) (cls type : Nat) (h : plan_cuts G rplan) :
    plan_cuts G (kr_rplan_push rplan parent name cls type) := by
  refine ⟨h.1, ?_⟩
  intro y hy
  simp only [kr_rplan_push, List.mem_cons] at hy
  rcases hy with hy | hy
  · rw [hy]
    simp only []
    cases hp : parent.bind (rplan_query rplan) with
    | none => exact h.1
    | some p =>
      cases parent with
      | none => simp at hp
      | some ptr =>
        exact h.2 p (query_at_mem _ _ _ hp)
  · exact h.2 y hy

theorem remove_at_mem (l : List kr_query) :
    ∀ (ptr : Nat) (l1 : List kr_query), remove_at l ptr = some l1 → ∀ y ∈ l1, y ∈ l := by
  induction l with
  | nil => intro ptr l1 h; simp [remove_at] at h
  | cons x t ih =>
    intro ptr l1 h y hy
    unfold remove_at at h
    by_cases hp : ptr = t.length
    · simp only [hp, if_true, Option.some.injEq] at h
      rw [← h] at hy
      exact List.mem_cons_of_mem _ hy
    · simp only [hp, if_false, Option.map_eq_some'] at h
      obtain ⟨l2, h2, rfl⟩ := h
      rcases List.mem_cons.mp hy with hy1 | hy1
      · rw [hy1]; exact List.mem_cons_self _ _
      · exact List.mem_cons_of_mem _ (ih ptr l2 h2 y hy1)

theorem plan_cuts_pop (G : kr_zonecut → Prop) (rplan : kr_rplan) (qry : Nat)
    (h : plan_cuts G rplan) : plan_cuts G (kr_rplan_pop rplan qry).2 := by
  unfold kr_rplan_pop
  cases hl : remove_at rplan.pending qry with
  | none => exact h
  | some l1 => exact ⟨h.1, fun y hy => h.2 y (remove_at_mem _ _ _ hl y hy)⟩

theorem plan_cuts_rr_update_nameserver (G : kr_zonecut → Prop) (rr : knot_rrset_t)
    (param : kr_layer_param) (h : plan_cuts G param.rplan)
    (hset : ∀ c, G c → G (kr_set_zone_cut c rr.owner (knot_ns_name rr))) :
    plan_cuts G (rr_update_nameserver rr 0 param).2.rplan := by
  unfold rr_update_nameserver
  cases kr_rplan_current param.rplan with
  | none => exact h
  | some query =>
    simp only []
    split_ifs <;>
      first
      | exact h
      | exact plan_cuts_modify G param.rplan (rplan_top param.rplan)
          (fun x => { x with zone_cut := kr_set_zone_cut x.zone_cut rr.owner (knot_ns_name rr) })
          h (fun x _ hx => hset x.zone_cut hx)

theorem plan_cuts_process_authority_loop (G : kr_zonecut → Prop) (l : List knot_rrset_t) :
    ∀ (param : kr_layer_param), plan_cuts G param.rplan →
      (∀ rr ∈ l, rr.type = KNOT_RRTYPE_NS →
        ∀ c, G c → G (kr_set_zone_cut c rr.owner (knot_ns_name rr))) →
      plan_cuts G (process_authority_loop l param).2.rplan := by
  induction l with
  | nil => intro param h _; exact h
  | cons rr rest ih =>
    intro param h hset
    have hrest : ∀ x ∈ rest, x.type = KNOT_RRTYPE_NS →
        ∀ c, G c → G (kr_set_zone_cut c x.owner (knot_ns_name x)) :=
      fun x hx => hset x (List.mem_cons_of_mem _ hx)
    unfold process_authority_loop
    by_cases hns : rr.type = KNOT_RRTYPE_NS
    · have h1 := plan_cuts_rr_update_nameserver G rr param h
        (hset rr (List.mem_cons_self _ _) hns)
      simp only [hns, if_true]
      split_ifs
      · exact h1
      · exact ih _ h1 hrest
    · simp only [hns, if_false]
      exact ih param h hrest

theorem plan_cuts_process_additional_loop (G : kr_zonecut → Prop) (l : List knot_rrset_t) :
    ∀ (param : kr_layer_param), plan_cuts G param.rplan →
      (∀ rr ∈ l, ∀ c, G c → (rr.type = KNOT_RRTYPE_A ∨ rr.type = KNOT_RRTYPE_AAAA) →
        c.ns = rr.owner → G { c with addrs := c.addrs ++ [rr.rdata] }) →
      plan_cuts G (process_additional_loop l param).2.rplan := by
  induction l with
  | nil => intro param h _; exact h
  | cons rr rest ih =>
    intro param h hadd
    have h1 : plan_cuts G (update_glue rr 0 param).2.rplan :=
      plan_cuts_update_nsaddr G rr param.rplan _ 0 h (hadd rr (List.mem_cons_self _ _))
    unfold process_additional_loop
    simp only []
    split_ifs
    · exact h1
    · exact ih _ h1 (fun x hx => hadd x (List.mem_cons_of_mem _ hx))

theorem plan_cuts_process_additional (G : kr_zonecut → Prop) (pkt : knot_pkt_t)
    (param : kr_layer_param) (h : plan_cuts G param.rplan)
    (hadd : ∀ rr ∈ pkt.additional, ∀ c, G c →
      (rr.type = KNOT_RRTYPE_A ∨ rr.type = KNOT_RRTYPE_AAAA) →
      c.ns = rr.owner → G { c with addrs := c.addrs ++ [rr.rdata] }) :
    plan_cuts G (process_additional pkt param).2.rplan := by
  have h1 := plan_cuts_process_additional_loop G pkt.additional param h hadd
  unfold process_additional
  cases kr_rplan_current param.rplan with
  | none => exact h
  | some query0 =>
    simp only []
    cases hr : (process_additional_loop pkt.additional param).1 with
    | some state => exact h1
    | none =>
      simp only []
      exact plan_cuts_push G _ _ _ _ _ (plan_cuts_push G _ _ _ _ _ h1)

theorem rr_update_answer_rplan (rr : knot_rrset_t) (param : kr_layer_param) :
    (rr_update_answer rr 0 param).1 = ProcState.DONE ∧
    (rr_update_answer rr 0 param).2.rplan = param.rplan := by
  simp only [rr_update_answer]
  split_ifs <;> simp

theorem plan_cuts_process_answer_loop (G : kr_zonecut → Prop) (is_final : Bool)
    (query : kr_query) (l : List knot_rrset_t) :
    ∀ (cname : Option knot_dname_t) (param : kr_layer_param), plan_cuts G param.rplan →
      (∀ rr ∈ l, ∀ c, G c → (rr.type = KNOT_RRTYPE_A ∨ rr.type = KNOT_RRTYPE_AAAA) →
        c.ns = rr.owner → G { c with addrs := c.addrs ++ [rr.rdata] }) →
      plan_cuts G (process_answer_loop is_final query l cname param).2.2.rplan := by
  induction l with
  | nil => intro cname param h _; exact h
  | cons rr rest ih =>
    intro cname param h hadd
    have hrest : ∀ x ∈ rest, ∀ c, G c → (x.type = KNOT_RRTYPE_A ∨ x.type = KNOT_RRTYPE_AAAA) →
        c.ns = x.owner → G { c with addrs := c.addrs ++ [x.rdata] } :=
      fun x hx => hadd x (List.mem_cons_of_mem _ hx)
    unfold process_answer_loop
    cases is_final with
    | true =>
      have h1 : plan_cuts G (rr_update_answer rr 0 param).2.rplan := by
        rw [(rr_update_answer_rplan rr param).2]
        exact h
      simp only [if_true]
      split_ifs
      · exact h1
      · exact ih _ _ h1 hrest
    | false =>
      have h1 : plan_cuts G (rr_update_parent rr 0 param).2.rplan :=
        plan_cuts_update_nsaddr G rr param.rplan _ 0 h (hadd rr (List.mem_cons_self _ _))
      simp only [Bool.false_eq_true, if_false]
      split_ifs
      · exact h1
      · exact ih _ _ h1 hrest

theorem plan_cuts_process_answer (G : kr_zonecut → Prop) (pkt : knot_pkt_t)
    (param : kr_layer_param) (h : plan_cuts G param.rplan)
    (hadd : ∀ rr ∈ pkt.answer, ∀ c, G c →
      (rr.type = KNOT_RRTYPE_A ∨ rr.type = KNOT_RRTYPE_AAAA) →
      c.ns = rr.owner → G { c with addrs := c.addrs ++ [rr.rdata] }) :
    plan_cuts G (process_answer pkt param).2.rplan := by
  unfold process_answer
  cases kr_rplan_current param.rplan with
  | none => exact h
  | some query =>
    simp only []
    split_ifs
    · exact plan_cuts_modify G param.rplan (rplan_top param.rplan)
        (fun x => { x with flags := x.flags ||| QUERY_NO_MINIMIZE }) h (fun x _ hx => hx)
    · have h1 := plan_cuts_process_answer_loop G query.parent.isNone query pkt.answer none
        param h hadd
      cases hr : (process_answer_loop query.parent.isNone query pkt.answer none param).1 with
      | some state => exact h1
      | none =>
        simp only []
        apply plan_cuts_pop
        cases (process_answer_loop query.parent.isNone query pkt.answer none param).2.1 with
        | none => exact h1
        | some cname => exact plan_cuts_push G _ _ _ _ _ h1

theorem finalize_soa_rplan (l : List knot_rrset_t) (param : kr_layer_param) :
    (finalize_soa l param).rplan = param.rplan := by
  induction l with
  | nil => rfl
  | cons rr rest ih =>
    unfold finalize_soa
    split_ifs
    · exact (rr_update_answer_rplan rr param).2
    · exact ih

theorem finalize_answer_rplan (pkt : knot_pkt_t) (param : kr_layer_param) :
    (finalize_answer pkt param).rplan = param.rplan := by
  unfold finalize_answer
  simp only []
  split_ifs
  · rw [finalize_soa_rplan]
  · rfl

/-- A property of zone cuts that the root hints and every query of the plan
have before `resolve`, that the storing of a glue address keeps and that the
zone cuts made from the NS records of AUTHORITY have, holds of every query
of the plan after `resolve`. -/
theorem plan_cuts_resolve (G : kr_zonecut → Prop) (ctx : knot_layer_t) (pkt : knot_pkt_t)
    (h : plan_cuts G ctx.data.rplan)
    (hset : ∀ rr ∈ pkt.authority, rr.type = KNOT_RRTYPE_NS →
      ∀ c, G c → G (kr_set_zone_cut c rr.owner (knot_ns_name rr)))
    (hadd : ∀ rr ∈ pkt.answer ++ pkt.additional, ∀ c, G c →
      (rr.type = KNOT_RRTYPE_A ∨ rr.type = KNOT_RRTYPE_AAAA) →
      c.ns = rr.owner → G { c with addrs := c.addrs ++ [rr.rdata] }) :
    plan_cuts G (resolve ctx pkt).2.rplan := by
  have hauth := plan_cuts_process_authority_loop G pkt.authority ctx.data h hset
  have hsections : plan_cuts G
      (match (process_authority pkt ctx.data).1 with
        | ProcState.MORE => process_answer pkt (process_authority pkt ctx.data).2
        | ProcState.DONE => process_additional pkt (process_authority pkt ctx.data).2
        | _ => process_authority pkt ctx.data).2.rplan := by
    cases hst : (process_authority pkt ctx.data).1 with
    | MORE =>
      exact plan_cuts_process_answer G pkt _ hauth
        (fun rr hrr => hadd rr (List.mem_append_left _ hrr))
    | DONE =>
      exact plan_cuts_process_additional G pkt _ hauth
        (fun rr hrr => hadd rr (List.mem_append_right _ hrr))
    | NOOP => exact hauth
    | FULL => exact hauth
    | FAIL => exact hauth
  unfold resolve
  simp only []
  cases kr_rplan_current ctx.data.rplan with
  | none => exact h
  | some query =>
    simp only []
    split_ifs <;>
      first
      | exact h
      | exact plan_cuts_modify G ctx.data.rplan (rplan_top ctx.data.rplan)
          (fun x => { x with flags := x.flags ||| QUERY_TCP }) h (fun x _ hx => hx)
      | exact hsections
      | (simp only [finalize_answer_rplan]; exact hsections)

/-! ## Zone-cut invariant (C14) -/

/-- C14 as stated fails at scenario S1: before the call the only zone cut of
the plan is the cut of the root, whose name server is in-bailiwick of it;
after the referral the zone cut is `(com, a.gtld-servers.net)`, whose name
server is not in-bailiwick of `com`. -/
theorem resolve_cut_invariant_counterexample :
    (∀ x ∈ ctx_www.data.rplan.pending, knot_dname_in x.zone_cut.name x.zone_cut.ns = true) ∧
    knot_dname_in ctx_www.data.rplan.root_hints.name ctx_www.data.rplan.root_hints.ns = true ∧
    (resolve ctx_www pkt_referral_com).1 = ProcState.DONE ∧
    ∃ x ∈ (resolve ctx_www pkt_referral_com).2.rplan.pending,
      x.zone_cut.name = name_com ∧ x.zone_cut.ns = name_a_gtld_servers_net ∧
      knot_dname_in x.zone_cut.name x.zone_cut.ns = false := by
  refine ⟨by decide, by decide, by decide, ?_⟩
  exact ⟨{ query_www with
            zone_cut := { name := name_com, ns := name_a_gtld_servers_net,
                          addrs := [[192, 5, 6, 30]] } },
    by decide, by decide, by decide, by decide⟩

/-- C14, amended. Zone-cut invariant: if before a call to `resolve` every
query of the plan, and the root hints, have a zone cut whose name server name
is in-bailiwick of its name, and every NS record of the AUTHORITY section of
the response names a name server that is in-bailiwick of the owner of the
record, then after `resolve` every query of the plan has a zone cut whose
name server name is in-bailiwick of its name. -/
theorem resolve_cut_invariant (ctx : knot_layer_t) (pkt : knot_pkt_t)
    (hplan : ∀ x ∈ ctx.data.rplan.pending,
      knot_dname_in x.zone_cut.name x.zone_cut.ns = true)
    (hroot : knot_dname_in ctx.data.rplan.root_hints.name ctx.data.rplan.root_hints.ns = true)
    (hns : ∀ rr ∈ pkt.authority, rr.type = KNOT_RRTYPE_NS →
      knot_dname_in rr.owner (knot_ns_name rr) = true) :
    ∀ x ∈ (resolve ctx pkt).2.rplan.pending,
      knot_dname_in x.zone_cut.name x.zone_cut.ns = true :=
  (plan_cuts_resolve (fun c => knot_dname_in c.name c.ns = true) ctx pkt ⟨hroot, hplan⟩
    (fun rr hrr hty _ _ => hns rr hrr hty)
    (fun _ _ _ hc _ _ => hc)).2

/-- Witness of C14, amended: at the cut of the root, the referral to `com`
with the name server `a.nic.com`. -/
theorem resolve_cut_invariant_witness :
    ({ query_www with
        zone_cut := { name := name_com, ns := name_a_nic_com, addrs := [] } } : kr_query) ∈
      (resolve ctx_www pkt_referral_inside).2.rplan.pending ∧
    knot_dname_in name_com name_a_nic_com = true :=
  ⟨by decide,
   resolve_cut_invariant ctx_www pkt_referral_inside (by decide) (by decide) (by decide)
    { query_www with zone_cut := { name := name_com, ns := name_a_nic_com, addrs := [] } }
    (by decide)⟩

/-! ## Glue and sub-queries of a referral (C12, C18) -/

/-- The walk of ADDITIONAL stops at the first address record of the name
server of the current cut and stores its address; without such a record it
runs to the end and changes nothing. -/
theorem process_additional_loop_find (l : List knot_rrset_t) (param : kr_layer_param)
    (q : kr_query) (rest : List kr_query) (h : param.rplan.pending = q :: rest) :
    process_additional_loop l param =
      match l.find? (fun x =>
          decide ((x.type = KNOT_RRTYPE_A ∨ x.type = KNOT_RRTYPE_AAAA) ∧
            x.owner = q.zone_cut.ns)) with
      | some glue =>
        (some ProcState.DONE,
          { param with
            rplan := { param.rplan with
              pending := { q with zone_cut := { q.zone_cut with
                            addrs := q.zone_cut.addrs ++ [glue.rdata] } } :: rest } })
      | none => (none, param) := by
  induction l with
  | nil => rfl
  | cons x t ih =>
    by_cases hx : (x.type = KNOT_RRTYPE_A ∨ x.type = KNOT_RRTYPE_AAAA) ∧ x.owner = q.zone_cut.ns
    · simp [process_additional_loop, update_glue_found x param q rest h hx.1 hx.2,
        List.find?, hx]
    · have hskip := update_glue_skip x param q rest h hx
      simp only [process_additional_loop, hskip, List.find?, hx, decide_False]
      simpa using ih

/-- The outcome of `process_additional` on a plan with the current query
`q`: the address of the first glue record is stored, or two queries are
pushed for the name server of the cut of `q`, AAAA first and A second. -/
theorem process_additional_find (pkt : knot_pkt_t) (rh : kr_zonecut) (ans : knot_pkt_t)
    (q : kr_query) (rest : List kr_query) :
    process_additional pkt { rplan := { pending := q :: rest, root_hints := rh }, answer := ans } =
      (ProcState.DONE,
        { rplan :=
            { pending :=
                match pkt.additional.find? (fun x =>
                    decide ((x.type = KNOT_RRTYPE_A ∨ x.type = KNOT_RRTYPE_AAAA) ∧
                      x.owner = q.zone_cut.ns)) with
                | some glue =>
                  { q with zone_cut := { q.zone_cut with
                      addrs := q.zone_cut.addrs ++ [glue.rdata] } } :: rest
                | none =>
                  { parent := some rest.length, sname := q.zone_cut.ns, sclass := KNOT_CLASS_IN,
                    stype := KNOT_RRTYPE_A, id := 0, flags := 0, zone_cut := q.zone_cut } ::
                  { parent := some rest.length, sname := q.zone_cut.ns, sclass := KNOT_CLASS_IN,
                    stype := KNOT_RRTYPE_AAAA, id := 0, flags := 0, zone_cut := q.zone_cut } ::
                  q :: rest,
              root_hints := rh },
          answer := ans }) := by
  have hloop := process_additional_loop_find pkt.additional
    { rplan := { pending := q :: rest, root_hints := rh }, answer := ans } q rest rfl
  unfold process_additional
  simp only [kr_rplan_current, List.head?_cons, hloop]
  cases pkt.additional.find? (fun x =>
      decide ((x.type = KNOT_RRTYPE_A ∨ x.type = KNOT_RRTYPE_AAAA) ∧
        x.owner = q.zone_cut.ns)) with
  | some glue => rfl
  | none => simp [kr_rplan_push, rplan_query, rplan_top, query_at]

/-- C12. Glue sub-queries and their order: for a referral taken by `resolve`
on the current query `q` (valid paired response whose first NS record not
owned by the zone-cut name is owned by a name strictly below it) with the
new name server name `N`, `resolve` returns DONE; when ADDITIONAL holds an A
or AAAA record owned by `N`, the address of the first one is stored and no
query is pushed; when it holds none, exactly two queries are pushed, both
with parent `q`, sname `N` and class IN, the AAAA one first and the A one
second, so that the plan is the A query, the AAAA query beneath it, `q`
beneath that, then the rest. -/
theorem resolve_referral_subqueries (ctx : knot_layer_t) (pkt : knot_pkt_t) (q : kr_query)
    (rest : List kr_query) (pre post : List knot_rrset_t) (ns : knot_rrset_t)
    (hplan : ctx.data.rplan.pending = q :: rest)
    (hwf : pkt.parsed = pkt.size)
    (hpair : is_paired_to_query pkt q = true)
    (htc : pkt.tc = false)
    (hrcode : pkt.rcode = KNOT_RCODE_NOERROR ∨ pkt.rcode = KNOT_RCODE_NXDOMAIN)
    (hauth : pkt.authority = pre ++ ns :: post)
    (hpre : ∀ x ∈ pre, x.type = KNOT_RRTYPE_NS → x.owner = q.zone_cut.name)
    (hns : ns.type = KNOT_RRTYPE_NS)
    (hin : knot_dname_in q.zone_cut.name ns.owner = true)
    (hbelow : ns.owner ≠ q.zone_cut.name) :
    resolve ctx pkt =
      (ProcState.DONE,
        { ctx.data with
          rplan := { ctx.data.rplan with
            pending :=
              match pkt.additional.find? (fun x =>
                  decide ((x.type = KNOT_RRTYPE_A ∨ x.type = KNOT_RRTYPE_AAAA) ∧
                    x.owner = knot_ns_name ns)) with
              | some glue =>
                { q with zone_cut := { name := ns.owner, ns := knot_ns_name ns,
                                       addrs := [glue.rdata] } } :: rest
              | none =>
                { parent := some rest.length, sname := knot_ns_name ns, sclass := KNOT_CLASS_IN,
                  stype := KNOT_RRTYPE_A, id := 0, flags := 0,
                  zone_cut := { name := ns.owner, ns := knot_ns_name ns, addrs := [] } } ::
                { parent := some rest.length, sname := knot_ns_name ns, sclass := KNOT_CLASS_IN,
                  stype := KNOT_RRTYPE_AAAA, id := 0, flags := 0,
                  zone_cut := { name := ns.owner, ns := knot_ns_name ns, addrs := [] } } ::
                { q with zone_cut := { name := ns.owner, ns := knot_ns_name ns,
                                       addrs := [] } } :: rest } }) := by
  obtain ⟨st, ⟨⟨pending, rh⟩, ans⟩⟩ := ctx
  simp only at hplan
  subst hplan
  have hauthority : process_authority pkt
      { rplan := { pending := q :: rest, root_hints := rh }, answer := ans } =
      (ProcState.DONE,
        { rplan :=
            { pending := { q with zone_cut := { name := ns.owner, ns := knot_ns_name ns,
                                                 addrs := [] } } :: rest,
              root_hints := rh },
          answer := ans }) := by
    unfold process_authority
    rw [hauth, process_authority_loop_skip pre (ns :: post) _ q rest rfl hpre]
    simp [process_authority_loop, hns,
      rr_update_nameserver_below ns
        { rplan := { pending := q :: rest, root_hints := rh }, answer := ans } q rest rfl
        hin hbelow]
  have hadditional := process_additional_find pkt rh ans
    { q with zone_cut := { name := ns.owner, ns := knot_ns_name ns, addrs := [] } } rest
  simp only [List.nil_append] at hadditional
  simp only [resolve, kr_rplan_current, List.head?_cons, hwf, hpair, htc, hrcode, hauthority,
    hadditional, lt_self_iff_false, if_false, not_true_eq_false, Bool.false_eq_true]
  cases pkt.additional.find? (fun x =>
      decide ((x.type = KNOT_RRTYPE_A ∨ x.type = KNOT_RRTYPE_AAAA) ∧
        x.owner = knot_ns_name ns)) with
  | some glue => simp [kr_rplan_empty]
  | none => simp [kr_rplan_empty]

/-- Witness of C12: the referral of the root to `com` without glue pushes the
AAAA query, then the A query, for `a.gtld-servers.net`. -/
theorem resolve_referral_subqueries_witness :
    resolve ctx_www pkt_referral_no_glue =
      (ProcState.DONE,
        { ctx_www.data with
          rplan := { ctx_www.data.rplan with
            pending :=
              [{ parent := some 0, sname := name_a_gtld_servers_net, sclass := KNOT_CLASS_IN,
                 stype := KNOT_RRTYPE_A, id := 0, flags := 0,
                 zone_cut := { name := name_com, ns := name_a_gtld_servers_net, addrs := [] } },
               { parent := some 0, sname := name_a_gtld_servers_net, sclass := KNOT_CLASS_IN,
                 stype := KNOT_RRTYPE_AAAA, id := 0, flags := 0,
                 zone_cut := { name := name_com, ns := name_a_gtld_servers_net, addrs := [] } },
               { query_www with
                 zone_cut := { name := name_com, ns := name_a_gtld_servers_net,
                               addrs := [] } }] } }) :=
  resolve_referral_subqueries ctx_www pkt_referral_no_glue query_www [] [] [] rr_com_ns
    rfl rfl (by decide) rfl (Or.inl rfl) rfl (by simp) rfl (by decide) (by decide)

/-- C18 as stated fails: the referral of the root to `com` with an A and an
AAAA record of `a.gtld-servers.net` in ADDITIONAL leaves the A address alone
in the new zone cut; the walk returns at the first glue record and the AAAA
address is not stored. -/
theorem resolve_all_glue_counterexample :
    (∀ rr ∈ pkt_referral_two_glue.additional,
      (rr.type = KNOT_RRTYPE_A ∨ rr.type = KNOT_RRTYPE_AAAA) ∧
        rr.owner = name_a_gtld_servers_net) ∧
    rr_gtld_aaaa ∈ pkt_referral_two_glue.additional ∧
    resolve ctx_www pkt_referral_two_glue =
      (ProcState.DONE,
        { ctx_www.data with
          rplan := { ctx_www.data.rplan with
            pending := [{ query_www with
              zone_cut := { name := name_com, ns := name_a_gtld_servers_net,
                            addrs := [[192, 5, 6, 30]] } }] } }) ∧
    (∀ x ∈ (resolve ctx_www pkt_referral_two_glue).2.rplan.pending,
      rr_gtld_aaaa.rdata ∉ x.zone_cut.addrs) := by
  refine ⟨by decide, by decide, by decide, by decide⟩

/-- C18, amended. First glue is harvested: for a referral taken by `resolve`
with the new name server name `N`, the first A or AAAA record of ADDITIONAL
whose owner equals `N` is added to the name server addresses of the new zone
cut, and it is the only one: whatever follows it in the section, the
addresses of the new zone cut are that address alone and no query is
pushed. -/
theorem resolve_first_glue (ctx : knot_layer_t) (pkt : knot_pkt_t) (q : kr_query)
    (rest : List kr_query) (pre post gpre gpost : List knot_rrset_t) (ns glue : knot_rrset_t)
    (hplan : ctx.data.rplan.pending = q :: rest)
    (hwf : pkt.parsed = pkt.size)
    (hpair : is_paired_to_query pkt q = true)
    (htc : pkt.tc = false)
    (hrcode : pkt.rcode = KNOT_RCODE_NOERROR ∨ pkt.rcode = KNOT_RCODE_NXDOMAIN)
    (hauth : pkt.authority = pre ++ ns :: post)
    (hpre : ∀ x ∈ pre, x.type = KNOT_RRTYPE_NS → x.owner = q.zone_cut.name)
    (hns : ns.type = KNOT_RRTYPE_NS)
    (hin : knot_dname_in q.zone_cut.name ns.owner = true)
    (hbelow : ns.owner ≠ q.zone_cut.name)
    (hadd : pkt.additional = gpre ++ glue :: gpost)
    (hglue : glue.type = KNOT_RRTYPE_A ∨ glue.type = KNOT_RRTYPE_AAAA)
    (hgown : glue.owner = knot_ns_name ns)
    (hfirst : ∀ x ∈ gpre,
      ¬ ((x.type = KNOT_RRTYPE_A ∨ x.type = KNOT_RRTYPE_AAAA) ∧ x.owner = knot_ns_name ns)) :
    resolve ctx pkt =
      (ProcState.DONE,
        { ctx.data with
          rplan := { ctx.data.rplan with
            pending := { q with zone_cut := { name := ns.owner, ns := knot_ns_name ns,
                                               addrs := [glue.rdata] } } :: rest } }) := by
  have hauthority : process_authority pkt ctx.data =
      (ProcState.DONE,
        { ctx.data with
          rplan := { ctx.data.rplan with
            pending := { q with zone_cut := { name := ns.owner, ns := knot_ns_name ns,
                                               addrs := [] } } :: rest } }) := by
    unfold process_authority
    rw [hauth, process_authority_loop_skip pre (ns :: post) ctx.data q rest hplan hpre]
    simp [process_authority_loop, hns, rr_update_nameserver_below ns ctx.data q rest hplan hin hbelow]
  have hadditional : process_additional pkt
      { ctx.data with
        rplan := { ctx.data.rplan with
          pending := { q with zone_cut := { name := ns.owner, ns := knot_ns_name ns,
                                             addrs := [] } } :: rest } } =
      (ProcState.DONE,
        { ctx.data with
          rplan := { ctx.data.rplan with
            pending := { q with zone_cut := { name := ns.owner, ns := knot_ns_name ns,
                                               addrs := [glue.rdata] } } :: rest } }) := by
    unfold process_additional
    rw [kr_rplan_current_cons _ _ rest rfl]
    simp only []
    rw [hadd, process_additional_loop_skip gpre (glue :: gpost) _ _ rest rfl hfirst]
    simp only [process_additional_loop]
    rw [update_glue_found glue _ _ rest rfl hglue hgown]
    simp
  simp [resolve, kr_rplan_current_cons _ q rest hplan, hwf, hpair, htc, hrcode, hauthority,
    hadditional, kr_rplan_empty]

/-- Witness of C18, amended: of the A and the AAAA record of
`a.gtld-servers.net`, the A record comes first and its address is stored. -/
theorem resolve_first_glue_witness :
    resolve ctx_www pkt_referral_two_glue =
      (ProcState.DONE,
        { ctx_www.data with
          rplan := { ctx_www.data.rplan with
            pending := [{ query_www with
              zone_cut := { name := name_com, ns := name_a_gtld_servers_net,
                            addrs := [[192, 5, 6, 30]] } }] } }) :=
  resolve_first_glue ctx_www pkt_referral_two_glue query_www [] [] [] [] [rr_gtld_aaaa]
    rr_com_ns rr_gtld_a
    rfl rfl (by decide) rfl (Or.inl rfl) rfl (by simp) rfl (by decide) (by decide) rfl
    (Or.inl rfl) rfl (by simp)

/-! ## The outgoing answer through `resolve` -/

theorem answer_kept_refl (a : knot_pkt_t) : answer_kept a a :=
  ⟨rfl, rfl, fun _ => rfl, fun h => h⟩

theorem answer_kept_trans (a b c : knot_pkt_t) (h1 : answer_kept a b) (h2 : answer_kept b c) :
    answer_kept a c := by
  obtain ⟨r1, c1, a1, t1⟩ := h1
  obtain ⟨r2, c2, a2, t2⟩ := h2
  refine ⟨r2.trans r1, c2.trans c1, fun h => ?_, fun h => t2 (t1 h)⟩
  rw [a2 (c1.trans h), a1 h]

theorem answer_kept_put (p : knot_pkt_t) (rr : knot_rrset_t) :
    answer_kept p (knot_pkt_put p rr).2 := by
  unfold knot_pkt_put
  split_ifs with h1 h2 h3
  · exact answer_kept_refl p
  · exact ⟨rfl, rfl, fun _ => rfl, fun h => h⟩
  · refine ⟨rfl, rfl, fun h => ?_, fun h => h⟩
    exact absurd h h2
  · exact ⟨rfl, rfl, fun _ => rfl, fun h => h⟩

/-- `rr_update_answer` keeps the rcode and the AUTHORITY section of an answer
that is writing its ANSWER section, and sets TC when the record is refused. -/
theorem answer_kept_rr_update_answer (rr : knot_rrset_t) (param : kr_layer_param) :
    answer_kept param.answer (rr_update_answer rr 0 param).2.answer ∧
    ((knot_pkt_put param.answer rr).1 = false →
      (rr_update_answer rr 0 param).2.answer.tc = true) := by
  have hput := answer_kept_put param.answer rr
  simp only [rr_update_answer]
  by_cases hok : (knot_pkt_put param.answer rr).1 = true
  · simp only [hok, not_true_eq_false, if_false]
    exact ⟨hput, fun h => by simp at h⟩
  · simp only [hok, not_false_eq_true, if_true]
    obtain ⟨r1, c1, a1, _⟩ := hput
    exact ⟨⟨r1, c1, a1, fun _ => rfl⟩, fun _ => rfl⟩

theorem rr_update_parent_answer (rr : knot_rrset_t) (param : kr_layer_param) :
    (rr_update_parent rr 0 param).2.answer = param.answer := rfl

theorem answer_kept_process_answer_loop (is_final : Bool) (query : kr_query)
    (l : List knot_rrset_t) :
    ∀ (cname : Option knot_dname_t) (param : kr_layer_param),
      answer_kept param.answer (process_answer_loop is_final query l cname param).2.2.answer := by
  induction l with
  | nil => intro cname param; exact answer_kept_refl _
  | cons rr rest ih =>
    intro cname param
    unfold process_answer_loop
    cases is_final with
    | true =>
      have h1 := (answer_kept_rr_update_answer rr param).1
      simp only [if_true]
      split_ifs
      · exact h1
      · exact answer_kept_trans _ _ _ h1 (ih _ _)
    | false =>
      have h1 : answer_kept param.answer (rr_update_parent rr 0 param).2.answer := by
        rw [rr_update_parent_answer]
        exact answer_kept_refl _
      simp only [Bool.false_eq_true, if_false]
      split_ifs
      · exact h1
      · exact answer_kept_trans _ _ _ h1 (ih _ _)

theorem answer_kept_process_answer (pkt : knot_pkt_t) (param : kr_layer_param) :
    answer_kept param.answer (process_answer pkt param).2.answer := by
  unfold process_answer
  cases kr_rplan_current param.rplan with
  | none => exact answer_kept_refl _
  | some query =>
    simp only []
    split_ifs
    · exact answer_kept_refl _
    · have h1 := answer_kept_process_answer_loop query.parent.isNone query pkt.answer none param
      cases hr : (process_answer_loop query.parent.isNone query pkt.answer none param).1 with
      | some state => exact h1
      | none => exact h1

/-- `process_answer` returns DONE whenever there is a current query. -/
theorem process_answer_done (pkt : knot_pkt_t) (param : kr_layer_param) (q : kr_query)
    (rest : List kr_query) (h : param.rplan.pending = q :: rest) :
    (process_answer pkt param).1 = ProcState.DONE := by
  have hloop : ∀ (l : List knot_rrset_t) (cname : Option knot_dname_t) (p : kr_layer_param),
      (process_answer_loop q.parent.isNone q l cname p).1 = none := by
    intro l
    induction l with
    | nil => intro cname p; rfl
    | cons rr t ih =>
      intro cname p
      unfold process_answer_loop
      cases hfin : q.parent.isNone with
      | true =>
        simp only [if_true, (rr_update_answer_rplan rr p).1]
        simpa [hfin] using ih _ _
      | false =>
        have hne : (rr_update_parent rr 0 p).1 ≠ ProcState.FAIL := by
          simp only [rr_update_parent, update_nsaddr]
          split <;> try split
          all_goals (try split_ifs) <;> simp
        simp only [Bool.false_eq_true, if_false, hne]
        simpa [hfin] using ih _ _
  unfold process_answer
  rw [kr_rplan_current_cons _ q rest h]
  simp only []
  split_ifs
  · rfl
  · rw [hloop]

theorem process_authority_loop_answer (l : List knot_rrset_t) :
    ∀ (param : kr_layer_param),
      (process_authority_loop l param).2.answer = param.answer ∧
      (param.rplan.pending ≠ [] → (process_authority_loop l param).2.rplan.pending ≠ []) ∧
      ((process_authority_loop l param).1 = ProcState.MORE →
        (process_authority_loop l param).2 = param) := by
  induction l with
  | nil => intro param; exact ⟨rfl, fun h => h, fun _ => rfl⟩
  | cons rr rest ih =>
    intro param
    have hone : (rr_update_nameserver rr 0 param).2.answer = param.answer ∧
        (param.rplan.pending ≠ [] → (rr_update_nameserver rr 0 param).2.rplan.pending ≠ []) ∧
        ((rr_update_nameserver rr 0 param).1 = ProcState.MORE →
          (rr_update_nameserver rr 0 param).2 = param) := by
      unfold rr_update_nameserver
      cases kr_rplan_current param.rplan with
      | none => exact ⟨rfl, fun h => h, fun _ => rfl⟩
      | some query =>
        simp only []
        split_ifs <;>
          first
          | exact ⟨rfl, fun h => h, fun _ => rfl⟩
          | exact ⟨rfl, fun h => modify_at_ne_nil _ _ _ h, fun h => by simp at h⟩
    unfold process_authority_loop
    by_cases hns : rr.type = KNOT_RRTYPE_NS
    · simp only [hns, if_true]
      split_ifs with hst
      · exact ⟨hone.1, hone.2.1, fun h => absurd h hst⟩
      · have hmore := not_not.mp hst
        obtain ⟨i1, i2, i3⟩ := ih (rr_update_nameserver rr 0 param).2
        refine ⟨i1.trans hone.1, fun h => i2 (hone.2.1 h), fun h => ?_⟩
        rw [i3 h, hone.2.2 hmore]
    · simp only [hns, if_false]
      exact ih param

theorem update_nsaddr_ne_nil (rr : knot_rrset_t) (rplan : kr_rplan) (query : Option Nat)
    (index : Nat) (h : rplan.pending ≠ []) :
    (update_nsaddr rr rplan query index).2.pending ≠ [] := by
  unfold update_nsaddr
  cases query with
  | none => exact h
  | some ptr =>
    simp only []
    cases rplan_query rplan ptr with
    | none => exact h
    | some q =>
      simp only []
      split_ifs <;>
        first
        | exact h
        | exact modify_at_ne_nil _ _ _ h

theorem process_additional_answer (pkt : knot_pkt_t) (param : kr_layer_param) :
    (process_additional pkt param).2.answer = param.answer ∧
    (param.rplan.pending ≠ [] → (process_additional pkt param).2.rplan.pending ≠ []) := by
  have hloop : ∀ (l : List knot_rrset_t) (p : kr_layer_param),
      (process_additional_loop l p).2.answer = p.answer ∧
      (p.rplan.pending ≠ [] → (process_additional_loop l p).2.rplan.pending ≠ []) := by
    intro l
    induction l with
    | nil => intro p; exact ⟨rfl, fun h => h⟩
    | cons rr t ih =>
      intro p
      have h1 : (update_glue rr 0 p).2.answer = p.answer := rfl
      have h2 : p.rplan.pending ≠ [] → (update_glue rr 0 p).2.rplan.pending ≠ [] :=
        fun h => update_nsaddr_ne_nil rr p.rplan _ 0 h
      unfold process_additional_loop
      simp only []
      split_ifs
      · exact ⟨h1, h2⟩
      · obtain ⟨i1, i2⟩ := ih (update_glue rr 0 p).2
        exact ⟨i1.trans h1, fun h => i2 (h2 h)⟩
  unfold process_additional
  cases kr_rplan_current param.rplan with
  | none => exact ⟨rfl, fun h => h⟩
  | some query0 =>
    simp only []
    cases hr : (process_additional_loop pkt.additional param).1 with
    | some state => exact hloop pkt.additional param
    | none =>
      simp only []
      exact ⟨(hloop pkt.additional param).1, fun _ => by simp [kr_rplan_push]⟩

theorem finalize_soa_find (l : List knot_rrset_t) (param : kr_layer_param) :
    finalize_soa l param =
      match l.find? (fun rr => decide (rr.type = KNOT_RRTYPE_SOA)) with
      | some soa => (rr_update_answer soa 0 param).2
      | none => param := by
  induction l with
  | nil => rfl
  | cons rr t ih =>
    unfold finalize_soa
    by_cases h : rr.type = KNOT_RRTYPE_SOA
    · simp [h, List.find?]
    · simp only [h, if_false, List.find?, decide_False]
      exact ih

/-- What `finalize_answer` does to the outgoing answer: the rcode of the
response is copied, and the first SOA record of AUTHORITY is appended to the
outgoing AUTHORITY section when the response is NXDOMAIN or NODATA and the
record fits the buffer; nothing else is appended. -/
theorem finalize_answer_spec (pkt : knot_pkt_t) (param : kr_layer_param) :
    (finalize_answer pkt param).answer.rcode = pkt.rcode ∧
    (finalize_answer pkt param).answer.authority =
      param.answer.authority ++
        (if response_classify pkt = PktClass.PKT_NXDOMAIN ∨
            response_classify pkt = PktClass.PKT_NODATA then
          match pkt.authority.find? (fun rr => decide (rr.type = KNOT_RRTYPE_SOA)) with
          | some soa =>
            if param.answer.size + rr_wire_size soa ≤ param.answer.max_size then [soa] else []
          | none => []
        else []) := by
  unfold finalize_answer
  simp only []
  by_cases hneg : response_classify pkt = PktClass.PKT_NXDOMAIN ∨
      response_classify pkt = PktClass.PKT_NODATA
  · simp only [hneg, if_true, finalize_soa_find]
    cases pkt.authority.find? (fun rr => decide (rr.type = KNOT_RRTYPE_SOA)) with
    | none => simp [knot_pkt_begin]
    | some soa =>
      simp only [rr_update_answer, knot_pkt_put, knot_pkt_begin]
      have h10 : KNOT_AUTHORITY ≠ KNOT_ANSWER := by decide
      by_cases hroom : param.answer.size + rr_wire_size soa ≤ param.answer.max_size
      · have hgt : ¬ param.answer.size + rr_wire_size soa > param.answer.max_size := by omega
        simp [hroom, hgt, h10]
      · have hgt : param.answer.size + rr_wire_size soa > param.answer.max_size := by omega
        simp [hroom, hgt]
  · simp [hneg, knot_pkt_begin]

/-! ## Finalization (C16) -/

/-- C16. Finalization: for a `resolve` that processes the response (plan
with a current query, well-formed paired response with TC=0 and rcode
NOERROR or NXDOMAIN) while the outgoing answer is writing its ANSWER section:
if the plan is non-empty at the end, the outgoing rcode and AUTHORITY section
are the ones before the call; if the plan is empty at the end, the outgoing
rcode is the rcode of the response and the outgoing AUTHORITY section is the
one before the call followed by exactly one record, the first SOA record of
the AUTHORITY section of the response, when the response classifies as
NXDOMAIN or NODATA, holds an SOA record and the record fits the buffer as
`process_answer` left it, and by nothing otherwise. -/
theorem resolve_finalization (ctx : knot_layer_t) (pkt : knot_pkt_t) (q : kr_query)
    (rest : List kr_query)
    (hplan : ctx.data.rplan.pending = q :: rest)
    (hwf : pkt.parsed = pkt.size)
    (hpair : is_paired_to_query pkt q = true)
    (htc : pkt.tc = false)
    (hrcode : pkt.rcode = KNOT_RCODE_NOERROR ∨ pkt.rcode = KNOT_RCODE_NXDOMAIN)
    (hcur : ctx.data.answer.current = KNOT_ANSWER) :
    ((resolve ctx pkt).2.rplan.pending ≠ [] →
      (resolve ctx pkt).2.answer.rcode = ctx.data.answer.rcode ∧
      (resolve ctx pkt).2.answer.authority = ctx.data.answer.authority) ∧
    ((resolve ctx pkt).2.rplan.pending = [] →
      (resolve ctx pkt).2.answer.rcode = pkt.rcode ∧
      (resolve ctx pkt).2.answer.authority =
        ctx.data.answer.authority ++
          (if response_classify pkt = PktClass.PKT_NXDOMAIN ∨
              response_classify pkt = PktClass.PKT_NODATA then
            match pkt.authority.find? (fun rr => decide (rr.type = KNOT_RRTYPE_SOA)) with
            | some soa =>
              if (process_answer pkt ctx.data).2.answer.size + rr_wire_size soa ≤
                  (process_answer pkt ctx.data).2.answer.max_size then [soa] else []
            | none => []
          else [])) := by
  have hne : ctx.data.rplan.pending ≠ [] := by simp [hplan]
  obtain ⟨ha1, ha2, ha3⟩ := process_authority_loop_answer pkt.authority ctx.data
  have hres : resolve ctx pkt =
      (if kr_rplan_empty
          (match (process_authority pkt ctx.data).1 with
            | ProcState.MORE => process_answer pkt (process_authority pkt ctx.data).2
            | ProcState.DONE => process_additional pkt (process_authority pkt ctx.data).2
            | _ => process_authority pkt ctx.data).2.rplan then
        ((match (process_authority pkt ctx.data).1 with
            | ProcState.MORE => process_answer pkt (process_authority pkt ctx.data).2
            | ProcState.DONE => process_additional pkt (process_authority pkt ctx.data).2
            | _ => process_authority pkt ctx.data).1,
          finalize_answer pkt
            (match (process_authority pkt ctx.data).1 with
              | ProcState.MORE => process_answer pkt (process_authority pkt ctx.data).2
              | ProcState.DONE => process_additional pkt (process_authority pkt ctx.data).2
              | _ => process_authority pkt ctx.data).2)
      else
        (match (process_authority pkt ctx.data).1 with
          | ProcState.MORE => process_answer pkt (process_authority pkt ctx.data).2
          | ProcState.DONE => process_additional pkt (process_authority pkt ctx.data).2
          | _ => process_authority pkt ctx.data)) := by
    simp [resolve, kr_rplan_current_cons _ q rest hplan, hwf, hpair, htc, hrcode]
  -- the sections that do not reach `process_answer` leave a plan that is not
  -- empty and do not touch the answer
  have hother : ∀ r1 : ProcState × kr_layer_param,
      r1.2.rplan.pending ≠ [] → r1.2.answer = ctx.data.answer →
      ((if kr_rplan_empty r1.2.rplan then (r1.1, finalize_answer pkt r1.2) else r1).2.rplan.pending
          ≠ [] →
        (if kr_rplan_empty r1.2.rplan then (r1.1, finalize_answer pkt r1.2)
          else r1).2.answer.rcode = ctx.data.answer.rcode ∧
        (if kr_rplan_empty r1.2.rplan then (r1.1, finalize_answer pkt r1.2)
          else r1).2.answer.authority = ctx.data.answer.authority) ∧
      ((if kr_rplan_empty r1.2.rplan then (r1.1, finalize_answer pkt r1.2) else r1).2.rplan.pending
          = [] → False) := by
    intro r1 hp hans
    have hemp : kr_rplan_empty r1.2.rplan = false := by
      simp [kr_rplan_empty, hp]
    simp only [hemp, Bool.false_eq_true, if_false]
    exact ⟨fun _ => by rw [hans]; exact ⟨rfl, rfl⟩, fun h => hp h⟩
  rw [hres]
  unfold process_authority
  cases hst : (process_authority_loop pkt.authority ctx.data).1 with
  | MORE =>
    simp only []
    rw [ha3 hst]
    obtain ⟨k1, _, k3, _⟩ := answer_kept_process_answer pkt ctx.data
    by_cases hemp : (process_answer pkt ctx.data).2.rplan.pending = []
    · have hempty : kr_rplan_empty (process_answer pkt ctx.data).2.rplan = true := by
        simp [kr_rplan_empty, hemp]
      simp only [hempty, if_true, finalize_answer_rplan]
      refine ⟨fun h => absurd hemp h, fun _ => ?_⟩
      obtain ⟨f1, f2⟩ := finalize_answer_spec pkt (process_answer pkt ctx.data).2
      rw [f1, f2, k3 hcur]
      exact ⟨rfl, rfl⟩
    · have hempty : kr_rplan_empty (process_answer pkt ctx.data).2.rplan = false := by
        simp [kr_rplan_empty, hemp]
      simp only [hempty, Bool.false_eq_true, if_false]
      exact ⟨fun _ => ⟨k1, k3 hcur⟩, fun h => absurd h hemp⟩
  | DONE =>
    obtain ⟨p1, p2⟩ := process_additional_answer pkt
      (process_authority_loop pkt.authority ctx.data).2
    obtain ⟨o1, o2⟩ := hother
      (process_additional pkt (process_authority_loop pkt.authority ctx.data).2)
      (p2 (ha2 hne)) (p1.trans ha1)
    exact ⟨o1, fun h => (o2 h).elim⟩
  | NOOP =>
    obtain ⟨o1, o2⟩ := hother (process_authority_loop pkt.authority ctx.data) (ha2 hne) ha1
    exact ⟨o1, fun h => (o2 h).elim⟩
  | FULL =>
    obtain ⟨o1, o2⟩ := hother (process_authority_loop pkt.authority ctx.data) (ha2 hne) ha1
    exact ⟨o1, fun h => (o2 h).elim⟩
  | FAIL =>
    obtain ⟨o1, o2⟩ := hother (process_authority_loop pkt.authority ctx.data) (ha2 hne) ha1
    exact ⟨o1, fun h => (o2 h).elim⟩

/-- Witness of C16: the NXDOMAIN reply with the SOA record of `example.com`
ends the resolution of `www.example.com A`; the answer gets the rcode
NXDOMAIN and that SOA record in AUTHORITY. -/
theorem resolve_finalization_witness :
    (resolve ctx_www_at_example pkt_nxdomain).2.rplan.pending = [] ∧
    (resolve ctx_www_at_example pkt_nxdomain).2.answer.rcode = KNOT_RCODE_NXDOMAIN ∧
    (resolve ctx_www_at_example pkt_nxdomain).2.answer.authority = [rr_example_soa] :=
  ⟨by decide,
   ((resolve_finalization ctx_www_at_example pkt_nxdomain query_www_at_example [] rfl rfl
      (by decide) rfl (Or.inr rfl) rfl).2 (by decide))⟩

/-! ## Answer-buffer overflow (C19) -/

/-- The walk of ANSWER for a final query never returns from inside the loop,
so the walk of a section is the walk of its end started where the walk of
its beginning stops. -/
theorem process_answer_loop_append (query : kr_query) (pre l : List knot_rrset_t) :
    ∀ (cname : Option knot_dname_t) (param : kr_layer_param),
      process_answer_loop true query (pre ++ l) cname param =
        process_answer_loop true query l
          (process_answer_loop true query pre cname param).2.1
          (process_answer_loop true query pre cname param).2.2 := by
  induction pre with
  | nil => intro cname param; rfl
  | cons rr t ih =>
    intro cname param
    simp only [List.cons_append, process_answer_loop, if_true, (rr_update_answer_rplan rr param).1]
    simpa using ih _ _

/-- The state returned, the name left in `cname` and the plan left by the
walk of ANSWER do not depend on the outgoing answer. -/
theorem process_answer_loop_plan (is_final : Bool) (query : kr_query) (l : List knot_rrset_t) :
    ∀ (cname : Option knot_dname_t) (p1 p2 : kr_layer_param), p1.rplan = p2.rplan →
      (process_answer_loop is_final query l cname p1).1 =
        (process_answer_loop is_final query l cname p2).1 ∧
      (process_answer_loop is_final query l cname p1).2.1 =
        (process_answer_loop is_final query l cname p2).2.1 ∧
      (process_answer_loop is_final query l cname p1).2.2.rplan =
        (process_answer_loop is_final query l cname p2).2.2.rplan := by
  induction l with
  | nil => intro cname p1 p2 h; exact ⟨rfl, rfl, h⟩
  | cons rr t ih =>
    intro cname p1 p2 h
    unfold process_answer_loop
    cases is_final with
    | true =>
      have hstep : (rr_update_answer rr 0 p1).2.rplan = (rr_update_answer rr 0 p2).2.rplan := by
        rw [(rr_update_answer_rplan rr p1).2, (rr_update_answer_rplan rr p2).2, h]
      simp only [if_true, (rr_update_answer_rplan rr p1).1, (rr_update_answer_rplan rr p2).1]
      simpa using ih _ _ _ hstep
    | false =>
      have hstate : (rr_update_parent rr 0 p1).1 = (rr_update_parent rr 0 p2).1 := by
        simp [rr_update_parent, h]
      have hstep : (rr_update_parent rr 0 p1).2.rplan = (rr_update_parent rr 0 p2).2.rplan := by
        simp [rr_update_parent, h]
      simp only [Bool.false_eq_true, if_false, hstate]
      split_ifs
      · exact ⟨rfl, rfl, hstep⟩
      · exact ih _ _ _ hstep

/-- The state returned and the plan left by `process_answer` do not depend on
the outgoing answer. -/
theorem process_answer_plan (pkt : knot_pkt_t) (p1 p2 : kr_layer_param)
    (h : p1.rplan = p2.rplan) :
    (process_answer pkt p1).1 = (process_answer pkt p2).1 ∧
    (process_answer pkt p1).2.rplan = (process_answer pkt p2).2.rplan := by
  unfold process_answer
  rw [h]
  cases kr_rplan_current p2.rplan with
  | none => exact ⟨rfl, h⟩
  | some query =>
    simp only []
    split_ifs
    · simp [h]
    · obtain ⟨l1, l2, l3⟩ := process_answer_loop_plan query.parent.isNone query pkt.answer none
        p1 p2 h
      rw [l1, l2]
      cases (process_answer_loop query.parent.isNone query pkt.answer none p2).1 with
      | some state => exact ⟨rfl, l3⟩
      | none => simp [l3, h]

/-- The TC bit of the outgoing answer is set once a record of ANSWER has
been refused by the answer of a final query. -/
theorem process_answer_truncates (pkt : knot_pkt_t) (param : kr_layer_param) (q : kr_query)
    (rest : List kr_query) (pre post : List knot_rrset_t) (rr : knot_rrset_t)
    (hplan : param.rplan.pending = q :: rest)
    (hfinal : q.parent = none)
    (hrun : ¬ (pkt.qname ≠ q.sname ∧
      (response_classify pkt = PktClass.PKT_NXDOMAIN ∨
        response_classify pkt = PktClass.PKT_NODATA)))
    (hanswer : pkt.answer = pre ++ rr :: post)
    (hfull : (knot_pkt_put (process_answer_loop true q pre none param).2.2.answer rr).1 = false) :
    (process_answer pkt param).2.answer.tc = true := by
  have hloop : (process_answer_loop true q pkt.answer none param).2.2.answer.tc = true := by
    rw [hanswer, process_answer_loop_append]
    simp only [process_answer_loop, if_true,
      (rr_update_answer_rplan rr (process_answer_loop true q pre none param).2.2).1]
    have hset := (answer_kept_rr_update_answer rr
      (process_answer_loop true q pre none param).2.2).2 hfull
    have hkeep := answer_kept_process_answer_loop true q post
      (follow_cname_chain (process_answer_loop true q pre none param).2.1 rr q)
      (rr_update_answer rr 0 (process_answer_loop true q pre none param).2.2).2
    simpa using hkeep.2.2.2 hset
  have hcond : ¬ (¬ knot_dname_is_equal pkt.qname q.sname = true ∧
      (response_classify pkt = PktClass.PKT_NXDOMAIN ∨
        response_classify pkt = PktClass.PKT_NODATA)) := by
    intro hc
    apply hrun
    refine ⟨fun he => hc.1 ?_, hc.2⟩
    simp [knot_dname_is_equal, he]
  unfold process_answer
  rw [kr_rplan_current_cons _ q rest hplan]
  simp only [hcond, if_false, hfinal, Option.isNone_none]
  cases (process_answer_loop true q pkt.answer none param).1 with
  | some state => exact hloop
  | none => exact hloop

theorem finalize_answer_truncated (pkt : knot_pkt_t) (param : kr_layer_param)
    (h : param.answer.tc = true) : (finalize_answer pkt param).answer.tc = true := by
  unfold finalize_answer
  simp only []
  split_ifs
  · rw [finalize_soa_find]
    cases pkt.authority.find? (fun rr => decide (rr.type = KNOT_RRTYPE_SOA)) with
    | none => exact h
    | some soa =>
      exact (answer_kept_rr_update_answer soa _).1.2.2.2 h
  · exact h

/-- C19. Answer-buffer overflow: for a final query (no parent) and a valid
paired response that is not a referral (no NS record of AUTHORITY is owned
by another name than the zone-cut name) and whose ANSWER section is examined
(the response is not the NODATA or NXDOMAIN reply to a minimized question),
if the outgoing answer refuses a record of ANSWER, the buffer being full
once the records before it are written, then TC is set on the outgoing
answer, `resolve` returns DONE, and with any other outgoing answer in its
place (of whatever capacity) `resolve` returns DONE as well and leaves the
same plan. -/
theorem resolve_answer_overflow (ctx : knot_layer_t) (pkt : knot_pkt_t) (q : kr_query)
    (rest : List kr_query) (pre post : List knot_rrset_t) (rr : knot_rrset_t)
    (hplan : ctx.data.rplan.pending = q :: rest)
    (hfinal : q.parent = none)
    (hwf : pkt.parsed = pkt.size)
    (hpair : is_paired_to_query pkt q = true)
    (htc : pkt.tc = false)
    (hrcode : pkt.rcode = KNOT_RCODE_NOERROR ∨ pkt.rcode = KNOT_RCODE_NXDOMAIN)
    (hnoref : ∀ x ∈ pkt.authority, x.type = KNOT_RRTYPE_NS → x.owner = q.zone_cut.name)
    (hrun : ¬ (pkt.qname ≠ q.sname ∧
      (response_classify pkt = PktClass.PKT_NXDOMAIN ∨
        response_classify pkt = PktClass.PKT_NODATA)))
    (hanswer : pkt.answer = pre ++ rr :: post)
    (hfull : (knot_pkt_put (process_answer_loop true q pre none ctx.data).2.2.answer rr).1 =
      false) :
    (resolve ctx pkt).1 = ProcState.DONE ∧
    (resolve ctx pkt).2.answer.tc = true ∧
    ∀ other : knot_pkt_t,
      (resolve { ctx with data := { ctx.data with answer := other } } pkt).1 = ProcState.DONE ∧
      (resolve { ctx with data := { ctx.data with answer := other } } pkt).2.rplan =
        (resolve ctx pkt).2.rplan := by
  have hres : ∀ c : knot_layer_t, c.data.rplan.pending = q :: rest →
      resolve c pkt =
        (if kr_rplan_empty (process_answer pkt c.data).2.rplan then
          ((process_answer pkt c.data).1, finalize_answer pkt (process_answer pkt c.data).2)
        else process_answer pkt c.data) := by
    intro c hc
    have hauthority : process_authority pkt c.data = (ProcState.MORE, c.data) := by
      unfold process_authority
      have h := process_authority_loop_skip pkt.authority [] c.data q rest hc hnoref
      rw [List.append_nil] at h
      rw [h]
      rfl
    simp [resolve, kr_rplan_current_cons _ q rest hc, hwf, hpair, htc, hrcode, hauthority]
  have hstate : ∀ c : knot_layer_t, c.data.rplan.pending = q :: rest →
      (resolve c pkt).1 = ProcState.DONE := by
    intro c hc
    rw [hres c hc]
    split_ifs
    · exact process_answer_done pkt c.data q rest hc
    · exact process_answer_done pkt c.data q rest hc
  have hrplan : ∀ c : knot_layer_t, c.data.rplan.pending = q :: rest →
      (resolve c pkt).2.rplan = (process_answer pkt c.data).2.rplan := by
    intro c hc
    rw [hres c hc]
    split_ifs
    · exact finalize_answer_rplan _ _
    · rfl
  have htrunc := process_answer_truncates pkt ctx.data q rest pre post rr hplan hfinal hrun
    hanswer hfull
  refine ⟨hstate ctx hplan, ?_, fun other => ⟨hstate _ hplan, ?_⟩⟩
  · rw [hres ctx hplan]
    split_ifs
    · exact finalize_answer_truncated pkt _ htrunc
    · exact htrunc
  · rw [hrplan { ctx with data := { ctx.data with answer := other } } hplan, hrplan ctx hplan]
    exact (process_answer_plan pkt { ctx.data with answer := other } ctx.data rfl).2

/-- Witness of C19, scenario S3 with an answer that has 7 bytes left: the
CNAME record is refused, TC is set, `resolve` returns DONE and the plan is
the one left with the answer of 512 bytes. -/
theorem resolve_answer_overflow_witness :
    (resolve ctx_www_small pkt_cname).1 = ProcState.DONE ∧
    (resolve ctx_www_small pkt_cname).2.answer.tc = true ∧
    (resolve ctx_www_at_example pkt_cname).2.rplan = (resolve ctx_www_small pkt_cname).2.rplan :=
  have h := resolve_answer_overflow ctx_www_small pkt_cname query_www_at_example [] []
    [] rr_www_cname rfl rfl rfl (by decide) rfl (Or.inl rfl) (by simp [pkt_cname])
    (by decide) rfl (by decide)
  ⟨h.1, h.2.1, (h.2.2 answer_empty).2⟩

/-! ## Writes through a pointer, the walk of ANSWER and the pop -/

/-- A pointer that is not below the length of the list points at no query. -/
theorem query_at_none (l : List kr_query) (ptr : Nat) (h : l.length ≤ ptr) :
    query_at l ptr = none := by
  induction l with
  | nil => rfl
  | cons x t ih =>
    have h1 : t.length + 1 ≤ ptr := by simpa using h
    have hp : ptr ≠ t.length := by omega
    simp only [query_at, hp, if_false]
    exact ih (by omega)

theorem modify_at_length (f : kr_query → kr_query) (l : List kr_query) (ptr : Nat) :
    (modify_at f l ptr).length = l.length := by
  induction l with
  | nil => rfl
  | cons x t ih =>
    by_cases hp : ptr = t.length <;> simp [modify_at, hp, ih]

/-- A write through a pointer depends on the function written only at the
query pointed at. -/
theorem modify_at_congr (f g : kr_query → kr_query) (l : List kr_query) (ptr : Nat)
    (h : ∀ q, query_at l ptr = some q → f q = g q) :
    modify_at f l ptr = modify_at g l ptr := by
  induction l with
  | nil => rfl
  | cons x t ih =>
    by_cases hp : ptr = t.length
    · simp only [query_at, hp, if_true] at h
      simp only [modify_at, hp, if_true]
      rw [h x rfl]
    · simp only [query_at, hp, if_false] at h
      simp only [modify_at, hp, if_false]
      rw [ih h]

theorem modify_at_id (l : List kr_query) (ptr : Nat) : modify_at (fun x => x) l ptr = l := by
  induction l with
  | nil => rfl
  | cons x t ih =>
    by_cases hp : ptr = t.length <;> simp [modify_at, hp, ih]

/-- A write through a pointer that changes nothing at the query pointed at
leaves the list alone. -/
theorem modify_at_same (f : kr_query → kr_query) (l : List kr_query) (ptr : Nat)
    (h : ∀ q, query_at l ptr = some q → f q = q) : modify_at f l ptr = l := by
  rw [modify_at_congr f (fun x => x) l ptr h, modify_at_id]

/-- A write through a pointer, on the topmost query and on the queries
beneath it. -/
theorem modify_at_cons (f : kr_query → kr_query) (q : kr_query) (rest : List kr_query)
    (ptr : Nat) :
    modify_at f (q :: rest) ptr =
      (if ptr = rest.length then f q else q) :: modify_at f rest ptr := by
  by_cases hp : ptr = rest.length
  · have hnone : modify_at f rest ptr = rest :=
      modify_at_same f rest ptr (fun x hx => by
        rw [query_at_none rest ptr (by omega)] at hx
        cases hx)
    simp only [modify_at, hp, if_true]
    rw [← hp, hnone]
  · simp only [modify_at, hp, if_false]

theorem add_ns_addr_parent (rr : knot_rrset_t) (x : kr_query) :
    (add_ns_addr rr x).parent = x.parent := by
  unfold add_ns_addr
  split_ifs <;> rfl

/-- A record that is no address record is offered in vain. -/
theorem add_ns_addr_other (rr : knot_rrset_t) (x : kr_query)
    (h : ¬ (rr.type = KNOT_RRTYPE_A ∨ rr.type = KNOT_RRTYPE_AAAA)) : add_ns_addr rr x = x := by
  simp [add_ns_addr, h]

/-- The plan left by `update_nsaddr`: the record is offered to the zone cut
of the query pointed at. -/
theorem update_nsaddr_plan (rr : knot_rrset_t) (rplan : kr_rplan) (query : Option Nat)
    (index : Nat) :
    (update_nsaddr rr rplan query index).2 =
      match query with
      | some ptr => rplan_modify rplan ptr (add_ns_addr rr)
      | none => rplan := by
  unfold update_nsaddr
  cases query with
  | none => rfl
  | some ptr =>
    simp only []
    cases hq : rplan_query rplan ptr with
    | none =>
      simp only [rplan_modify]
      rw [modify_at_same (add_ns_addr rr) rplan.pending ptr (fun x hx => by
        unfold rplan_query at hq
        rw [hq] at hx
        cases hx)]
    | some q =>
      simp only []
      by_cases ht : rr.type = KNOT_RRTYPE_A ∨ rr.type = KNOT_RRTYPE_AAAA
      · by_cases hown : q.zone_cut.ns = rr.owner
        · have he : knot_dname_is_equal q.zone_cut.ns rr.owner = true := by
            simp [knot_dname_is_equal, hown]
          simp only [ht, if_true, he, kr_set_zone_cut_addr, rplan_modify]
          rw [modify_at_congr _ (add_ns_addr rr) rplan.pending ptr (fun x hx => by
            unfold rplan_query at hq
            rw [hq] at hx
            cases hx
            simp [add_ns_addr, ht, hown])]
        · have he : knot_dname_is_equal q.zone_cut.ns rr.owner = false := by
            simp [knot_dname_is_equal, hown]
          simp only [ht, if_true, he, Bool.false_eq_true, if_false, rplan_modify]
          rw [modify_at_same (add_ns_addr rr) rplan.pending ptr (fun x hx => by
            unfold rplan_query at hq
            rw [hq] at hx
            cases hx
            simp [add_ns_addr, hown])]
      · simp only [ht, if_false, rplan_modify]
        rw [modify_at_same (add_ns_addr rr) rplan.pending ptr
          (fun x _ => add_ns_addr_other rr x ht)]

theorem update_nsaddr_state (rr : knot_rrset_t) (rplan : kr_rplan) (query : Option Nat)
    (index : Nat) : (update_nsaddr rr rplan query index).1 ≠ ProcState.FAIL := by
  unfold update_nsaddr
  cases query with
  | none => simp
  | some ptr =>
    simp only []
    cases rplan_query rplan ptr with
    | none => simp
    | some q =>
      simp only []
      split_ifs <;> simp

theorem offer_all_length (l : List knot_rrset_t) (ptr : Nat) :
    ∀ pending : List kr_query, (offer_all l ptr pending).length = pending.length := by
  induction l with
  | nil => intro pending; rfl
  | cons rr t ih =>
    intro pending
    simp only [offer_all, List.foldl_cons] at ih ⊢
    rw [ih, modify_at_length]

/-- The records offered through a pointer, on the topmost query and on the
queries beneath it; the topmost query keeps its parent. -/
theorem offer_all_cons (l : List knot_rrset_t) (ptr : Nat) :
    ∀ (q : kr_query) (rest : List kr_query),
      ∃ q1 : kr_query, q1.parent = q.parent ∧
        (ptr ≠ rest.length → q1 = q) ∧
        offer_all l ptr (q :: rest) = q1 :: offer_all l ptr rest := by
  induction l with
  | nil => intro q rest; exact ⟨q, rfl, fun _ => rfl, rfl⟩
  | cons rr t ih =>
    intro q rest
    obtain ⟨q1, h1, h2, h3⟩ := ih (if ptr = rest.length then add_ns_addr rr q else q)
      (modify_at (add_ns_addr rr) rest ptr)
    refine ⟨q1, ?_, ?_, ?_⟩
    · rw [h1]
      split_ifs
      · exact add_ns_addr_parent rr q
      · rfl
    · intro hp
      rw [modify_at_length] at h2
      rw [h2 hp, if_neg hp]
    · simp only [offer_all, List.foldl_cons] at h3 ⊢
      rw [modify_at_cons, h3]

/-- The walk of ANSWER for a final query: it runs to its end and leaves the
plan alone. -/
theorem process_answer_loop_final (query : kr_query) (l : List knot_rrset_t) :
    ∀ (cname : Option knot_dname_t) (param : kr_layer_param),
      (process_answer_loop true query l cname param).1 = none ∧
      (process_answer_loop true query l cname param).2.1 = cname_walk query l cname ∧
      (process_answer_loop true query l cname param).2.2.rplan = param.rplan := by
  induction l with
  | nil => intro cname param; exact ⟨rfl, rfl, rfl⟩
  | cons rr t ih =>
    intro cname param
    simp only [process_answer_loop, if_true, (rr_update_answer_rplan rr param).1]
    obtain ⟨h1, h2, h3⟩ := ih (follow_cname_chain cname rr query) (rr_update_answer rr 0 param).2
    refine ⟨by simpa using h1, by simpa [cname_walk] using h2, ?_⟩
    rw [← (rr_update_answer_rplan rr param).2]
    simpa using h3

/-- The walk of ANSWER for a sub-query: it runs to its end and offers each
record to the zone cut of the parent of the current query. -/
theorem process_answer_loop_sub (query : kr_query) (ptr : Nat) (l : List knot_rrset_t) :
    ∀ (cname : Option knot_dname_t) (param : kr_layer_param) (q1 : kr_query)
      (rest1 : List kr_query),
      param.rplan.pending = q1 :: rest1 → q1.parent = some ptr →
      (process_answer_loop false query l cname param).1 = none ∧
      (process_answer_loop false query l cname param).2.1 = cname_walk query l cname ∧
      (process_answer_loop false query l cname param).2.2.rplan =
        { param.rplan with pending := offer_all l ptr param.rplan.pending } := by
  induction l with
  | nil => intro cname param q1 rest1 _ _; exact ⟨rfl, rfl, rfl⟩
  | cons rr t ih =>
    intro cname param q1 rest1 hplan hparent
    have hstate : (rr_update_parent rr 0 param).1 ≠ ProcState.FAIL :=
      update_nsaddr_state rr param.rplan _ 0
    have hstep : (rr_update_parent rr 0 param).2.rplan =
        rplan_modify param.rplan ptr (add_ns_addr rr) := by
      simp only [rr_update_parent, kr_rplan_current_cons _ q1 rest1 hplan, Option.some_bind,
        hparent, update_nsaddr_plan]
    have hpending : (rr_update_parent rr 0 param).2.rplan.pending =
        (if ptr = rest1.length then add_ns_addr rr q1 else q1) ::
          modify_at (add_ns_addr rr) rest1 ptr := by
      rw [hstep]
      simp only [rplan_modify, hplan, modify_at_cons]
    have hpar : (if ptr = rest1.length then add_ns_addr rr q1 else q1).parent = some ptr := by
      split_ifs
      · rw [add_ns_addr_parent, hparent]
      · exact hparent
    obtain ⟨h1, h2, h3⟩ := ih (follow_cname_chain cname rr query) (rr_update_parent rr 0 param).2
      _ _ hpending hpar
    simp only [process_answer_loop, Bool.false_eq_true, if_false, hstate]
    refine ⟨h1, by simpa [cname_walk] using h2, ?_⟩
    rw [h3, hstep]
    simp [rplan_modify, offer_all]

/-- The pop of the topmost query. -/
theorem kr_rplan_pop_top (rplan : kr_rplan) (q1 : kr_query) (R : List kr_query)
    (h : rplan.pending = q1 :: R) :
    kr_rplan_pop rplan R.length = (PlanResult.KNOT_EOK, { rplan with pending := R }) := by
  simp [kr_rplan_pop, h, remove_at, rplan_top]

/-- The pop of the query directly beneath the topmost one. -/
theorem kr_rplan_pop_beneath (rplan : kr_rplan) (f q1 : kr_query) (R : List kr_query)
    (h : rplan.pending = f :: q1 :: R) :
    kr_rplan_pop rplan R.length =
      (PlanResult.PLAN_DISORDER, { rplan with pending := f :: R }) := by
  simp [kr_rplan_pop, h, remove_at, rplan_top]

/-- The pop of the query that was on top before a push: the query pushed
stays, on top of the queries that were beneath the query popped. -/
theorem kr_rplan_pop_after_push (rplan : kr_rplan) (parent : Option Nat) (name : knot_dname_t)
    (cls type : Nat) (q1 : kr_query) (R : List kr_query) (h : rplan.pending = q1 :: R) :
    kr_rplan_pop (kr_rplan_push rplan parent name cls type) R.length =
      (PlanResult.PLAN_DISORDER,
        { rplan with
          pending :=
            { parent := parent, sname := name, sclass := cls, stype := type, id := 0, flags := 0,
              zone_cut :=
                (match parent.bind (rplan_query rplan) with
                  | some p => p.zone_cut
                  | none => rplan.root_hints) } :: R }) :=
  kr_rplan_pop_beneath (kr_rplan_push rplan parent name cls type) _ q1 R
    (by simp only [kr_rplan_push, h])

/-- The call `process_answer` that reaches line 246 pops the query passed
there from the plan as it is there, and returns DONE. -/
theorem process_answer_pop_link (pkt : knot_pkt_t) (param p : kr_layer_param) (qry : Nat)
    (h : process_answer_at_pop pkt param = some (p, qry)) :
    process_answer pkt param =
      (ProcState.DONE, { p with rplan := (kr_rplan_pop p.rplan qry).2 }) := by
  unfold process_answer_at_pop at h
  unfold process_answer
  cases hcur : kr_rplan_current param.rplan with
  | none => rw [hcur] at h; cases h
  | some query =>
    rw [hcur] at h
    simp only [] at h ⊢
    split_ifs at h ⊢
    cases hr : (process_answer_loop query.parent.isNone query pkt.answer none param).1 with
    | some state => rw [hr] at h; cases h
    | none =>
      rw [hr] at h
      simp only [Option.some.injEq, Prod.mk.injEq] at h
      obtain ⟨h1, h2⟩ := h
      subst h1
      subst h2
      rfl

/-- The parameters at the pop for a final query: the plan is the one of the
start of the call, under the follow-up query when one has been pushed. -/
theorem process_answer_at_pop_final (pkt : knot_pkt_t) (param : kr_layer_param) (q : kr_query)
    (rest : List kr_query) (hplan : param.rplan.pending = q :: rest) (hfinal : q.parent = none)
    (hrun : ¬ (¬ knot_dname_is_equal pkt.qname q.sname = true ∧
      (response_classify pkt = PktClass.PKT_NXDOMAIN ∨
        response_classify pkt = PktClass.PKT_NODATA))) :
    ∃ p : kr_layer_param,
      process_answer_at_pop pkt param = some (p, rest.length) ∧
      p.rplan =
        match cname_walk q pkt.answer none with
        | some n => kr_rplan_push param.rplan none n q.sclass q.stype
        | none => param.rplan := by
  obtain ⟨h1, h2, h3⟩ := process_answer_loop_final q pkt.answer none param
  unfold process_answer_at_pop
  rw [kr_rplan_current_cons _ q rest hplan]
  simp only [hrun, if_false, hfinal, Option.isNone_none, h1, h2, h3,
    rplan_top_cons _ q rest hplan]
  exact ⟨_, rfl, rfl⟩

/-- The parameters at the pop for a sub-query: the records of ANSWER have
been offered to the zone cut of the parent, and the follow-up query, when
one has been pushed, is on top. -/
theorem process_answer_at_pop_sub (pkt : knot_pkt_t) (param : kr_layer_param) (q : kr_query)
    (rest : List kr_query) (ptr : Nat) (hplan : param.rplan.pending = q :: rest)
    (hsub : q.parent = some ptr)
    (hrun : ¬ (¬ knot_dname_is_equal pkt.qname q.sname = true ∧
      (response_classify pkt = PktClass.PKT_NXDOMAIN ∨
        response_classify pkt = PktClass.PKT_NODATA))) :
    ∃ p : kr_layer_param,
      process_answer_at_pop pkt param = some (p, rest.length) ∧
      p.rplan =
        match cname_walk q pkt.answer none with
        | some n =>
          kr_rplan_push { param.rplan with pending := offer_all pkt.answer ptr (q :: rest) }
            (some ptr) n q.sclass q.stype
        | none => { param.rplan with pending := offer_all pkt.answer ptr (q :: rest) } := by
  obtain ⟨h1, h2, h3⟩ := process_answer_loop_sub q ptr pkt.answer none param q rest hplan hsub
  unfold process_answer_at_pop
  rw [kr_rplan_current_cons _ q rest hplan]
  simp only [hrun, if_false, hsub, Option.isNone_some, h1, h2, h3,
    rplan_top_cons _ q rest hplan, hplan]
  exact ⟨_, rfl, rfl⟩

/-- A valid paired response that is no referral is handed to
`process_answer`, whose state and plan are those of `resolve`. -/
theorem resolve_answer_path (ctx : knot_layer_t) (pkt : knot_pkt_t) (q : kr_query)
    (rest : List kr_query)
    (hplan : ctx.data.rplan.pending = q :: rest)
    (hwf : pkt.size ≤ pkt.parsed)
    (hpair : is_paired_to_query pkt q = true)
    (htc : pkt.tc = false)
    (hrcode : pkt.rcode = KNOT_RCODE_NOERROR ∨ pkt.rcode = KNOT_RCODE_NXDOMAIN)
    (hnoref : ∀ x ∈ pkt.authority, x.type = KNOT_RRTYPE_NS → x.owner = q.zone_cut.name) :
    (resolve ctx pkt).1 = (process_answer pkt ctx.data).1 ∧
    (resolve ctx pkt).2.rplan = (process_answer pkt ctx.data).2.rplan := by
  have hauthority : process_authority pkt ctx.data = (ProcState.MORE, ctx.data) := by
    unfold process_authority
    have h := process_authority_loop_skip pkt.authority [] ctx.data q rest hplan hnoref
    rw [List.append_nil] at h
    rw [h]
    rfl
  have hres : resolve ctx pkt =
      (if kr_rplan_empty (process_answer pkt ctx.data).2.rplan then
        ((process_answer pkt ctx.data).1, finalize_answer pkt (process_answer pkt ctx.data).2)
      else process_answer pkt ctx.data) := by
    simp [resolve, kr_rplan_current_cons _ q rest hplan, not_lt.mpr hwf, hpair, htc, hrcode,
      hauthority]
  rw [hres]
  split_ifs
  · exact ⟨rfl, finalize_answer_rplan _ _⟩
  · exact ⟨rfl, rfl⟩

/-- The outcome of `process_answer` for a final query: the current query is
gone from the plan, the follow-up query has taken its place when the walk
has left a name in `cname`, and nothing else of the plan has changed. -/
theorem process_answer_result_final (pkt : knot_pkt_t) (param : kr_layer_param) (q : kr_query)
    (rest : List kr_query) (hplan : param.rplan.pending = q :: rest) (hfinal : q.parent = none)
    (hrun : ¬ (¬ knot_dname_is_equal pkt.qname q.sname = true ∧
      (response_classify pkt = PktClass.PKT_NXDOMAIN ∨
        response_classify pkt = PktClass.PKT_NODATA))) :
    (process_answer pkt param).1 = ProcState.DONE ∧
    (process_answer pkt param).2.rplan =
      match cname_walk q pkt.answer none with
      | some n =>
        { param.rplan with
          pending :=
            { parent := none, sname := n, sclass := q.sclass, stype := q.stype, id := 0,
              flags := 0, zone_cut := param.rplan.root_hints } :: rest }
      | none => { param.rplan with pending := rest } := by
  obtain ⟨p, hpop, hp⟩ := process_answer_at_pop_final pkt param q rest hplan hfinal hrun
  rw [process_answer_pop_link pkt param p rest.length hpop]
  refine ⟨rfl, ?_⟩
  simp only []
  rw [hp]
  cases cname_walk q pkt.answer none with
  | none =>
    simp only []
    rw [kr_rplan_pop_top param.rplan q rest hplan]
  | some n =>
    simp only []
    rw [kr_rplan_pop_after_push param.rplan none n q.sclass q.stype q rest hplan]
    simp

/-- The outcome of `process_answer` for a sub-query: the current query is
gone from the plan, the follow-up query has taken its place when the walk
has left a name in `cname`, and the records of ANSWER have been offered to
the zone cut of the parent. -/
theorem process_answer_result_sub (pkt : knot_pkt_t) (param : kr_layer_param) (q : kr_query)
    (rest : List kr_query) (ptr : Nat) (hplan : param.rplan.pending = q :: rest)
    (hsub : q.parent = some ptr)
    (hrun : ¬ (¬ knot_dname_is_equal pkt.qname q.sname = true ∧
      (response_classify pkt = PktClass.PKT_NXDOMAIN ∨
        response_classify pkt = PktClass.PKT_NODATA))) :
    (process_answer pkt param).1 = ProcState.DONE ∧
    (process_answer pkt param).2.rplan =
      match cname_walk q pkt.answer none with
      | some n =>
        { param.rplan with
          pending :=
            { parent := some ptr, sname := n, sclass := q.sclass, stype := q.stype, id := 0,
              flags := 0,
              zone_cut :=
                (match query_at (offer_all pkt.answer ptr (q :: rest)) ptr with
                  | some x => x.zone_cut
                  | none => param.rplan.root_hints) } :: offer_all pkt.answer ptr rest }
      | none => { param.rplan with pending := offer_all pkt.answer ptr rest } := by
  obtain ⟨p, hpop, hp⟩ := process_answer_at_pop_sub pkt param q rest ptr hplan hsub hrun
  obtain ⟨q1, _, _, hq1⟩ := offer_all_cons pkt.answer ptr q rest
  have hlen := offer_all_length pkt.answer ptr rest
  rw [process_answer_pop_link pkt param p rest.length hpop]
  refine ⟨rfl, ?_⟩
  simp only []
  rw [hp]
  cases cname_walk q pkt.answer none with
  | none =>
    simp only []
    rw [← hlen, kr_rplan_pop_top _ q1 (offer_all pkt.answer ptr rest) hq1]
  | some n =>
    simp only []
    rw [← hlen, kr_rplan_pop_after_push _ (some ptr) n q.sclass q.stype q1
      (offer_all pkt.answer ptr rest) hq1]
    simp [rplan_query]

/-- The plan at the pop of `process_answer`, whatever the current query: the
current query, with its parent and (unless it is its own parent) unchanged,
on top of as many queries as before, and on top of it the follow-up query
when the walk has left a name in `cname`. -/
theorem process_answer_at_pop_shape (pkt : knot_pkt_t) (param p : kr_layer_param)
    (q : kr_query) (rest : List kr_query) (qry : Nat)
    (hplan : param.rplan.pending = q :: rest)
    (hpop : process_answer_at_pop pkt param = some (p, qry)) :
    qry = rest.length ∧
    ∃ (q1 : kr_query) (R : List kr_query),
      R.length = rest.length ∧ q1.parent = q.parent ∧
      (q.parent ≠ some rest.length → q1 = q) ∧
      p.rplan =
        match cname_walk q pkt.answer none with
        | some n =>
          kr_rplan_push { param.rplan with pending := q1 :: R } q.parent n q.sclass q.stype
        | none => { param.rplan with pending := q1 :: R } := by
  have hrun : ¬ (¬ knot_dname_is_equal pkt.qname q.sname = true ∧
      (response_classify pkt = PktClass.PKT_NXDOMAIN ∨
        response_classify pkt = PktClass.PKT_NODATA)) := by
    intro hc
    unfold process_answer_at_pop at hpop
    rw [kr_rplan_current_cons _ q rest hplan] at hpop
    simp only [hc, not_false_eq_true, and_self, if_true] at hpop
    cases hpop
  cases hpar : q.parent with
  | none =>
    obtain ⟨p1, h1, h2⟩ := process_answer_at_pop_final pkt param q rest hplan hpar hrun
    rw [hpop] at h1
    simp only [Option.some.injEq, Prod.mk.injEq] at h1
    obtain ⟨h3, h4⟩ := h1
    subst h3
    refine ⟨h4, q, rest, rfl, hpar, fun _ => rfl, ?_⟩
    rw [h2, ← hplan]
  | some ptr =>
    obtain ⟨p1, h1, h2⟩ := process_answer_at_pop_sub pkt param q rest ptr hplan hpar hrun
    obtain ⟨q1, hq1, hq2, hq3⟩ := offer_all_cons pkt.answer ptr q rest
    rw [hpop] at h1
    simp only [Option.some.injEq, Prod.mk.injEq] at h1
    obtain ⟨h3, h4⟩ := h1
    subst h3
    refine ⟨h4, q1, offer_all pkt.answer ptr rest, offer_all_length _ _ _, ?_, ?_, ?_⟩
    · rw [hq1, hpar]
    · intro hne
      exact hq2 (fun he => hne (by rw [he]))
    · rw [h2, hq3]

/-- The plan left by `update_glue`: the record is offered to the zone cut of
the current query. -/
theorem update_glue_plan (rr : knot_rrset_t) (hint : Nat) (param : kr_layer_param)
    (q : kr_query) (rest : List kr_query) (hplan : param.rplan.pending = q :: rest) :
    (update_glue rr hint param).2.rplan =
      { param.rplan with pending := add_ns_addr rr q :: rest } := by
  simp only [update_glue, kr_rplan_current_cons _ q rest hplan, Option.map_some',
    rplan_top_cons _ q rest hplan, update_nsaddr_plan, rplan_modify, hplan, modify_at, if_true]

/-- The plan left by `rr_update_parent`: the record is offered to the zone
cut of the query that the parent pointer of the current query points at. -/
theorem rr_update_parent_plan (rr : knot_rrset_t) (hint : Nat) (param : kr_layer_param)
    (q : kr_query) (rest : List kr_query) (hplan : param.rplan.pending = q :: rest) :
    (rr_update_parent rr hint param).2.rplan =
      { param.rplan with
        pending :=
          (match q.parent with
            | some ptr => modify_at (add_ns_addr rr) (q :: rest) ptr
            | none => q :: rest) } := by
  simp only [rr_update_parent, kr_rplan_current_cons _ q rest hplan, Option.some_bind,
    update_nsaddr_plan]
  cases q.parent with
  | none => simp only []; rw [← hplan]
  | some ptr => simp only [rplan_modify, hplan]

/-- The plan left by `resolve` for a referral: the zone cut of the current
query is moved to the owner and the name server of the NS record, without
addresses; then the address of the first glue record is stored in it, or two
queries are pushed for the name server. -/
theorem resolve_referral_plan (ctx : knot_layer_t) (pkt : knot_pkt_t) (q : kr_query)
    (rest : List kr_query) (pre post : List knot_rrset_t) (ns : knot_rrset_t)
    (hplan : ctx.data.rplan.pending = q :: rest)
    (hwf : pkt.size ≤ pkt.parsed)
    (hpair : is_paired_to_query pkt q = true)
    (htc : pkt.tc = false)
    (hrcode : pkt.rcode = KNOT_RCODE_NOERROR ∨ pkt.rcode = KNOT_RCODE_NXDOMAIN)
    (hauth : pkt.authority = pre ++ ns :: post)
    (hpre : ∀ x ∈ pre, x.type = KNOT_RRTYPE_NS → x.owner = q.zone_cut.name)
    (hns : ns.type = KNOT_RRTYPE_NS)
    (hin : knot_dname_in q.zone_cut.name ns.owner = true)
    (hbelow : ns.owner ≠ q.zone_cut.name) :
    (resolve ctx pkt).2.rplan =
      { ctx.data.rplan with
        pending :=
          match pkt.additional.find? (fun x =>
              decide ((x.type = KNOT_RRTYPE_A ∨ x.type = KNOT_RRTYPE_AAAA) ∧
                x.owner = knot_ns_name ns)) with
          | some glue =>
            { q with zone_cut := { name := ns.owner, ns := knot_ns_name ns,
                                   addrs := [glue.rdata] } } :: rest
          | none =>
            { parent := some rest.length, sname := knot_ns_name ns, sclass := KNOT_CLASS_IN,
              stype := KNOT_RRTYPE_A, id := 0, flags := 0,
              zone_cut := { name := ns.owner, ns := knot_ns_name ns, addrs := [] } } ::
            { parent := some rest.length, sname := knot_ns_name ns, sclass := KNOT_CLASS_IN,
              stype := KNOT_RRTYPE_AAAA, id := 0, flags := 0,
              zone_cut := { name := ns.owner, ns := knot_ns_name ns, addrs := [] } } ::
            { q with zone_cut := { name := ns.owner, ns := knot_ns_name ns,
                                   addrs := [] } } :: rest } := by
  obtain ⟨st, ⟨⟨pending, rh⟩, ans⟩⟩ := ctx
  simp only at hplan
  subst hplan
  have hauthority : process_authority pkt
      { rplan := { pending := q :: rest, root_hints := rh }, answer := ans } =
      (ProcState.DONE,
        { rplan :=
            { pending := { q with zone_cut := { name := ns.owner, ns := knot_ns_name ns,
                                                 addrs := [] } } :: rest,
              root_hints := rh },
          answer := ans }) := by
    unfold process_authority
    rw [hauth, process_authority_loop_skip pre (ns :: post) _ q rest rfl hpre]
    simp [process_authority_loop, hns,
      rr_update_nameserver_below ns
        { rplan := { pending := q :: rest, root_hints := rh }, answer := ans } q rest rfl
        hin hbelow]
  have hadditional := process_additional_find pkt rh ans
    { q with zone_cut := { name := ns.owner, ns := knot_ns_name ns, addrs := [] } } rest
  simp only [List.nil_append] at hadditional
  simp only [resolve, kr_rplan_current, List.head?_cons, not_lt.mpr hwf, hpair, htc, hrcode,
    hauthority, hadditional, if_false, not_true_eq_false, Bool.false_eq_true]
  cases pkt.additional.find? (fun x =>
      decide ((x.type = KNOT_RRTYPE_A ∨ x.type = KNOT_RRTYPE_AAAA) ∧
        x.owner = knot_ns_name ns)) with
  | some glue => simp [kr_rplan_empty]
  | none => simp [kr_rplan_empty]

/-- C21 as stated fails at scenario S3: cut `example.com`, query
`www.example.com IN A` alone in the plan, ANSWER `www.example.com CNAME
app.example.net`.  `resolve` hands the response to `process_answer`, which
pushes the follow-up query `app.example.net IN A` at line 242 and calls
`kr_rplan_pop` for the current query at line 246: at that moment the plan is
the follow-up query on top of the current query, so the topmost entry is the
follow-up query and not the current query, whose pointer is not the pointer
of the top. -/
theorem process_answer_pop_counterexample :
    ctx_www_at_example.data.rplan.pending = [query_www_at_example] ∧
    resolve ctx_www_at_example pkt_cname = process_answer pkt_cname ctx_www_at_example.data ∧
    (process_answer_at_pop pkt_cname ctx_www_at_example.data).map (fun x => (x.1.rplan, x.2)) =
      some ({ pending := [query_app, query_www_at_example], root_hints := cut_root }, 0) ∧
    rplan_query { pending := [query_app, query_www_at_example], root_hints := cut_root } 0 =
      some query_www_at_example ∧
    kr_rplan_current { pending := [query_app, query_www_at_example], root_hints := cut_root } =
      some query_app ∧
    query_app ≠ query_www_at_example ∧
    rplan_top { pending := [query_app, query_www_at_example], root_hints := cut_root } = 1 ∧
    (resolve ctx_www_at_example pkt_cname).1 = ProcState.DONE ∧
    (resolve ctx_www_at_example pkt_cname).2.rplan.pending = [query_app] := by
  refine ⟨rfl, by decide, by decide, by decide, rfl, by decide, rfl, by decide, by decide⟩

/-- C21, amended. The current query at the pop: in every `resolve` of a
valid paired response that is no referral and in which `process_answer`
reaches its call of `kr_rplan_pop`, the pointer passed is the pointer of the
current query `q`, which is still in the plan, and `q` is the topmost entry
of the plan exactly when no CNAME follow-up query has been pushed in the
same call; the pop then returns `KNOT_EOK` and removes the top.  When a
follow-up query has been pushed, the follow-up query is the topmost entry
and `q` is the entry directly beneath it; the pop removes `q` from there and
leaves the follow-up query on top, and the value `PLAN_DISORDER` it reports
for a query that is not on top is not looked at.  In both cases
`process_answer` and `resolve` return DONE and the plan they leave is the one
left by the pop. -/
theorem process_answer_pop_position (ctx : knot_layer_t) (pkt : knot_pkt_t) (q : kr_query)
    (rest : List kr_query) (p : kr_layer_param) (qry : Nat)
    (hplan : ctx.data.rplan.pending = q :: rest)
    (hwf : pkt.size ≤ pkt.parsed)
    (hpair : is_paired_to_query pkt q = true)
    (htc : pkt.tc = false)
    (hrcode : pkt.rcode = KNOT_RCODE_NOERROR ∨ pkt.rcode = KNOT_RCODE_NXDOMAIN)
    (hnoref : ∀ x ∈ pkt.authority, x.type = KNOT_RRTYPE_NS → x.owner = q.zone_cut.name)
    (hpop : process_answer_at_pop pkt ctx.data = some (p, qry)) :
    qry = rplan_top ctx.data.rplan ∧
    (rplan_query p.rplan qry).isSome = true ∧
    (q.parent ≠ some qry → rplan_query p.rplan qry = some q) ∧
    (rplan_top p.rplan = qry ↔ cname_walk q pkt.answer none = none) ∧
    (cname_walk q pkt.answer none = none →
      kr_rplan_pop p.rplan qry =
        (PlanResult.KNOT_EOK, { p.rplan with pending := p.rplan.pending.tail })) ∧
    (∀ n : knot_dname_t, cname_walk q pkt.answer none = some n →
      rplan_top p.rplan = qry + 1 ∧
      (kr_rplan_current p.rplan).map (fun f => (f.parent, f.sname, f.sclass, f.stype)) =
        some (q.parent, n, q.sclass, q.stype) ∧
      rplan_query p.rplan qry = p.rplan.pending.tail.head? ∧
      kr_rplan_pop p.rplan qry =
        (PlanResult.PLAN_DISORDER,
          { p.rplan with pending := p.rplan.pending.take 1 ++ p.rplan.pending.drop 2 })) ∧
    process_answer pkt ctx.data =
      (ProcState.DONE, { p with rplan := (kr_rplan_pop p.rplan qry).2 }) ∧
    (resolve ctx pkt).1 = ProcState.DONE ∧
    (resolve ctx pkt).2.rplan = (kr_rplan_pop p.rplan qry).2 := by
  obtain ⟨hqry, q1, R, hlen, hq1, hsame, hp⟩ :=
    process_answer_at_pop_shape pkt ctx.data p q rest qry hplan hpop
  have hlink := process_answer_pop_link pkt ctx.data p qry hpop
  obtain ⟨hstate, hrplan⟩ := resolve_answer_path ctx pkt q rest hplan hwf hpair htc hrcode hnoref
  rw [hlink] at hstate hrplan
  subst hqry
  cases hwalk : cname_walk q pkt.answer none with
  | none =>
    rw [hwalk] at hp
    simp only [] at hp
    have hpend : p.rplan.pending = q1 :: R := by rw [hp]
    refine ⟨(rplan_top_cons _ q rest hplan).symm, ?_, ?_, ?_, ?_, ?_, hlink, hstate, hrplan⟩
    · simp [rplan_query, hpend, query_at, hlen]
    · intro hne
      rw [hsame hne] at hpend
      simp [rplan_query, hpend, query_at, hlen]
    · simp [rplan_top, hpend, hlen]
    · intro _
      rw [← hlen, kr_rplan_pop_top p.rplan q1 R hpend, hpend]
      rfl
    · intro n hn
      cases hn
  | some n =>
    rw [hwalk] at hp
    simp only [] at hp
    have hpend : p.rplan.pending =
        { parent := q.parent, sname := n, sclass := q.sclass, stype := q.stype, id := 0,
          flags := 0,
          zone_cut :=
            (match q.parent.bind
                (rplan_query { ctx.data.rplan with pending := q1 :: R }) with
              | some x => x.zone_cut
              | none => ctx.data.rplan.root_hints) } :: q1 :: R := by
      rw [hp]
      rfl
    refine ⟨(rplan_top_cons _ q rest hplan).symm, ?_, ?_, ?_, ?_, ?_, hlink, hstate, hrplan⟩
    · simp [rplan_query, hpend, query_at, hlen]
    · intro hne
      rw [hsame hne] at hpend
      simp [rplan_query, hpend, query_at, hlen]
    · simp [rplan_top, hpend, hlen]
    · intro hn
      cases hn
    · intro n1 hn1
      cases hn1
      refine ⟨by simp [rplan_top, hpend, hlen], by simp [kr_rplan_current, hpend],
        by simp [rplan_query, hpend, query_at, hlen], ?_⟩
      rw [← hlen, kr_rplan_pop_beneath p.rplan _ q1 R hpend, hpend]
      rfl

/-- Witness of C21, amended: in scenario S3 the follow-up query is on top at
the pop and the current query, beneath it, is removed; with the A record of
`app.example.net` after the alias no query is pushed, the current query is
on top at the pop and the pop returns `KNOT_EOK`.  The last two facts are
read off the plan that `process_answer` leaves. -/
theorem process_answer_pop_position_witness :
    (rplan_top { pending := [query_app, query_www_at_example], root_hints := cut_root } = 0 + 1 ∧
      kr_rplan_pop { pending := [query_app, query_www_at_example], root_hints := cut_root } 0 =
        (PlanResult.PLAN_DISORDER, { pending := [query_app], root_hints := cut_root }) ∧
      (resolve ctx_www_at_example pkt_cname).2.rplan =
        { pending := [query_app], root_hints := cut_root }) ∧
    (kr_rplan_pop { pending := [query_www_at_example], root_hints := cut_root } 0 =
        (PlanResult.KNOT_EOK, { pending := [], root_hints := cut_root }) ∧
      (resolve ctx_www_at_example pkt_cname_a).2.rplan =
        { pending := [], root_hints := cut_root }) ∧
    (process_answer pkt_cname ctx_www_at_example.data).2.rplan.pending = [query_app] ∧
    (process_answer pkt_cname_a ctx_www_at_example.data).2.rplan.pending = [] :=
  have ha := process_answer_pop_position ctx_www_at_example pkt_cname query_www_at_example []
    { rplan := { pending := [query_app, query_www_at_example], root_hints := cut_root },
      answer := (rr_update_answer rr_www_cname 0 ctx_www_at_example.data).2.answer } 0
    rfl (by decide) (by decide) rfl (Or.inl rfl) (by simp [pkt_cname]) (by decide)
  have hb := process_answer_pop_position ctx_www_at_example pkt_cname_a query_www_at_example []
    { rplan := { pending := [query_www_at_example], root_hints := cut_root },
      answer := (rr_update_answer rr_app_a 0
        (rr_update_answer rr_www_cname 0 ctx_www_at_example.data).2).2.answer } 0
    rfl (by decide) (by decide) rfl (Or.inl rfl) (by simp [pkt_cname_a, pkt_cname]) (by decide)
  ⟨⟨(ha.2.2.2.2.2.1 name_app_example_net (by decide)).1,
      (ha.2.2.2.2.2.1 name_app_example_net (by decide)).2.2.2, ha.2.2.2.2.2.2.2.2⟩,
    ⟨hb.2.2.2.2.1 (by decide), hb.2.2.2.2.2.2.2.2⟩, by decide, by decide⟩

/-! ## Glue guard (C13) -/

/-- C13 as stated fails at the referral of the root to `com` without glue:
the only record of the response is an NS record, which is neither an A nor an
AAAA record, and `resolve` changes the address set of the zone cut of the
user query (the query at pointer 0) from the address of `a.root-servers.net`
to no address at all. -/
theorem resolve_glue_guard_counterexample :
    pkt_referral_no_glue.answer = [] ∧
    pkt_referral_no_glue.authority = [rr_com_ns] ∧
    pkt_referral_no_glue.additional = [] ∧
    rr_com_ns.type = KNOT_RRTYPE_NS ∧
    rr_com_ns.type ≠ KNOT_RRTYPE_A ∧
    rr_com_ns.type ≠ KNOT_RRTYPE_AAAA ∧
    (rplan_query ctx_www.data.rplan 0).map (fun x => x.zone_cut.addrs) =
      some [[198, 41, 0, 4]] ∧
    (resolve ctx_www pkt_referral_no_glue).1 = ProcState.DONE ∧
    (rplan_query (resolve ctx_www pkt_referral_no_glue).2.rplan 0).map
      (fun x => x.zone_cut.addrs) = some [] := by
  refine ⟨rfl, rfl, rfl, rfl, by decide, by decide, by decide, by decide, by decide⟩

/-- C13, amended. Glue guard: during any `resolve` an address is added to a
zone cut only from a record of type A or AAAA whose owner equals the name
server name of that zone cut at that moment, and a record of another type or
of another owner brings no new address into any zone cut (a query that is
pushed starts at a zone cut that the plan holds).  In detail: (1) every
address held by the zone cut of a query after `resolve` was held by the plan
before the call or is the rdata of an A or AAAA record of ANSWER or
ADDITIONAL owned by the name server of that zone cut; (2) `update_nsaddr`
changes the plan only for such a record, by appending its address to the zone
cut pointed at, and what it does is to offer the record to that zone cut;
(3) `update_glue` offers the record to the zone cut of the current query and
(4) `rr_update_parent` to the zone cut that the parent pointer of the current
query points at, the current query being left alone when its parent is
beneath it; (5) when a valid paired response that is no referral, and whose
ANSWER section is examined (the response is not the NODATA or NXDOMAIN reply
to a minimized question), is resolved for a sub-query, the records of ANSWER
are offered, in order, to the zone cut of its parent, which is beneath it,
and nothing else changes in the queries beneath the sub-query; (6) for a
query without parent the queries beneath it do not change; (7) for a
referral the NS record replaces the zone cut of the
current query by one without addresses, whatever addresses it had, and the
address of the first A or AAAA record of ADDITIONAL owned by the new name
server is stored in it, no other query being changed. -/
theorem resolve_glue_guard (ctx : knot_layer_t) (pkt : knot_pkt_t) :
    (∀ x ∈ (resolve ctx pkt).2.rplan.pending, ∀ a ∈ x.zone_cut.addrs,
      addr_known ctx.data.rplan a ∨ addr_from_response pkt x.zone_cut a) ∧
    (∀ (rr : knot_rrset_t) (rplan : kr_rplan) (query : Option Nat) (index : Nat),
      ((update_nsaddr rr rplan query index).2 ≠ rplan →
        (rr.type = KNOT_RRTYPE_A ∨ rr.type = KNOT_RRTYPE_AAAA) ∧
        ∃ ptr q, query = some ptr ∧ rplan_query rplan ptr = some q ∧
          q.zone_cut.ns = rr.owner ∧
          (update_nsaddr rr rplan query index).2 =
            rplan_modify rplan ptr (fun x =>
              { x with zone_cut := { q.zone_cut with
                  addrs := q.zone_cut.addrs ++ [rr.rdata] } })) ∧
      (update_nsaddr rr rplan query index).2 =
        match query with
        | some ptr => rplan_modify rplan ptr (add_ns_addr rr)
        | none => rplan) ∧
    (∀ (rr : knot_rrset_t) (hint : Nat) (param : kr_layer_param) (q : kr_query)
      (rest : List kr_query), param.rplan.pending = q :: rest →
      (update_glue rr hint param).2.rplan =
        { param.rplan with pending := add_ns_addr rr q :: rest }) ∧
    (∀ (rr : knot_rrset_t) (hint : Nat) (param : kr_layer_param) (q : kr_query)
      (rest : List kr_query), param.rplan.pending = q :: rest →
      (rr_update_parent rr hint param).2.rplan =
        { param.rplan with
          pending :=
            (match q.parent with
              | some ptr => modify_at (add_ns_addr rr) (q :: rest) ptr
              | none => q :: rest) } ∧
      ∀ ptr, q.parent = some ptr → ptr < rest.length →
        (rr_update_parent rr hint param).2.rplan =
          { param.rplan with pending := q :: modify_at (add_ns_addr rr) rest ptr }) ∧
    (∀ (q : kr_query) (rest : List kr_query),
      ctx.data.rplan.pending = q :: rest →
      pkt.size ≤ pkt.parsed →
      is_paired_to_query pkt q = true →
      pkt.tc = false →
      (pkt.rcode = KNOT_RCODE_NOERROR ∨ pkt.rcode = KNOT_RCODE_NXDOMAIN) →
      (∀ x ∈ pkt.authority, x.type = KNOT_RRTYPE_NS → x.owner = q.zone_cut.name) →
      ¬ (pkt.qname ≠ q.sname ∧
        (response_classify pkt = PktClass.PKT_NXDOMAIN ∨
          response_classify pkt = PktClass.PKT_NODATA)) →
      (∀ ptr, q.parent = some ptr → ptr < rest.length →
        (resolve ctx pkt).2.rplan =
          match cname_walk q pkt.answer none with
          | some n =>
            kr_rplan_push { ctx.data.rplan with pending := offer_all pkt.answer ptr rest }
              (some ptr) n q.sclass q.stype
          | none => { ctx.data.rplan with pending := offer_all pkt.answer ptr rest }) ∧
      (q.parent = none →
        (resolve ctx pkt).2.rplan =
          match cname_walk q pkt.answer none with
          | some n =>
            kr_rplan_push { ctx.data.rplan with pending := rest } none n q.sclass q.stype
          | none => { ctx.data.rplan with pending := rest })) ∧
    (∀ (q : kr_query) (rest : List kr_query) (pre post : List knot_rrset_t) (ns : knot_rrset_t),
      ctx.data.rplan.pending = q :: rest →
      pkt.size ≤ pkt.parsed →
      is_paired_to_query pkt q = true →
      pkt.tc = false →
      (pkt.rcode = KNOT_RCODE_NOERROR ∨ pkt.rcode = KNOT_RCODE_NXDOMAIN) →
      pkt.authority = pre ++ ns :: post →
      (∀ x ∈ pre, x.type = KNOT_RRTYPE_NS → x.owner = q.zone_cut.name) →
      ns.type = KNOT_RRTYPE_NS →
      knot_dname_in q.zone_cut.name ns.owner = true →
      ns.owner ≠ q.zone_cut.name →
      (resolve ctx pkt).2.rplan =
        { ctx.data.rplan with
          pending :=
            match pkt.additional.find? (fun x =>
                decide ((x.type = KNOT_RRTYPE_A ∨ x.type = KNOT_RRTYPE_AAAA) ∧
                  x.owner = knot_ns_name ns)) with
            | some glue =>
              { q with zone_cut := { name := ns.owner, ns := knot_ns_name ns,
                                     addrs := [glue.rdata] } } :: rest
            | none =>
              { parent := some rest.length, sname := knot_ns_name ns, sclass := KNOT_CLASS_IN,
                stype := KNOT_RRTYPE_A, id := 0, flags := 0,
                zone_cut := { name := ns.owner, ns := knot_ns_name ns, addrs := [] } } ::
              { parent := some rest.length, sname := knot_ns_name ns, sclass := KNOT_CLASS_IN,
                stype := KNOT_RRTYPE_AAAA, id := 0, flags := 0,
                zone_cut := { name := ns.owner, ns := knot_ns_name ns, addrs := [] } } ::
              { q with zone_cut := { name := ns.owner, ns := knot_ns_name ns,
                                     addrs := [] } } :: rest }) := by
  refine ⟨?_, ?_, ?_, ?_, ?_, ?_⟩
  · have hinv := plan_cuts_resolve
      (fun c => ∀ a ∈ c.addrs, addr_known ctx.data.rplan a ∨ addr_from_response pkt c a)
      ctx pkt
      ⟨fun a ha => Or.inl (Or.inl ha), fun x hx a ha => Or.inl (Or.inr ⟨x, hx, ha⟩)⟩
      (fun rr _ _ c _ a ha => by simp [kr_set_zone_cut] at ha)
      (fun rr hrr c hc ht hown a ha => by
        simp only [List.mem_append, List.mem_singleton] at ha
        rcases ha with ha | ha
        · rcases hc a ha with h1 | h1
          · exact Or.inl h1
          · exact Or.inr h1
        · exact Or.inr ⟨rr, hrr, ht, hown.symm, ha.symm⟩)
    exact hinv.2
  · intro rr rplan query index
    refine ⟨?_, update_nsaddr_plan rr rplan query index⟩
    intro hne
    unfold update_nsaddr at hne ⊢
    cases query with
    | none => exact absurd rfl hne
    | some ptr =>
      simp only [] at hne ⊢
      cases hq : rplan_query rplan ptr with
      | none => rw [hq] at hne; exact absurd rfl hne
      | some q =>
        rw [hq] at hne
        simp only [] at hne ⊢
        by_cases ht : rr.type = KNOT_RRTYPE_A ∨ rr.type = KNOT_RRTYPE_AAAA
        · by_cases hown : q.zone_cut.ns = rr.owner
          · have he : knot_dname_is_equal q.zone_cut.ns rr.owner = true := by
              simp [knot_dname_is_equal, hown]
            refine ⟨ht, ptr, q, rfl, hq, hown, ?_⟩
            simp only [hq, ht, if_true, he, kr_set_zone_cut_addr]
          · have he : knot_dname_is_equal q.zone_cut.ns rr.owner = false := by
              simp [knot_dname_is_equal, hown]
            simp [ht, he] at hne
        · simp [ht] at hne
  · intro rr hint param q rest hplan
    exact update_glue_plan rr hint param q rest hplan
  · intro rr hint param q rest hplan
    have h := rr_update_parent_plan rr hint param q rest hplan
    refine ⟨h, ?_⟩
    intro ptr hpar hlt
    rw [h, hpar]
    simp only [modify_at_cons, if_neg (Nat.ne_of_lt hlt)]
  · intro q rest hplan hwf hpair htc hrcode hnoref hrun0
    have hrun : ¬ (¬ knot_dname_is_equal pkt.qname q.sname = true ∧
        (response_classify pkt = PktClass.PKT_NXDOMAIN ∨
          response_classify pkt = PktClass.PKT_NODATA)) := by
      intro hc
      apply hrun0
      refine ⟨fun he => hc.1 ?_, hc.2⟩
      simp [knot_dname_is_equal, he]
    obtain ⟨_, hrplan⟩ := resolve_answer_path ctx pkt q rest hplan hwf hpair htc hrcode hnoref
    rw [hrplan]
    constructor
    · intro ptr hpar hlt
      obtain ⟨_, h2⟩ := process_answer_result_sub pkt ctx.data q rest ptr hplan hpar hrun
      obtain ⟨q1, _, _, hq1⟩ := offer_all_cons pkt.answer ptr q rest
      have hlen := offer_all_length pkt.answer ptr rest
      rw [h2, hq1]
      cases cname_walk q pkt.answer none with
      | none => rfl
      | some n =>
        have hp : ptr ≠ (offer_all pkt.answer ptr rest).length := by omega
        simp [kr_rplan_push, rplan_query, query_at, hp]
    · intro hpar
      obtain ⟨_, h2⟩ := process_answer_result_final pkt ctx.data q rest hplan hpar hrun
      rw [h2]
      cases cname_walk q pkt.answer none with
      | none => rfl
      | some n => simp [kr_rplan_push]
  · intro q rest pre post ns hplan hwf hpair htc hrcode hauth hpre hns hin hbelow
    exact resolve_referral_plan ctx pkt q rest pre post ns hplan hwf hpair htc hrcode hauth hpre
      hns hin hbelow

/-- Witness of C13, amended.  Scenario S1: the address of the cut of `com`
after the referral is the rdata of the A record of `a.gtld-servers.net` in
ADDITIONAL, and it is alone in the zone cut of the user query.  On the plan
with the sub-queries for `a.gtld-servers.net`: `update_nsaddr` stores the
address of the A record through the pointer 0 in the zone cut of the user
query and ignores the NS record; `update_glue` stores the address in the zone
cut of the current query, the A sub-query; `rr_update_parent` stores it in
the zone cut of the user query, the parent of the A sub-query; and `resolve`
on the reply to the A sub-query leaves the address in the zone cut of the
user query and not in the zone cut of the AAAA sub-query, which has the same
name server.  For the user query without parent, at scenario S3 with the A
record after the alias, nothing is left of the plan.  The last three facts
are read off the plan that `resolve` leaves. -/
theorem resolve_glue_guard_witness :
    (addr_known ctx_www.data.rplan [192, 5, 6, 30] ∨
      addr_from_response pkt_referral_com cut_com [192, 5, 6, 30]) ∧
    (resolve ctx_www pkt_referral_com).2.rplan =
      { pending := [query_www_at_com], root_hints := cut_root } ∧
    (update_nsaddr rr_gtld_a ctx_glue.data.rplan (some 0) 0).2 =
      { pending := [query_glue_a, query_glue_aaaa, query_www_at_com], root_hints := cut_root } ∧
    (update_nsaddr rr_com_ns ctx_glue.data.rplan (some 0) 0).2 = ctx_glue.data.rplan ∧
    (update_glue rr_gtld_a 0 ctx_glue.data).2.rplan =
      { pending := [{ query_glue_a with zone_cut := cut_com }, query_glue_aaaa,
                    query_www_at_com_bare],
        root_hints := cut_root } ∧
    (rr_update_parent rr_gtld_a 0 ctx_glue.data).2.rplan =
      { pending := [query_glue_a, query_glue_aaaa, query_www_at_com], root_hints := cut_root } ∧
    (resolve ctx_glue pkt_glue_a).2.rplan =
      { pending := [query_glue_aaaa, query_www_at_com], root_hints := cut_root } ∧
    (resolve ctx_www_at_example pkt_cname_a).2.rplan =
      { pending := [], root_hints := cut_root } ∧
    (rplan_query ctx_glue.data.rplan 0).map (fun x => x.zone_cut.addrs) = some [] ∧
    (rplan_query (resolve ctx_glue pkt_glue_a).2.rplan 0).map (fun x => x.zone_cut.addrs) =
      some [[192, 5, 6, 30]] ∧
    (rplan_query (resolve ctx_glue pkt_glue_a).2.rplan 1).map (fun x => x.zone_cut.addrs) =
      some [] :=
  ⟨(resolve_glue_guard ctx_www pkt_referral_com).1 query_www_at_com (by decide)
      [192, 5, 6, 30] (by decide),
    (resolve_glue_guard ctx_www pkt_referral_com).2.2.2.2.2 query_www [] [] [] rr_com_ns
      rfl (by decide) (by decide) rfl (Or.inl rfl) rfl (by simp) rfl (by decide) (by decide),
    ((resolve_glue_guard ctx_glue pkt_glue_a).2.1 rr_gtld_a ctx_glue.data.rplan (some 0) 0).2,
    ((resolve_glue_guard ctx_glue pkt_glue_a).2.1 rr_com_ns ctx_glue.data.rplan (some 0) 0).2,
    (resolve_glue_guard ctx_glue pkt_glue_a).2.2.1 rr_gtld_a 0 ctx_glue.data query_glue_a
      [query_glue_aaaa, query_www_at_com_bare] rfl,
    ((resolve_glue_guard ctx_glue pkt_glue_a).2.2.2.1 rr_gtld_a 0 ctx_glue.data query_glue_a
      [query_glue_aaaa, query_www_at_com_bare] rfl).2 0 rfl (by decide),
    ((resolve_glue_guard ctx_glue pkt_glue_a).2.2.2.2.1 query_glue_a
      [query_glue_aaaa, query_www_at_com_bare] rfl (by decide) (by decide) rfl (Or.inl rfl)
      (by simp [pkt_glue_a]) (by decide)).1 0 rfl (by decide),
    ((resolve_glue_guard ctx_www_at_example pkt_cname_a).2.2.2.2.1 query_www_at_example []
      rfl (by decide) (by decide) rfl (Or.inl rfl) (by simp [pkt_cname_a, pkt_cname])
      (by decide)).2 rfl,
    by decide, by decide, by decide⟩

end Iterate

namespace Cookiectl

/-! ## Client secret (C22) -/

theorem memcmp_eq_iff (a b : List Nat) (h : a.length = b.length) :
    memcmp_eq a b a.length = true ↔ a = b := by
  unfold memcmp_eq
  rw [List.take_length]
  conv => lhs; rw [h, List.take_length]
  simp

/-- The first loop of `new_sq_array` counts the elements when all of them
are numbers in 0..255 and gives up otherwise. -/
theorem new_sq_array_count_eq (children : List JsonNode) :
    ∀ cnt : Nat, new_sq_array_count children cnt =
      if children.all is_byte_number then some (cnt + children.length) else none := by
  induction children with
  | nil => intro cnt; simp [new_sq_array_count]
  | cons e rest ih =>
    intro cnt
    cases e with
    | JSON_NUMBER x =>
      by_cases hx : 0 ≤ x ∧ x ≤ 255
      · have hh : holds_char x = true := by simp [holds_char, hx]
        simp only [new_sq_array_count, hh, not_true_eq_false, if_false, ih, List.all_cons,
          is_byte_number, hx, decide_True, Bool.true_and, List.length_cons]
        by_cases hall : rest.all is_byte_number = true
        · simp only [hall, if_true]
          congr 1
          omega
        · simp [hall]
      · have hh : holds_char x = false := by simp [holds_char, hx]
        simp [new_sq_array_count, hh, is_byte_number, hx]
    | JSON_NULL => simp [new_sq_array_count, is_byte_number]
    | JSON_BOOL b => simp [new_sq_array_count, is_byte_number]
    | JSON_STRING s => simp [new_sq_array_count, is_byte_number]
    | JSON_ARRAY c => simp [new_sq_array_count, is_byte_number]
    | JSON_OBJECT c => simp [new_sq_array_count, is_byte_number]

/-- A number in 0..255 is converted to the byte below it. -/
theorem to_uint8_eq (x : ℚ) (h255 : x ≤ 255) : to_uint8 x = x.floor.toNat := by
  unfold to_uint8
  apply Nat.mod_eq_of_lt
  have hle : ¬ (256 : ℤ) ≤ x.floor := by
    intro h
    have h2 : ((256 : ℤ) : ℚ) ≤ x := Rat.le_floor.mp h
    have h3 : (256 : ℚ) ≤ x := by exact_mod_cast h2
    linarith
  omega

/-- The second loop of `new_sq_array` writes the numbers of the array. -/
theorem new_sq_array_fill_eq (children : List JsonNode)
    (hall : children.all is_byte_number = true) :
    new_sq_array_fill children = children.map byte_of_number := by
  induction children with
  | nil => rfl
  | cons e rest ih =>
    simp only [List.all_cons, Bool.and_eq_true] at hall
    cases e with
    | JSON_NUMBER x =>
      have hx : 0 ≤ x ∧ x ≤ 255 := by simpa [is_byte_number] using hall.1
      simp [new_sq_array_fill, byte_of_number, to_uint8_eq x hx.2, ih hall.2]
    | JSON_NULL => simp [is_byte_number] at hall
    | JSON_BOOL b => simp [is_byte_number] at hall
    | JSON_STRING s => simp [is_byte_number] at hall
    | JSON_ARRAY c => simp [is_byte_number] at hall
    | JSON_OBJECT c => simp [is_byte_number] at hall

/-- The secret that `apply_client_secret` builds from the JSON value is the
one the value decodes to. -/
theorem new_secret_eq (node : JsonNode) :
    (match node with
      | JsonNode.JSON_STRING _ => new_sq_str node true
      | JsonNode.JSON_ARRAY _ => new_sq_array node true
      | _ => none) = secret_bytes_spec node := by
  cases node with
  | JSON_STRING s => simp [new_sq_str, secret_bytes_spec, strlen]
  | JSON_ARRAY children =>
    simp only [new_sq_array, secret_bytes_spec, new_sq_array_count_eq, Nat.zero_add]
    by_cases hall : children.all is_byte_number = true
    · cases children with
      | nil => simp
      | cons e rest =>
        have hfill := new_sq_array_fill_eq (e :: rest) hall
        have hlen : (new_sq_array_fill (e :: rest)).length = (e :: rest).length := by
          rw [hfill, List.length_map]
        simp only [hall, if_true, List.length_cons, Nat.add_one_ne_zero, if_false,
          not_true_eq_false, List.isEmpty_cons, Bool.false_eq_true, not_false_eq_true,
          and_self]
        rw [← List.length_cons, ← hlen, List.take_length, hfill]
    · simp [hall]
  | JSON_NULL => rfl
  | JSON_BOOL b => rfl
  | JSON_NUMBER x => rfl
  | JSON_OBJECT c => rfl

/-- The outcome of `apply_client_secret` in terms of the decoded secret. -/
theorem apply_client_secret_eq (cntrl : kr_cookie_ctx) (node : JsonNode) :
    apply_client_secret cntrl node true =
      match secret_bytes_spec node with
      | some s =>
        (true,
          if s = cntrl.current_cs then cntrl
          else { cntrl with current_cs := s, recent_cs := some cntrl.current_cs })
      | none => (false, cntrl) := by
  unfold apply_client_secret
  simp only [new_secret_eq]
  cases secret_bytes_spec node with
  | none => rfl
  | some s =>
    simp only []
    by_cases hs : s = cntrl.current_cs
    · have hm : memcmp_eq s cntrl.current_cs s.length = true :=
        (memcmp_eq_iff s cntrl.current_cs (by rw [hs])).mpr hs
      have hl : s.length = cntrl.current_cs.length := by rw [hs]
      simp [hs, hm, hl]
      intro hm2
      rw [← hs] at hm2
      exact absurd ((memcmp_eq_iff s s rfl).mpr rfl) (by simpa using hm2)
    · have hc : ¬ (s.length = cntrl.current_cs.length ∧
          memcmp_eq s cntrl.current_cs s.length = true) := by
        intro h
        exact hs ((memcmp_eq_iff s cntrl.current_cs h.1).mp h.2)
      simp only [hc, if_false, hs]

/-- C22. Client-secret rotation: given the memory for the new secret,
`apply_client_secret` with a JSON value that decodes to bytes `s` (a JSON
string, or a non-empty JSON array whose elements are all numbers in 0..255)
returns true; if `s` equals the current secret byte for byte the context is
unchanged, otherwise afterwards current = `s` and recent = the former
current secret, every other field being unchanged.  For any other JSON value
it returns false and the context is unchanged.  Applying the same value a
second time changes nothing more (the recent secret is not evicted).
Without the memory for the new secret the call returns false and the
context is unchanged. -/
theorem apply_client_secret_rotation (cntrl : kr_cookie_ctx) (node : JsonNode) :
    apply_client_secret cntrl node true =
      (match secret_bytes_spec node with
        | some s =>
          (true,
            if s = cntrl.current_cs then cntrl
            else { cntrl with current_cs := s, recent_cs := some cntrl.current_cs })
        | none => (false, cntrl)) ∧
    apply_client_secret (apply_client_secret cntrl node true).2 node true =
      ((apply_client_secret cntrl node true).1, (apply_client_secret cntrl node true).2) ∧
    apply_client_secret cntrl node false = (false, cntrl) := by
  refine ⟨apply_client_secret_eq cntrl node, ?_, ?_⟩
  swap
  · cases node with
    | JSON_STRING s => simp [apply_client_secret, new_sq_str]
    | JSON_ARRAY children =>
      simp only [apply_client_secret, new_sq_array]
      cases new_sq_array_count children 0 with
      | none => rfl
      | some cnt =>
        by_cases h0 : cnt = 0 <;> simp [h0]
    | JSON_NULL => rfl
    | JSON_BOOL b => rfl
    | JSON_NUMBER x => rfl
    | JSON_OBJECT c => rfl
  rw [apply_client_secret_eq (apply_client_secret cntrl node true).2 node,
    apply_client_secret_eq cntrl node]
  cases secret_bytes_spec node with
  | none => rfl
  | some s =>
    by_cases hs : s = cntrl.current_cs
    · simp [hs]
    · simp [hs]

/-- The rotation at a concrete context: the array `4 5` becomes the current
secret and `1 2 3` the recent one, the array `1 2 3` and the string of the
bytes `1 2 3` change nothing, and the empty array, an array with 256 and a
number are refused. -/
theorem apply_client_secret_examples :
    apply_client_secret ctx_cookie
        (JsonNode.JSON_ARRAY [JsonNode.JSON_NUMBER 4, JsonNode.JSON_NUMBER 5]) true =
      (true, { ctx_cookie with current_cs := [4, 5], recent_cs := some [1, 2, 3] }) ∧
    apply_client_secret ctx_cookie
        (JsonNode.JSON_ARRAY
          [JsonNode.JSON_NUMBER 1, JsonNode.JSON_NUMBER 2, JsonNode.JSON_NUMBER 3]) true =
      (true, ctx_cookie) ∧
    apply_client_secret ctx_cookie (JsonNode.JSON_STRING [1, 2, 3]) true = (true, ctx_cookie) ∧
    apply_client_secret ctx_cookie (JsonNode.JSON_ARRAY []) true = (false, ctx_cookie) ∧
    apply_client_secret ctx_cookie
        (JsonNode.JSON_ARRAY [JsonNode.JSON_NUMBER 1, JsonNode.JSON_NUMBER 256]) true =
      (false, ctx_cookie) ∧
    apply_client_secret ctx_cookie (JsonNode.JSON_NUMBER 7) true = (false, ctx_cookie) := by
  refine ⟨by decide, by decide, by decide, by decide, by decide, by decide⟩

end Cookiectl
